import Mathlib

/-!
# herbstluftwm `monitor.c`: rectangle decomposition and the monitor registry

A shallow embedding of `src/monitor.c`.

* `RectList*` is a `List XRectangle`; a possibly-`NULL` node is an `Option XRectangle`.
* `XRectangle` is the Xlib structure `{ short x, y; unsigned short width, height; }`.
  Fields are `Int`s; every store into a field goes through `toShort`/`toUShort`
  (reduction modulo `2^16`), and `XRectangle.WF` says that the fields are in range.
  Arithmetic on fields happens in C `int` after integer promotion; with fields in
  range every such value has magnitude below `2^18`, so `int` is modelled by `Int`.
* Other `int` values (indices, paddings, pointer coordinates) are `Int`s, and the
  `guint` length of `g_monitors` is the length of a list (an array of `2^31` monitors does
  not exist). The increment of the lock counter in `monitors_lock_command` and the sums
  and differences with the paddings in `monitor_with_coordinate` and
  `monitor_get_relative_x/y` go through `toInt`: signed overflow, undefined in C, is
  modelled there as the wrap-around of two's complement arithmetic. The sum
  `g_cur_monitor + delta` of `monitor_cycle_command` is exact; the statement about it
  is for sums representable as `int`.
* The mutual recursion `reclist_insert_disjoint` / `insert_rect_border` is bounded by a
  `fuel` argument (the depth of the C call stack); `none` means that the fuel ran out.
* The global registry (`g_monitors`, `g_cur_monitor`, settings) is an explicit `State`;
  calls into other modules are appended to `State.calls`.
-/

/-! ## Rectangles -/

/-- Xlib `XRectangle`: `short x, y; unsigned short width, height;`. -/
structure XRectangle where
  x : Int
  y : Int
  width : Int
  height : Int
deriving DecidableEq

/-- Conversion of an `int` to `short` (16 bit two's complement). -/
def toShort (v : Int) : Int := (v + 32768) % 65536 - 32768

/-- Conversion of an `int` to `unsigned short`. -/
def toUShort (v : Int) : Int := v % 65536

/-- The `int` an arithmetic operation yields whose exact result is `v`: `v` itself when it
is representable, and the value of 32 bit two's complement wrap-around otherwise. -/
def toInt (v : Int) : Int := (v + 2147483648) % 4294967296 - 2147483648

/-- The value is representable as an `int`. -/
def int_range (v : Int) : Prop := -2147483648 ≤ v ∧ v ≤ 2147483647

instance (v : Int) : Decidable (int_range v) := by
  unfold int_range; exact inferInstance

/-- The fields of the rectangle are values of their C types. -/
def XRectangle.WF (r : XRectangle) : Prop :=
  (-32768 ≤ r.x ∧ r.x ≤ 32767) ∧ (-32768 ≤ r.y ∧ r.y ≤ 32767) ∧
  (0 ≤ r.width ∧ r.width ≤ 65535) ∧ (0 ≤ r.height ∧ r.height ≤ 65535)

instance (r : XRectangle) : Decidable r.WF := by
  unfold XRectangle.WF; exact inferInstance

/-- The rectangle lies inside the coordinate space of `short`: every point of
`[x, x + width) × [y, y + height)` has coordinates of at most 32767. -/
def XRectangle.InRange (r : XRectangle) : Prop :=
  r.WF ∧ r.x + r.width ≤ 32768 ∧ r.y + r.height ≤ 32768

instance (r : XRectangle) : Decidable r.InRange := by
  unfold XRectangle.InRange; exact inferInstance

/-- A rectangle with width ≤ 0 or height ≤ 0. -/
def XRectangle.degenerate (r : XRectangle) : Prop := r.width ≤ 0 ∨ r.height ≤ 0

instance (r : XRectangle) : Decidable r.degenerate := by
  unfold XRectangle.degenerate; exact inferInstance

/-- The point `(px, py)` lies in the half-open rectangle
`[x, x + width) × [y, y + height)`. -/
def XRectangle.contains (r : XRectangle) (px py : Int) : Prop :=
  r.x ≤ px ∧ px < r.x + r.width ∧ r.y ≤ py ∧ py < r.y + r.height

instance (r : XRectangle) (px py : Int) : Decidable (r.contains px py) := by
  unfold XRectangle.contains; exact inferInstance

/-- Rectangle `a` lies inside rectangle `b` (edge-wise containment). -/
def XRectangle.within (a b : XRectangle) : Prop :=
  b.x ≤ a.x ∧ a.x + a.width ≤ b.x + b.width ∧ b.y ≤ a.y ∧ a.y + a.height ≤ b.y + b.height

instance (a b : XRectangle) : Decidable (a.within b) := by
  unfold XRectangle.within; exact inferInstance

/-- Area `width * height`. -/
def XRectangle.area (r : XRectangle) : Int := r.width * r.height

/-- Modelled from the spec: `intervals_intersect` of `utils.h`, which is not part of
`monitor.c`. "True iff the half-open intervals overlap strictly (zero-width overlap
counts as non-intersecting)": `[a_left, a_right)` and `[b_left, b_right)` overlap when
each starts strictly before the other ends. -/
def intervals_intersect (a_left a_right b_left b_right : Int) : Bool :=
  decide (b_left < a_right) && decide (a_left < b_right)

/-- Function `rects_intersect` (monitor.c:92). -/
def rects_intersect (m1 m2 : XRectangle) : Bool :=
  let is := true
  let is := is && intervals_intersect m1.x (m1.x + m1.width) m2.x (m2.x + m2.width)
  let is := is && intervals_intersect m1.y (m1.y + m1.height) m2.y (m2.y + m2.height)
  is

/-- Function `intersection_area` (monitor.c:102). `MAX`/`MIN` are the glib macros. -/
def intersection_area (m1 m2 : XRectangle) : XRectangle :=
  let rx := toShort (max m1.x m2.x)
  let ry := toShort (max m1.y m2.y)
  let br1_x := m1.x + m1.width
  let br1_y := m1.y + m1.height
  let br2_x := m2.x + m2.width
  let br2_y := m2.y + m2.height
  { x := rx, y := ry,
    width := toUShort (min br1_x br2_x - rx),
    height := toUShort (min br1_y br2_y - ry) }

/-- Function `rectlist_create_simple` (monitor.c:116); `none` is `NULL`. -/
def rectlist_create_simple (x1 y1 x2 y2 : Int) : Option XRectangle :=
  if x1 ≥ x2 ∨ y1 ≥ y2 then none
  else some { x := toShort x1, y := toShort y1,
              width := toUShort (x2 - x1), height := toUShort (y2 - y1) }

/-- The array `parts[] = { top, left, right, bottom }` of `insert_rect_border`
(monitor.c:143-152). -/
def insert_rect_border.parts (large center : XRectangle) : List (Option XRectangle) :=
  let br_x := large.x + large.width
  let br_y := large.y + large.height
  let top := rectlist_create_simple large.x large.y (large.x + large.width) center.y
  let left := rectlist_create_simple large.x center.y center.x (center.y + center.height)
  let right := rectlist_create_simple (center.x + center.width) center.y br_x
    (center.y + center.height)
  let bottom := rectlist_create_simple large.x (center.y + center.height) br_x br_y
  [top, left, right, bottom]

/-- The loop `for (i = 0; i < LENGTH(parts); i++) head = reclist_insert_disjoint(head,
parts[i]);` of `insert_rect_border` (monitor.c:153-155), over the remaining parts. -/
def insert_rect_border.loop
    (reclist_insert_disjoint : List XRectangle → Option XRectangle → Option (List XRectangle)) :
    List (Option XRectangle) → List XRectangle → Option (List XRectangle)
  | [], head => some head
  | part :: parts, head =>
    match reclist_insert_disjoint head part with
    | none => none
    | some head1 => insert_rect_border.loop reclist_insert_disjoint parts head1

/-- Function `insert_rect_border` (monitor.c:129). The function it is mutually recursive with is
passed as the first argument (with the caller's remaining fuel). -/
def insert_rect_border
    (reclist_insert_disjoint : List XRectangle → Option XRectangle → Option (List XRectangle))
    (head : List XRectangle) (large center : XRectangle) : Option (List XRectangle) :=
  insert_rect_border.loop reclist_insert_disjoint (insert_rect_border.parts large center) head

/-- Function `reclist_insert_disjoint` (monitor.c:160). Each call uses one unit of fuel. -/
def reclist_insert_disjoint :
    Nat → List XRectangle → Option XRectangle → Option (List XRectangle)
  | 0, _, _ => none
  | fuel + 1, head, element =>
    match element with
    | none => some head
    | some e =>
      match head with
      | [] => some [e]
      | h :: next =>
        if !rects_intersect h e then
          match reclist_insert_disjoint fuel next (some e) with
          | none => none
          | some next1 => some (h :: next1)
        else
          let center := intersection_area h e
          let large := h
          match insert_rect_border (reclist_insert_disjoint fuel) next large center with
          | none => none
          | some next1 =>
            match insert_rect_border (reclist_insert_disjoint fuel) next1 e center with
            | none => none
            | some next2 => some (center :: next2)

/-- The loop of `disjoin_rects` (monitor.c:203-207) over the rest of `buf`. -/
def disjoin_rects.loop (fuel : Nat) :
    List XRectangle → List XRectangle → Option (List XRectangle)
  | [], rects => some rects
  | cur :: buf, rects =>
    match reclist_insert_disjoint fuel rects (some cur) with
    | none => none
    | some rects1 => disjoin_rects.loop fuel buf rects1

/-- Function `disjoin_rects` (monitor.c:200); `fuel` bounds the recursion depth of every
insertion. -/
def disjoin_rects (fuel : Nat) (buf : List XRectangle) : Option (List XRectangle) :=
  disjoin_rects.loop fuel buf []

/-- Sum of the areas of a list of rectangles. -/
def rectlist_area : List XRectangle → Int
  | [] => 0
  | r :: rs => r.area + rectlist_area rs

/-- Number of degenerate rectangles in a list. -/
def rectlist_degenerate : List XRectangle → Nat
  | [] => 0
  | r :: rs => (if r.degenerate then 1 else 0) + rectlist_degenerate rs

/-- No two rectangles at distinct positions intersect. -/
def rectlist_disjoint (l : List XRectangle) : Prop :=
  l.Pairwise (fun a b => rects_intersect a b = false)

instance (l : List XRectangle) : Decidable (rectlist_disjoint l) := by
  unfold rectlist_disjoint; exact inferInstance

/-- Some rectangle of the list contains the point. -/
def rectlist_covers (l : List XRectangle) (px py : Int) : Prop :=
  ∃ r ∈ l, r.contains px py

instance (l : List XRectangle) (px py : Int) : Decidable (rectlist_covers l px py) := by
  unfold rectlist_covers; exact inferInstance

/-- The parts of a border are inserted one after the other, each insertion being
related to its result by `P`. -/
def insert_rect_border.Chain
    (P : List XRectangle → Option XRectangle → List XRectangle → Prop) :
    List (Option XRectangle) → List XRectangle → List XRectangle → Prop
  | [], head, res => res = head
  | part :: parts, head, res =>
    ∃ head1, P head part head1 ∧ insert_rect_border.Chain P parts head1 res

/-- Postcondition of inserting the rectangles `es` into the list `t` with result `res`,
for well-formed rectangles: the result is well-formed, its area and its number of
degenerate rectangles are bounded by those of the input, it holds a degenerate
rectangle only if the input does, and the first node of a non-empty list stays first
and stays inside its old rectangle. -/
def InsertWF (t es res : List XRectangle) : Prop :=
  (∀ r ∈ t, r.WF) → (∀ r ∈ es, r.WF) →
    (∀ r ∈ res, r.WF) ∧
    rectlist_area res ≤ rectlist_area t + rectlist_area es ∧
    rectlist_degenerate res ≤ rectlist_degenerate t + rectlist_degenerate es ∧
    ((∀ r ∈ t, ¬ r.degenerate) → (∀ r ∈ es, ¬ r.degenerate) → ∀ r ∈ res, ¬ r.degenerate) ∧
    (∀ h0 t0, t = h0 :: t0 → ∃ o rest, res = o :: rest ∧ o.within h0)

/-- Postcondition of inserting the rectangles `es` into the list `t` with result `res`,
for rectangles inside the coordinate space of `short`: the result is inside it, a
rectangle that misses `t` and `es` misses the result, the result covers the points of
`t` and `es`, and a list free of intersections stays so. -/
def InsertInRange (t es res : List XRectangle) : Prop :=
  (∀ r ∈ t, r.InRange) → (∀ r ∈ es, r.InRange) →
    (∀ r ∈ res, r.InRange) ∧
    (∀ x : XRectangle, (∀ r ∈ t, rects_intersect x r = false) →
      (∀ r ∈ es, rects_intersect x r = false) → ∀ r ∈ res, rects_intersect x r = false) ∧
    (∀ px py, rectlist_covers res px py ↔ rectlist_covers t px py ∨ rectlist_covers es px py) ∧
    (rectlist_disjoint t → rectlist_disjoint res)

/-! ## Monitors -/

/-- The comparison `a >= len` of an `int` with the `guint` length of a `GArray`. The
usual arithmetic conversions make it unsigned: a negative `a` converts to a value above
every length. -/
def int_ge_len (a : Int) (len : Nat) : Prop := a < 0 ∨ a ≥ len

instance (a : Int) (len : Nat) : Decidable (int_ge_len a len) := by
  unfold int_ge_len; exact inferInstance

/-- The glib macro `CLAMP(x, low, high)`:
`(((x) > (high)) ? (high) : (((x) < (low)) ? (low) : (x)))`, on `int` operands. -/
def CLAMP (x low high : Int) : Int :=
  if x > high then high else if x < low then low else x

/-- The same macro as `CLAMP(x, low, len - 1)` with `int`s `x`, `low` and the `guint`
length `len` of a `GArray`. The bound `len - 1` is unsigned, so the comparison
`x > high` converts `x` to unsigned: it holds for every negative `x`, and for no `x`
when `len` is 0 and the bound wraps to `UINT_MAX`. -/
def CLAMP_len (x low : Int) (len : Nat) : Int :=
  if len = 0 then (if x < low then low else x)
  else if x < 0 ∨ x > (len : Int) - 1 then (len : Int) - 1
  else if x < low then low else x

/-- Status codes of `ipc-protocol.h` that `monitor.c` returns; `HERBST_SUCCESS` is the
return value `0`, the others are non-zero. -/
inductive Status where
  | HERBST_SUCCESS
  | HERBST_INVALID_ARGUMENT
  | HERBST_TAG_IN_USE
  | HERBST_FORBIDDEN
deriving DecidableEq

/-- Structure `HSMonitor` of `monitor.h`, with the fields `monitor.c` uses. `tag` is the address of
the `HSTag` (never `NULL`, see the assertion in `add_monitor`); `mouse_x`, `mouse_y` are
`mouse.x`, `mouse.y`. -/
structure HSMonitor where
  tag : Nat
  rect : XRectangle
  pad_up : Int
  pad_right : Int
  pad_down : Int
  pad_left : Int
  mouse_x : Int
  mouse_y : Int
  dirty : Bool
deriving DecidableEq

/-- A call into another module (frame layout, X server, hooks). A frame is named by the
tag that owns it (`tag->frame`), a monitor by its index in `g_monitors`. -/
inductive Call where
  | frame_apply_floating_layout (tag : Nat) (monitor : Int)
  | frame_apply_layout (tag : Nat) (rect : XRectangle)
  | frame_focus_recursive (tag : Nat)
  | frame_show_recursive (tag : Nat)
  | frame_hide_recursive (tag : Nat)
  | discard_enter_events
  | XWarpPointer (x y : Int)
  | ewmh_update_current_desktop
  | emit_tag_changed (tag : Nat) (monitor : Int)
  | HSDebug
deriving DecidableEq

/-- The globals `monitor.c` works on. `g_monitors_locked`, `g_swap_monitors_to_get_tag`
and `g_window_gap` are the values the pointers of these names point to; `g_tags` holds
the addresses of the tags; `calls` is the sequence of calls into other modules, oldest
first. -/
structure State where
  g_monitors : List HSMonitor
  g_cur_monitor : Int
  g_monitors_locked : Int
  g_swap_monitors_to_get_tag : Int
  g_window_gap : Int
  g_tags : List Nat
  calls : List Call
deriving DecidableEq

/-- Functions and constants of other modules and of libc that `monitor.c` uses and does
not define; they are parameters of the model. -/
structure Env where
  atoi : String → Int
  parse_rectangle : String → XRectangle
  find_tag : String → Option Nat
  tag_floating : Nat → Bool
  WINDOW_MIN_WIDTH : Int
  WINDOW_MIN_HEIGHT : Int

/-- What `XQueryPointer` returns: whether it returned `True`, and the root coordinates
it stored into `rx`, `ry`. -/
structure PointerQuery where
  ok : Bool
  rx : Int
  ry : Int
deriving DecidableEq

/-- The registry: the sequence of monitors and the current index. -/
def State.registry (s : State) : List HSMonitor × Int := (s.g_monitors, s.g_cur_monitor)

/-- Append a call to the trace. -/
def State.call (s : State) (c : Call) : State := { s with calls := s.calls ++ [c] }

/-- Read through a pointer `&g_array_index(g_monitors, HSMonitor, p)`; `none` when the
pointer is outside the array. -/
def State.monitor (s : State) (p : Int) : Option HSMonitor :=
  if p < 0 then none else s.g_monitors[p.toNat]?

/-- Write through a pointer into `g_monitors`. -/
def State.update_monitor (s : State) (p : Int) (f : HSMonitor → HSMonitor) : State :=
  if p < 0 then s else { s with g_monitors := s.g_monitors.modify f p.toNat }

/-- Function `get_current_monitor` (monitor.c:487): the pointer to element `g_cur_monitor`. -/
def get_current_monitor (s : State) : Int := s.g_cur_monitor

/-- Function `monitor_with_index` (monitor.c:672). -/
def monitor_with_index (s : State) (index : Int) : Option Int :=
  if index < 0 ∨ index ≥ s.g_monitors.length then none else some index

/-- The loop of `find_monitor_with_tag` from index `i` on. -/
def find_monitor_with_tag.loop (tag : Nat) : List HSMonitor → Int → Option Int
  | [], _ => none
  | m :: ms, i => if m.tag = tag then some i else find_monitor_with_tag.loop tag ms (i + 1)

/-- Function `find_monitor_with_tag` (monitor.c:449). -/
def find_monitor_with_tag (s : State) (tag : Nat) : Option Int :=
  find_monitor_with_tag.loop tag s.g_monitors 0

/-- Modelled from the spec: `find_unused_tag` of `tag.h`, which is not part of
`monitor.c`. It yields a tag that no monitor references ("allocating unused tags to any
newly created monitors"), the first such tag of `g_tags`, and `NULL` (`none`) "if no
unused tag is available". -/
def find_unused_tag (s : State) : Option Nat :=
  s.g_tags.find? (fun t => (find_monitor_with_tag s t).isNone)

/-- Function `monitor_apply_layout` (monitor.c:42). -/
def monitor_apply_layout (env : Env) (s : State) (monitor : Option Int) : State :=
  match monitor with
  | none => s
  | some p =>
    match s.monitor p with
    | none => s
    | some m =>
      if s.g_monitors_locked ≠ 0 then
        s.update_monitor p (fun m => { m with dirty := true })
      else
        let s := s.update_monitor p (fun m => { m with dirty := false })
        let rect := m.rect
        let rect := { rect with x := toShort (rect.x + m.pad_left) }
        let rect := { rect with width := toUShort (rect.width - (m.pad_left + m.pad_right)) }
        let rect := { rect with y := toShort (rect.y + m.pad_up) }
        let rect := { rect with height := toUShort (rect.height - (m.pad_up + m.pad_down)) }
        let rect := { rect with x := toShort (rect.x + s.g_window_gap) }
        let rect := { rect with y := toShort (rect.y + s.g_window_gap) }
        let rect := { rect with height := toUShort (rect.height - s.g_window_gap) }
        let rect := { rect with width := toUShort (rect.width - s.g_window_gap) }
        let s :=
          if env.tag_floating m.tag then s.call (Call.frame_apply_floating_layout m.tag p)
          else s.call (Call.frame_apply_layout m.tag rect)
        let s :=
          if get_current_monitor s = p then s.call (Call.frame_focus_recursive m.tag) else s
        s.call Call.discard_enter_events

/-- Function `all_monitors_apply_layout` (monitor.c:491). -/
def all_monitors_apply_layout (env : Env) (s : State) : State :=
  (List.range s.g_monitors.length).foldl
    (fun (s : State) (i : Nat) => monitor_apply_layout env s (some (Int.ofNat i))) s

/-- Function `add_monitor` (monitor.c:276); also returns the pointer to the new monitor. -/
def add_monitor (s : State) (rect : XRectangle) (tag : Nat) : State × Int :=
  let m : HSMonitor :=
    { tag := tag, rect := rect, pad_up := 0, pad_right := 0, pad_down := 0, pad_left := 0,
      mouse_x := 0, mouse_y := 0, dirty := true }
  let s := { s with g_monitors := s.g_monitors ++ [m] }
  (s, (s.g_monitors.length : Int) - 1)

/-- The four optional padding arguments `argv[k]`, `argv[k+1]`, `argv[k+2]`, `argv[k+3]`
(PADUP, PADRIGHT, PADDOWN, PADLEFT), each applied when present and not empty. -/
def set_pads (env : Env) (s : State) (monitor : Int) (argv : List String) (k : Nat) : State :=
  let argc := argv.length
  let s := if argc > k ∧ argv.getD k "" ≠ "" then
      s.update_monitor monitor (fun m => { m with pad_up := env.atoi (argv.getD k "") })
    else s
  let s := if argc > k + 1 ∧ argv.getD (k + 1) "" ≠ "" then
      s.update_monitor monitor
        (fun m => { m with pad_right := env.atoi (argv.getD (k + 1) "") })
    else s
  let s := if argc > k + 2 ∧ argv.getD (k + 2) "" ≠ "" then
      s.update_monitor monitor
        (fun m => { m with pad_down := env.atoi (argv.getD (k + 2) "") })
    else s
  let s := if argc > k + 3 ∧ argv.getD (k + 3) "" ≠ "" then
      s.update_monitor monitor
        (fun m => { m with pad_left := env.atoi (argv.getD (k + 3) "") })
    else s
  s

/-- Function `add_monitor_command` (monitor.c:289); `argc` is the length of `argv`. -/
def add_monitor_command (env : Env) (s : State) (argv : List String) : Status × State :=
  let argc := argv.length
  if argc < 2 then (Status.HERBST_INVALID_ARGUMENT, s)
  else
    let rect := env.parse_rectangle (argv.getD 1 "")
    let found : Except Status Nat :=
      if argc = 2 ∨ argv.getD 2 "" = "" then
        match find_unused_tag s with
        | none => Except.error Status.HERBST_TAG_IN_USE
        | some tag => Except.ok tag
      else
        match env.find_tag (argv.getD 2 "") with
        | none => Except.error Status.HERBST_INVALID_ARGUMENT
        | some tag => Except.ok tag
    match found with
    | Except.error status => (status, s)
    | Except.ok tag =>
      if (find_monitor_with_tag s tag).isSome then (Status.HERBST_TAG_IN_USE, s)
      else
        let (s, monitor) := add_monitor s rect tag
        let s := set_pads env s monitor argv 3
        let s := s.call (Call.frame_show_recursive tag)
        let s := monitor_apply_layout env s (some monitor)
        let s := s.call (Call.emit_tag_changed tag ((s.g_monitors.length : Int) - 1))
        (Status.HERBST_SUCCESS, s)

/-- Function `remove_monitor` (monitor.c:331). -/
def remove_monitor (env : Env) (s : State) (index : Int) : Status × State :=
  if index < 0 ∨ index ≥ s.g_monitors.length then (Status.HERBST_INVALID_ARGUMENT, s)
  else if (s.g_monitors.length : Int) ≤ 1 then (Status.HERBST_FORBIDDEN, s)
  else
    match s.monitor index with
    | none => (Status.HERBST_SUCCESS, s)
    | some monitor =>
      let s := if s.g_cur_monitor > index then
          { s with g_cur_monitor := s.g_cur_monitor - 1 }
        else s
      let s := s.call (Call.frame_hide_recursive monitor.tag)
      let s := { s with g_monitors := s.g_monitors.eraseIdx index.toNat }
      let s := if int_ge_len s.g_cur_monitor s.g_monitors.length then
          let s := { s with g_cur_monitor := s.g_cur_monitor - 1 }
          monitor_apply_layout env s (some (get_current_monitor s))
        else s
      (Status.HERBST_SUCCESS, s)

/-- Function `remove_monitor_command` (monitor.c:322). -/
def remove_monitor_command (env : Env) (s : State) (argv : List String) : Status × State :=
  if argv.length < 2 then (Status.HERBST_INVALID_ARGUMENT, s)
  else
    let index := env.atoi (argv.getD 1 "")
    remove_monitor env s index

/-- Function `move_monitor_command` (monitor.c:358). -/
def move_monitor_command (env : Env) (s : State) (argv : List String) : Status × State :=
  if argv.length < 3 then (Status.HERBST_INVALID_ARGUMENT, s)
  else
    let index := env.atoi (argv.getD 1 "")
    if index < 0 ∨ index ≥ s.g_monitors.length then (Status.HERBST_INVALID_ARGUMENT, s)
    else
      let rect := env.parse_rectangle (argv.getD 2 "")
      if rect.width < env.WINDOW_MIN_WIDTH ∨ rect.height < env.WINDOW_MIN_HEIGHT then
        (Status.HERBST_INVALID_ARGUMENT, s)
      else
        let monitor := index
        let s := s.update_monitor monitor (fun m => { m with rect := rect })
        let s := set_pads env s monitor argv 3
        let s := monitor_apply_layout env s (some monitor)
        (Status.HERBST_SUCCESS, s)

/-- Function `monitor_set_pad_command` (monitor.c:432). -/
def monitor_set_pad_command (env : Env) (s : State) (argv : List String) : Status × State :=
  if argv.length < 2 then (Status.HERBST_INVALID_ARGUMENT, s)
  else
    let index := env.atoi (argv.getD 1 "")
    if index < 0 ∨ index ≥ s.g_monitors.length then (Status.HERBST_INVALID_ARGUMENT, s)
    else
      let monitor := index
      let s := set_pads env s monitor argv 2
      let s := monitor_apply_layout env s (some monitor)
      (Status.HERBST_SUCCESS, s)

/-- First loop of `set_monitor_rects` (monitor.c:255-258): `for (i = 0; i < MIN(count,
g_monitors->len); i++)`, over the remaining templates; returns the state, `i` and the
templates not yet used. -/
def set_monitor_rects.loop_rects (s : State) :
    List XRectangle → Int → State × Int × List XRectangle
  | [], i => (s, i, [])
  | t :: ts, i =>
    if i < s.g_monitors.length then
      match monitor_with_index s i with
      | none => (s, i, t :: ts)
      | some m =>
        set_monitor_rects.loop_rects (s.update_monitor m (fun mon => { mon with rect := t }))
          ts (i + 1)
    else (s, i, t :: ts)

/-- Second loop of `set_monitor_rects` (monitor.c:260-267): `for (; i < count; i++)`,
over the remaining templates; `Except.error` is the early `return HERBST_TAG_IN_USE`. -/
def set_monitor_rects.loop_add (s : State) :
    List XRectangle → Int → Except State (State × Int)
  | [], i => Except.ok (s, i)
  | t :: ts, i =>
    match find_unused_tag s with
    | none => Except.error s
    | some tag =>
      let s := (add_monitor s t tag).1
      let s := s.call (Call.frame_show_recursive tag)
      set_monitor_rects.loop_add s ts (i + 1)

/-- Third loop of `set_monitor_rects` (monitor.c:269-271): `while (i < g_monitors->len)
remove_monitor(i);`. Every iteration that removes a monitor shortens the array, so the
number of monitors at loop entry bounds the number of iterations (first argument). -/
def set_monitor_rects.loop_remove (env : Env) : Nat → State → Int → State
  | 0, s, _ => s
  | n + 1, s, i =>
    if i < s.g_monitors.length then
      set_monitor_rects.loop_remove env n (remove_monitor env s i).2 i
    else s

/-- Function `set_monitor_rects` (monitor.c:249); `count` is the length of `templates`. -/
def set_monitor_rects (env : Env) (s : State) (templates : List XRectangle) :
    Status × State :=
  if templates.length < 1 then (Status.HERBST_INVALID_ARGUMENT, s)
  else
    let (s, i, rest) := set_monitor_rects.loop_rects s templates 0
    match set_monitor_rects.loop_add s rest i with
    | Except.error s => (Status.HERBST_TAG_IN_USE, s)
    | Except.ok (s, i) =>
      let s := set_monitor_rects.loop_remove env s.g_monitors.length s i
      let s := all_monitors_apply_layout env s
      (Status.HERBST_SUCCESS, s)

/-- Function `set_monitor_rects_command` (monitor.c:234); here `argv` is the argument vector
after the `SHIFT`, the rectangles only. -/
def set_monitor_rects_command (env : Env) (s : State) (argv : List String) :
    Status × State :=
  if argv.length < 1 then (Status.HERBST_INVALID_ARGUMENT, s)
  else
    let templates := argv.map env.parse_rectangle
    set_monitor_rects env s templates

/-- Function `monitor_focus_by_index` (monitor.c:598). The first `CLAMP` has the `guint` bound
`g_monitors->len - 1`, the two others are on `int`s. `q` is the outcome of
`XQueryPointer`. -/
def monitor_focus_by_index (env : Env) (s : State) (new_selection : Int)
    (q : PointerQuery) : State :=
  let new_selection := CLAMP_len new_selection 0 s.g_monitors.length
  let old := s.g_cur_monitor
  let monitor := new_selection
  if old = monitor then s
  else
    match s.monitor monitor with
    | none => s
    | some mon =>
      let s := { s with g_cur_monitor := new_selection }
      let s := s.call (Call.frame_focus_recursive mon.tag)
      let s := monitor_apply_layout env s (some old)
      let s := monitor_apply_layout env s (some monitor)
      let rx := q.rx
      let ry := q.ry
      let s :=
        if q.ok then
          let s := s.update_monitor old (fun o => { o with mouse_x := rx - o.rect.x })
          let s := s.update_monitor old (fun o => { o with mouse_y := ry - o.rect.y })
          let s := s.update_monitor old
            (fun o => { o with mouse_x := CLAMP o.mouse_x 0 (o.rect.width - 1) })
          s.update_monitor old
            (fun o => { o with mouse_y := CLAMP o.mouse_y 0 (o.rect.height - 1) })
        else s
      let s :=
        if mon.rect.x ≤ rx ∧ rx < mon.rect.x + mon.rect.width ∧
            mon.rect.y ≤ ry ∧ ry < mon.rect.y + mon.rect.height then s
        else
          let new_x := mon.rect.x + mon.mouse_x
          let new_y := mon.rect.y + mon.mouse_y
          let s := s.call (Call.XWarpPointer new_x new_y)
          s.call Call.discard_enter_events
      let s := s.call Call.ewmh_update_current_desktop
      s.call (Call.emit_tag_changed mon.tag new_selection)

/-- Function `monitor_focus_command` (monitor.c:568). -/
def monitor_focus_command (env : Env) (s : State) (argv : List String)
    (q : PointerQuery) : Status × State :=
  if argv.length < 2 then (Status.HERBST_INVALID_ARGUMENT, s)
  else
    let new_selection := env.atoi (argv.getD 1 "")
    (Status.HERBST_SUCCESS, monitor_focus_by_index env s new_selection q)

/-- Function `monitor_cycle_command` (monitor.c:578). `%` is the C remainder (truncating). -/
def monitor_cycle_command (env : Env) (s : State) (argv : List String)
    (q : PointerQuery) : Status × State :=
  let delta : Int := 1
  let count : Int := s.g_monitors.length
  let delta := if argv.length ≥ 2 then env.atoi (argv.getD 1 "") else delta
  let new_selection := s.g_cur_monitor + delta
  let new_selection := Int.tmod new_selection count
  let new_selection := new_selection + count
  let new_selection := Int.tmod new_selection count
  (Status.HERBST_SUCCESS, monitor_focus_by_index env s new_selection q)

/-- Function `monitor_set_tag` (monitor.c:498); `monitor` is a pointer into
`g_monitors`. -/
def monitor_set_tag (env : Env) (s : State) (monitor : Int) (tag : Nat) : State :=
  let other := find_monitor_with_tag s tag
  if some monitor = other then s
  else
    match s.monitor monitor with
    | none => s
    | some mon =>
      match other with
      | some o =>
        if s.g_swap_monitors_to_get_tag ≠ 0 then
          let s := s.update_monitor o (fun m => { m with tag := mon.tag })
          let s := s.update_monitor monitor (fun m => { m with tag := tag })
          let s := s.call (Call.frame_focus_recursive tag)
          let s := monitor_apply_layout env s (some o)
          let s := monitor_apply_layout env s (some monitor)
          let s := s.call Call.ewmh_update_current_desktop
          let s := s.call (Call.emit_tag_changed mon.tag o)
          s.call (Call.emit_tag_changed tag s.g_cur_monitor)
        else s
      | none =>
        let old_tag := mon.tag
        let s := s.update_monitor monitor (fun m => { m with tag := tag })
        let s := s.call (Call.frame_focus_recursive tag)
        let s := monitor_apply_layout env s (some monitor)
        let s := s.call (Call.frame_show_recursive tag)
        let s := s.call (Call.frame_hide_recursive old_tag)
        let s := s.call (Call.frame_focus_recursive tag)
        let s := s.call Call.discard_enter_events
        let s := s.call Call.ewmh_update_current_desktop
        s.call (Call.emit_tag_changed tag s.g_cur_monitor)

/-- Function `monitor_set_tag_command` (monitor.c:540). -/
def monitor_set_tag_command (env : Env) (s : State) (argv : List String) : Status × State :=
  if argv.length < 2 then (Status.HERBST_INVALID_ARGUMENT, s)
  else
    let monitor := get_current_monitor s
    match env.find_tag (argv.getD 1 "") with
    | none => (Status.HERBST_SUCCESS, s)
    | some tag => (Status.HERBST_SUCCESS, monitor_set_tag env s monitor tag)

/-- Function `monitor_get_relative_x` (monitor.c:650); both subtractions are `int`
operations. -/
def monitor_get_relative_x (m : HSMonitor) (x_root : Int) : Int :=
  toInt (toInt (x_root - m.rect.x) - m.pad_left)

/-- Function `monitor_get_relative_y` (monitor.c:654); both subtractions are `int`
operations. -/
def monitor_get_relative_y (m : HSMonitor) (y_root : Int) : Int :=
  toInt (toInt (y_root - m.rect.y) - m.pad_up)

/-- The loop of `monitor_with_coordinate` from index `i` on. The sums and differences of
the test are `int` operations on the promoted fields of the rectangle and the `int`
paddings. -/
def monitor_with_coordinate.loop (x y : Int) : List HSMonitor → Int → Option Int
  | [], _ => none
  | m :: ms, i =>
    if toInt (m.rect.x + m.pad_left) ≤ x ∧
        toInt (toInt (m.rect.x + m.rect.width) - m.pad_right) > x ∧
        toInt (m.rect.y + m.pad_up) ≤ y ∧
        toInt (toInt (m.rect.y + m.rect.height) - m.pad_down) > y then
      some i
    else monitor_with_coordinate.loop x y ms (i + 1)

/-- Function `monitor_with_coordinate` (monitor.c:658). -/
def monitor_with_coordinate (s : State) (x y : Int) : Option Int :=
  monitor_with_coordinate.loop x y s.g_monitors 0

/-- Function `monitors_lock_changed` (monitor.c:703). -/
def monitors_lock_changed (env : Env) (s : State) : State :=
  let s :=
    if s.g_monitors_locked < 0 then
      ({ s with g_monitors_locked := 0 }).call Call.HSDebug
    else s
  if s.g_monitors_locked = 0 then
    (List.range s.g_monitors.length).foldl
      (fun (s : State) (i : Nat) =>
        match s.monitor (Int.ofNat i) with
        | none => s
        | some m => if m.dirty then monitor_apply_layout env s (some (Int.ofNat i)) else s) s
  else s

/-- Function `monitors_lock_command` (monitor.c:679). The increment
`(*g_monitors_locked)++` is an `int` operation: at `INT_MAX` it wraps around. -/
def monitors_lock_command (env : Env) (s : State) : Status × State :=
  let s := if s.g_monitors_locked < 0 then { s with g_monitors_locked := 0 } else s
  let s := { s with g_monitors_locked := toInt (s.g_monitors_locked + 1) }
  (Status.HERBST_SUCCESS, monitors_lock_changed env s)

/-- Function `monitors_unlock_command` (monitor.c:691). The decrement is applied to a
counter of at least 1, so it cannot overflow. -/
def monitors_unlock_command (env : Env) (s : State) : Status × State :=
  let s := if s.g_monitors_locked < 1 then { s with g_monitors_locked := 1 } else s
  let s := { s with g_monitors_locked := s.g_monitors_locked - 1 }
  (Status.HERBST_SUCCESS, monitors_lock_changed env s)

/-- One operation on the registry, with its arguments. -/
inductive Op where
  | add_monitor (rect : XRectangle) (tag : Nat)
  | add_monitor_command (argv : List String)
  | remove_monitor (index : Int)
  | remove_monitor_command (argv : List String)
  | set_monitor_rects (templates : List XRectangle)
  | set_monitor_rects_command (argv : List String)
  | monitor_focus_by_index (new_selection : Int) (q : PointerQuery)
  | monitor_focus_command (argv : List String) (q : PointerQuery)
  | monitor_cycle_command (argv : List String) (q : PointerQuery)

/-- The state after an operation, whether it succeeds or is rejected. -/
def run_op (env : Env) (s : State) : Op → State
  | Op.add_monitor rect tag => (add_monitor s rect tag).1
  | Op.add_monitor_command argv => (add_monitor_command env s argv).2
  | Op.remove_monitor index => (remove_monitor env s index).2
  | Op.remove_monitor_command argv => (remove_monitor_command env s argv).2
  | Op.set_monitor_rects templates => (set_monitor_rects env s templates).2
  | Op.set_monitor_rects_command argv => (set_monitor_rects_command env s argv).2
  | Op.monitor_focus_by_index new_selection q => monitor_focus_by_index env s new_selection q
  | Op.monitor_focus_command argv q => (monitor_focus_command env s argv q).2
  | Op.monitor_cycle_command argv q => (monitor_cycle_command env s argv q).2

/-- The registry invariant: at least one monitor, and the current index is an index of
the array. -/
def State.Inv (s : State) : Prop :=
  1 ≤ s.g_monitors.length ∧ 0 ≤ s.g_cur_monitor ∧ s.g_cur_monitor < s.g_monitors.length

instance (s : State) : Decidable s.Inv := by
  unfold State.Inv; exact inferInstance

/-- An environment for concrete runs: no tag is known by name, no tag is floating,
every number parses to 0 and every rectangle to `800x600+0+0`. -/
def example_env : Env :=
  { atoi := fun _ => 0,
    parse_rectangle := fun _ => { x := 0, y := 0, width := 800, height := 600 },
    find_tag := fun _ => none,
    tag_floating := fun _ => false,
    WINDOW_MIN_WIDTH := 32,
    WINDOW_MIN_HEIGHT := 32 }

/-- A registry with the given monitors, the first one current, unlocked, whose tags are
exactly the tags of the monitors (so no tag is unused). -/
def example_state (monitors : List HSMonitor) : State :=
  { g_monitors := monitors,
    g_cur_monitor := 0,
    g_monitors_locked := 0,
    g_swap_monitors_to_get_tag := 0,
    g_window_gap := 0,
    g_tags := monitors.map (fun m => m.tag),
    calls := [] }

/-- A monitor without padding, with the mouse offset `(0, 0)`, whose layout has been
applied (it is not dirty). -/
def example_monitor (tag : Nat) (rect : XRectangle) : HSMonitor :=
  { tag := tag, rect := rect, pad_up := 0, pad_right := 0, pad_down := 0, pad_left := 0,
    mouse_x := 0, mouse_y := 0, dirty := false }

/-! ## Further functions of `monitor.c` and notions used in the statements -/

/-- Function `ensure_monitors_are_available` (monitor.c:460). `display_width` and
`display_height` are the values of `DisplayWidth(..)` and `DisplayHeight(..)`, stored
into the `unsigned short` fields of the rectangle; `ensure_tags_are_available` is the
function of `tag.h`, as what it does to `g_tags`; all three are parameters. The
assignment to `g_cur_frame`, a global of the layout module, is outside `State`, and
reading `g_tags[0]` of an empty array is not modelled. -/
def ensure_monitors_are_available (s : State) (display_width display_height : Int)
    (ensure_tags_are_available : List Nat → List Nat) : State :=
  if s.g_monitors.length > 0 then s
  else
    let rect : XRectangle :=
      { x := 0, y := 0, width := toUShort display_width, height := toUShort display_height }
    let s := { s with g_tags := ensure_tags_are_available s.g_tags }
    match s.g_tags with
    | [] => s
    | tag :: _ =>
      let s := (add_monitor s rect tag).1
      { s with g_cur_monitor := 0 }

/-- The text `g_string_printf(*result, "%d %d %d %d", a, b, c, d)` produces. -/
def printf_d4 (a b c d : Int) : String :=
  toString a ++ " " ++ toString b ++ " " ++ toString c ++ " " ++ toString d

/-- The second half of `monitor_rect_command` (monitor.c:404-429), once `index_str` and
`with_pad` are set. `sscanf_d str` is the number `sscanf(str, "%d", &index)` stores when
it returns 1, and `none` when it does not return 1. -/
def monitor_rect_command.print (sscanf_d : String → Option Int) (s : State)
    (index_str : Option String) (with_pad : Bool) : Status × Option String :=
  let found : Except Status (Option Int) :=
    match index_str with
    | none => Except.ok none
    | some str =>
      match sscanf_d str with
      | none => Except.ok none
      | some index =>
        match monitor_with_index s index with
        | none => Except.error Status.HERBST_INVALID_ARGUMENT
        | some m => Except.ok (some m)
  match found with
  | Except.error status => (status, none)
  | Except.ok m =>
    let m := match m with
      | none => get_current_monitor s
      | some m => m
    match s.monitor m with
    | none => (Status.HERBST_SUCCESS, none)
    | some mon =>
      let rect := mon.rect
      let rect :=
        if with_pad then
          let rect := { rect with x := toShort (rect.x + mon.pad_left) }
          let rect :=
            { rect with width := toUShort (rect.width - (mon.pad_left + mon.pad_right)) }
          let rect := { rect with y := toShort (rect.y + mon.pad_up) }
          { rect with height := toUShort (rect.height - (mon.pad_up + mon.pad_down)) }
        else rect
      (Status.HERBST_SUCCESS, some (printf_d4 rect.x rect.y rect.width rect.height))

/-- Function `monitor_rect_command` (monitor.c:383), usage `monitor_rect [[-p] INDEX]`.
The result is the status and the text put into `*result` (`none`: nothing is printed);
the messages on `stderr` are left out. -/
def monitor_rect_command (sscanf_d : String → Option Int) (s : State)
    (argv : List String) : Status × Option String :=
  let argc := argv.length
  let index_str : Option String := none
  let with_pad := false
  let index_str := if argc > 1 then some (argv.getD 1 "") else index_str
  if argc > 2 then
    let index_str := some (argv.getD 2 "")
    if argv.getD 1 "" = "-p" then
      let with_pad := true
      monitor_rect_command.print sscanf_d s index_str with_pad
    else (Status.HERBST_INVALID_ARGUMENT, none)
  else monitor_rect_command.print sscanf_d s index_str with_pad

/-- A `sscanf` for concrete runs: it reads the numbers `0`, `1` and `2` and nothing else
(in particular not `-p`). -/
def example_sscanf_d (str : String) : Option Int :=
  if str = "0" then some 0 else if str = "1" then some 1 else if str = "2" then some 2
  else none

/-- The tags the monitors of the registry are bound to, in registry order. -/
def State.tags (s : State) : List Nat := s.g_monitors.map (fun m => m.tag)

/-- The rectangle `monitor_apply_layout` hands to `frame_apply_layout`
(monitor.c:49-59): the monitor's rectangle with the pads and the window gap applied. -/
def monitor_apply_layout.rect (m : HSMonitor) (g_window_gap : Int) : XRectangle :=
  let rect := m.rect
  let rect := { rect with x := toShort (rect.x + m.pad_left) }
  let rect := { rect with width := toUShort (rect.width - (m.pad_left + m.pad_right)) }
  let rect := { rect with y := toShort (rect.y + m.pad_up) }
  let rect := { rect with height := toUShort (rect.height - (m.pad_up + m.pad_down)) }
  let rect := { rect with x := toShort (rect.x + g_window_gap) }
  let rect := { rect with y := toShort (rect.y + g_window_gap) }
  let rect := { rect with height := toUShort (rect.height - g_window_gap) }
  { rect with width := toUShort (rect.width - g_window_gap) }

/-- The calls one application of the layout to the monitor `m` at index `p` makes when
the monitors are not locked (monitor.c:60-72): one layout call, the focus call when the
monitor is the current one, and the removal of the enter events. -/
def monitor_apply_layout.calls (env : Env) (g_window_gap g_cur_monitor : Int) (p : Int)
    (m : HSMonitor) : List Call :=
  [if env.tag_floating m.tag then Call.frame_apply_floating_layout m.tag p
   else Call.frame_apply_layout m.tag (monitor_apply_layout.rect m g_window_gap)] ++
  (if g_cur_monitor = p then [Call.frame_focus_recursive m.tag] else []) ++
  [Call.discard_enter_events]

/-- One application of the layout for every dirty monitor of the list, in order; the
first monitor of the list has index `i`. -/
def monitors_lock_changed.calls (env : Env) (g_window_gap g_cur_monitor : Int) :
    Int → List HSMonitor → List Call
  | _, [] => []
  | i, m :: ms =>
    (if m.dirty then monitor_apply_layout.calls env g_window_gap g_cur_monitor i m else []) ++
    monitors_lock_changed.calls env g_window_gap g_cur_monitor (i + 1) ms

/-- A call of the frame layout: `frame_apply_layout` or `frame_apply_floating_layout`. -/
def Call.is_layout : Call → Bool
  | Call.frame_apply_floating_layout _ _ => true
  | Call.frame_apply_layout _ _ => true
  | _ => false

/-- The remembered mouse offset lies inside the monitor's rectangle. -/
def HSMonitor.mouse_in_rect (m : HSMonitor) : Prop :=
  (0 ≤ m.mouse_x ∧ m.mouse_x ≤ m.rect.width - 1) ∧
  (0 ≤ m.mouse_y ∧ m.mouse_y ≤ m.rect.height - 1)

instance (m : HSMonitor) : Decidable m.mouse_in_rect := by
  unfold HSMonitor.mouse_in_rect; exact inferInstance

/-- An operation that writes a monitor's rectangle or its remembered mouse offset. -/
inductive MouseOp where
  | add_monitor (rect : XRectangle) (tag : Nat)
  | move_monitor_command (argv : List String)
  | set_monitor_rects (templates : List XRectangle)
  | monitor_focus_by_index (new_selection : Int) (q : PointerQuery)

/-- The state after a `MouseOp`, whether it succeeds or is rejected. -/
def run_mouse_op (env : Env) (s : State) : MouseOp → State
  | MouseOp.add_monitor rect tag => (add_monitor s rect tag).1
  | MouseOp.move_monitor_command argv => (move_monitor_command env s argv).2
  | MouseOp.set_monitor_rects templates => (set_monitor_rects env s templates).2
  | MouseOp.monitor_focus_by_index new_selection q =>
    monitor_focus_by_index env s new_selection q

/-- The remembered mouse offset of the monitor (if there is one) is below the width and
the height of `rect`. -/
def mouse_fits (m : Option HSMonitor) (rect : XRectangle) : Prop :=
  match m with
  | none => True
  | some m => m.mouse_x ≤ rect.width - 1 ∧ m.mouse_y ≤ rect.height - 1

instance (m : Option HSMonitor) (rect : XRectangle) : Decidable (mouse_fits m rect) := by
  cases m with
  | none => exact isTrue trivial
  | some m => unfold mouse_fits; exact inferInstance

/-- The templates of `set_monitor_rects` suit the monitors: the template with the index
of a monitor of the registry is large enough for the mouse offset this monitor
remembers, and the further templates, for which monitors are added, have positive width
and height. -/
def templates_fit : List XRectangle → List HSMonitor → Prop
  | [], _ => True
  | t :: ts, [] => (0 < t.width ∧ 0 < t.height) ∧ templates_fit ts []
  | t :: ts, m :: ms => mouse_fits (some m) t ∧ templates_fit ts ms

instance templates_fit.decidable :
    (ts : List XRectangle) → (ms : List HSMonitor) → Decidable (templates_fit ts ms)
  | [], _ => isTrue trivial
  | t :: ts, [] =>
    have := templates_fit.decidable ts []
    inferInstanceAs (Decidable ((0 < t.width ∧ 0 < t.height) ∧ templates_fit ts []))
  | t :: ts, m :: ms =>
    have := templates_fit.decidable ts ms
    inferInstanceAs (Decidable (mouse_fits (some m) t ∧ templates_fit ts ms))

/-- The condition under which a `MouseOp` keeps the mouse offsets inside the rectangles:
`add_monitor` gets a rectangle of positive width and height; the rectangle
`move_monitor` parses is large enough for the mouse offset the moved monitor remembers;
the templates of `set_monitor_rects` are large enough for the mouse offsets of the
monitors they are given to, and of positive width and height where a monitor is added.
`monitor_focus_by_index` needs no condition. -/
def mouse_op_fits (env : Env) (s : State) : MouseOp → Prop
  | MouseOp.add_monitor rect _ => 0 < rect.width ∧ 0 < rect.height
  | MouseOp.move_monitor_command argv =>
    mouse_fits (s.monitor (env.atoi (argv.getD 1 ""))) (env.parse_rectangle (argv.getD 2 ""))
  | MouseOp.set_monitor_rects templates => templates_fit templates s.g_monitors
  | MouseOp.monitor_focus_by_index _ _ => True

instance (env : Env) (s : State) (op : MouseOp) : Decidable (mouse_op_fits env s op) := by
  cases op <;> unfold mouse_op_fits <;> exact inferInstance

/-- Every operation of the sequence, run from `s`, satisfies `mouse_op_fits` in the state
it is run in. -/
def mouse_run (env : Env) : State → List MouseOp → Prop
  | _, [] => True
  | s, op :: ops => mouse_op_fits env s op ∧ mouse_run env (run_mouse_op env s op) ops

instance mouse_run.decidable (env : Env) :
    (s : State) → (ops : List MouseOp) → Decidable (mouse_run env s ops)
  | _, [] => isTrue trivial
  | s, op :: ops =>
    have := mouse_run.decidable env (run_mouse_op env s op) ops
    inferInstanceAs (Decidable (mouse_op_fits env s op ∧
      mouse_run env (run_mouse_op env s op) ops))

/-- The point `(x, y)` lies in the padded rectangle of the monitor, in exact integer
arithmetic: `rect.x + pad_left ≤ x < rect.x + rect.width - pad_right` and
`rect.y + pad_up ≤ y < rect.y + rect.height - pad_down`. -/
def HSMonitor.padded_contains (m : HSMonitor) (x y : Int) : Prop :=
  m.rect.x + m.pad_left ≤ x ∧ x < m.rect.x + m.rect.width - m.pad_right ∧
  m.rect.y + m.pad_up ≤ y ∧ y < m.rect.y + m.rect.height - m.pad_down

instance (m : HSMonitor) (x y : Int) : Decidable (m.padded_contains x y) := by
  unfold HSMonitor.padded_contains; exact inferInstance

/-- None of the `int` sums and differences `monitor_with_coordinate` computes for the
monitor (monitor.c:662-665) overflows. -/
def HSMonitor.padded_in_int (m : HSMonitor) : Prop :=
  int_range (m.rect.x + m.pad_left) ∧
  int_range (m.rect.x + m.rect.width) ∧
  int_range (m.rect.x + m.rect.width - m.pad_right) ∧
  int_range (m.rect.y + m.pad_up) ∧
  int_range (m.rect.y + m.rect.height) ∧
  int_range (m.rect.y + m.rect.height - m.pad_down)

instance (m : HSMonitor) : Decidable m.padded_in_int := by
  unfold HSMonitor.padded_in_int; exact inferInstance

/-- None of the `int` differences `monitor_get_relative_x m x` and
`monitor_get_relative_y m y` compute (monitor.c:651, 655) overflows. -/
def HSMonitor.relative_in_int (m : HSMonitor) (x y : Int) : Prop :=
  int_range (x - m.rect.x) ∧ int_range (x - m.rect.x - m.pad_left) ∧
  int_range (y - m.rect.y) ∧ int_range (y - m.rect.y - m.pad_up)

instance (m : HSMonitor) (x y : Int) : Decidable (m.relative_in_int x y) := by
  unfold HSMonitor.relative_in_int; exact inferInstance

/-- The registry `example_state monitors` with the lock counter at 1. -/
def example_locked_state (monitors : List HSMonitor) : State :=
  { example_state monitors with g_monitors_locked := 1 }

/-- The monitor `example_monitor tag rect` with its dirty flag set. -/
def example_dirty_monitor (tag : Nat) (rect : XRectangle) : HSMonitor :=
  { example_monitor tag rect with dirty := true }

/-! # Theorems -/

/-! ## Machine integers -/

theorem toShort_eq (v : Int) (h1 : -32768 ≤ v) (h2 : v ≤ 32767) : toShort v = v := by
  unfold toShort; omega

theorem toUShort_eq (v : Int) (h1 : 0 ≤ v) (h2 : v ≤ 65535) : toUShort v = v := by
  unfold toUShort; omega

theorem toShort_range (v : Int) : -32768 ≤ toShort v ∧ toShort v ≤ 32767 := by
  unfold toShort; omega

theorem toUShort_range (v : Int) : 0 ≤ toUShort v ∧ toUShort v ≤ 65535 := by
  unfold toUShort; omega

theorem toInt_eq (v : Int) (h : int_range v) : toInt v = v := by
  unfold int_range at h
  unfold toInt
  omega

theorem toInt_range (v : Int) : int_range (toInt v) := by
  unfold int_range toInt
  omega

/-! ## Fuel -/

theorem reclist_insert_disjoint_none (fuel : Nat) (head : List XRectangle) :
    reclist_insert_disjoint (fuel + 1) head none = some head := rfl

theorem reclist_insert_disjoint_nil (fuel : Nat) (e : XRectangle) :
    reclist_insert_disjoint (fuel + 1) [] (some e) = some [e] := rfl

theorem reclist_insert_disjoint_skip (fuel : Nat) (h e : XRectangle) (next : List XRectangle)
    (hi : rects_intersect h e = false) :
    reclist_insert_disjoint (fuel + 1) (h :: next) (some e) =
      (reclist_insert_disjoint fuel next (some e)).map (fun next1 => h :: next1) := by
  show (if (!rects_intersect h e) = true then _ else _) = _
  rw [hi]
  cases reclist_insert_disjoint fuel next (some e) <;> rfl

theorem reclist_insert_disjoint_split (fuel : Nat) (h e : XRectangle) (next : List XRectangle)
    (hi : rects_intersect h e = true) :
    reclist_insert_disjoint (fuel + 1) (h :: next) (some e) =
      (insert_rect_border (reclist_insert_disjoint fuel) next h (intersection_area h e)).bind
        (fun next1 =>
          (insert_rect_border (reclist_insert_disjoint fuel) next1 e
            (intersection_area h e)).map
            (fun next2 => intersection_area h e :: next2)) := by
  show (if (!rects_intersect h e) = true then _ else _) = _
  rw [hi]
  cases insert_rect_border (reclist_insert_disjoint fuel) next h (intersection_area h e) with
  | none => rfl
  | some next1 =>
    show (match insert_rect_border (reclist_insert_disjoint fuel) next1 e
      (intersection_area h e) with | none => none | some next2 => _) =
      Option.map _ (insert_rect_border (reclist_insert_disjoint fuel) next1 e
      (intersection_area h e))
    cases insert_rect_border (reclist_insert_disjoint fuel) next1 e (intersection_area h e) <;> rfl

theorem insert_rect_border_loop_mono
    (ins1 ins2 : List XRectangle → Option XRectangle → Option (List XRectangle))
    (hins : ∀ l e r, ins1 l e = some r → ins2 l e = some r) :
    ∀ (parts : List (Option XRectangle)) (head res : List XRectangle),
      insert_rect_border.loop ins1 parts head = some res →
      insert_rect_border.loop ins2 parts head = some res := by
  intro parts
  induction parts with
  | nil => intro head res h; simpa [insert_rect_border.loop] using h
  | cons p ps ih =>
    intro head res h
    simp only [insert_rect_border.loop] at h ⊢
    cases h1 : ins1 head p with
    | none => simp [h1] at h
    | some head1 =>
      rw [h1] at h
      rw [hins _ _ _ h1]
      exact ih _ _ h

theorem reclist_insert_disjoint_succ :
    ∀ (fuel : Nat) (head : List XRectangle) (element : Option XRectangle)
      (res : List XRectangle),
      reclist_insert_disjoint fuel head element = some res →
      reclist_insert_disjoint (fuel + 1) head element = some res := by
  intro fuel
  induction fuel with
  | zero => intro head element res h; simp [reclist_insert_disjoint] at h
  | succ n ih =>
    intro head element res h
    cases element with
    | none => rw [reclist_insert_disjoint_none] at h ⊢; exact h
    | some e =>
      cases head with
      | nil => rw [reclist_insert_disjoint_nil] at h ⊢; exact h
      | cons hd next =>
        by_cases hi : rects_intersect hd e = true
        · rw [reclist_insert_disjoint_split _ _ _ _ hi] at h ⊢
          obtain ⟨next1, h1, h2⟩ := Option.bind_eq_some.mp h
          obtain ⟨next2, h3, h4⟩ := Option.map_eq_some'.mp h2
          rw [show insert_rect_border (reclist_insert_disjoint (n + 1)) next hd
            (intersection_area hd e) = some next1 from
            insert_rect_border_loop_mono _ _ ih _ _ _ h1]
          rw [Option.some_bind]
          rw [show insert_rect_border (reclist_insert_disjoint (n + 1)) next1 e
            (intersection_area hd e) = some next2 from
            insert_rect_border_loop_mono _ _ ih _ _ _ h3]
          rw [Option.map_some', h4]
        · have hi2 : rects_intersect hd e = false := by simpa using hi
          rw [reclist_insert_disjoint_skip _ _ _ _ hi2] at h ⊢
          obtain ⟨next1, h1, h2⟩ := Option.map_eq_some'.mp h
          rw [ih _ _ _ h1, Option.map_some', h2]

theorem reclist_insert_disjoint_mono (fuel1 fuel2 : Nat) (hle : fuel1 ≤ fuel2)
    (head : List XRectangle) (element : Option XRectangle) (res : List XRectangle)
    (h : reclist_insert_disjoint fuel1 head element = some res) :
    reclist_insert_disjoint fuel2 head element = some res := by
  induction hle with
  | refl => exact h
  | step _ ih => exact reclist_insert_disjoint_succ _ _ _ _ ih

theorem insert_rect_border_loop_fuel_mono (fuel1 fuel2 : Nat) (hle : fuel1 ≤ fuel2)
    (parts : List (Option XRectangle)) (head res : List XRectangle)
    (h : insert_rect_border.loop (reclist_insert_disjoint fuel1) parts head = some res) :
    insert_rect_border.loop (reclist_insert_disjoint fuel2) parts head = some res :=
  insert_rect_border_loop_mono _ _
    (fun l e r hr => reclist_insert_disjoint_mono fuel1 fuel2 hle l e r hr) parts head res h

theorem disjoin_rects_loop_mono (fuel1 fuel2 : Nat) (hle : fuel1 ≤ fuel2) :
    ∀ (buf rects res : List XRectangle),
      disjoin_rects.loop fuel1 buf rects = some res →
      disjoin_rects.loop fuel2 buf rects = some res := by
  intro buf
  induction buf with
  | nil => intro rects res h; simpa [disjoin_rects.loop] using h
  | cons c cs ih =>
    intro rects res h
    simp only [disjoin_rects.loop] at h ⊢
    cases h1 : reclist_insert_disjoint fuel1 rects (some c) with
    | none => simp [h1] at h
    | some rects1 =>
      rw [h1] at h
      rw [reclist_insert_disjoint_mono fuel1 fuel2 hle _ _ _ h1]
      exact ih _ _ h

/-! ## An induction principle for the insertion -/

theorem insert_rect_border_chain_of_loop
    (P : List XRectangle → Option XRectangle → List XRectangle → Prop)
    (ins : List XRectangle → Option XRectangle → Option (List XRectangle))
    (hins : ∀ l e r, ins l e = some r → P l e r) :
    ∀ (parts : List (Option XRectangle)) (head res : List XRectangle),
      insert_rect_border.loop ins parts head = some res →
      insert_rect_border.Chain P parts head res := by
  intro parts
  induction parts with
  | nil =>
    intro head res h
    simp only [insert_rect_border.loop, Option.some.injEq] at h
    exact h.symm
  | cons p ps ih =>
    intro head res h
    simp only [insert_rect_border.loop] at h
    cases h1 : ins head p with
    | none => simp [h1] at h
    | some head1 =>
      rw [h1] at h
      exact ⟨head1, hins _ _ _ h1, ih _ _ h⟩

theorem reclist_insert_disjoint_induct
    (P : List XRectangle → Option XRectangle → List XRectangle → Prop)
    (h_none : ∀ head, P head none head)
    (h_nil : ∀ e, P [] (some e) [e])
    (h_skip : ∀ h next e next1, rects_intersect h e = false →
      P next (some e) next1 → P (h :: next) (some e) (h :: next1))
    (h_split : ∀ h next e next1 next2, rects_intersect h e = true →
      insert_rect_border.Chain P (insert_rect_border.parts h (intersection_area h e))
        next next1 →
      insert_rect_border.Chain P (insert_rect_border.parts e (intersection_area h e))
        next1 next2 →
      P (h :: next) (some e) (intersection_area h e :: next2)) :
    ∀ (fuel : Nat) (head : List XRectangle) (element : Option XRectangle)
      (res : List XRectangle),
      reclist_insert_disjoint fuel head element = some res → P head element res := by
  intro fuel
  induction fuel with
  | zero => intro head element res h; simp [reclist_insert_disjoint] at h
  | succ n ih =>
    intro head element res h
    cases element with
    | none =>
      rw [reclist_insert_disjoint_none, Option.some.injEq] at h
      subst h; exact h_none _
    | some e =>
      cases head with
      | nil =>
        rw [reclist_insert_disjoint_nil, Option.some.injEq] at h
        subst h; exact h_nil _
      | cons hd next =>
        by_cases hi : rects_intersect hd e = true
        · rw [reclist_insert_disjoint_split _ _ _ _ hi] at h
          obtain ⟨next1, h1, h2⟩ := Option.bind_eq_some.mp h
          obtain ⟨next2, h3, h4⟩ := Option.map_eq_some'.mp h2
          subst h4
          exact h_split _ _ _ _ _ hi
            (insert_rect_border_chain_of_loop P _ ih _ _ _ h1)
            (insert_rect_border_chain_of_loop P _ ih _ _ _ h3)
        · have hi2 : rects_intersect hd e = false := by simpa using hi
          rw [reclist_insert_disjoint_skip _ _ _ _ hi2] at h
          obtain ⟨next1, h1, h2⟩ := Option.map_eq_some'.mp h
          subst h2
          exact h_skip _ _ _ _ hi2 (ih _ _ _ h1)

/-! ## Geometry of `rects_intersect`, `intersection_area` and the border parts -/

theorem rects_intersect_iff (a b : XRectangle) :
    rects_intersect a b = true ↔
      (b.x < a.x + a.width ∧ a.x < b.x + b.width) ∧
      (b.y < a.y + a.height ∧ a.y < b.y + b.height) := by
  simp [rects_intersect, intervals_intersect]

theorem rects_intersect_false_iff (a b : XRectangle) :
    rects_intersect a b = false ↔
      ¬ ((b.x < a.x + a.width ∧ a.x < b.x + b.width) ∧
      (b.y < a.y + a.height ∧ a.y < b.y + b.height)) := by
  rw [← rects_intersect_iff]; simp

theorem rects_intersect_comm (a b : XRectangle) :
    rects_intersect a b = rects_intersect b a := by
  rw [Bool.eq_iff_iff, rects_intersect_iff, rects_intersect_iff]; tauto

/-- A rectangle that misses `b` misses everything inside `b`. -/
theorem rects_intersect_within (x a b : XRectangle) (hab : a.within b)
    (hx : rects_intersect x b = false) :
    rects_intersect x a = false := by
  rw [rects_intersect_false_iff] at hx ⊢
  unfold XRectangle.within at hab
  omega

/-- Two rectangles sharing a point intersect. -/
theorem rects_intersect_of_contains (a b : XRectangle) (px py : Int)
    (ha : a.contains px py) (hb : b.contains px py) : rects_intersect a b = true := by
  rw [rects_intersect_iff]
  unfold XRectangle.contains at ha hb
  omega

/-- The intersection of two intersecting well-formed rectangles, without wrap-around. -/
theorem intersection_area_eq (h e : XRectangle) (hh : h.WF) (he : e.WF)
    (hi : rects_intersect h e = true) :
    intersection_area h e =
      { x := max h.x e.x, y := max h.y e.y,
        width := min (h.x + h.width) (e.x + e.width) - max h.x e.x,
        height := min (h.y + h.height) (e.y + e.height) - max h.y e.y } := by
  rw [rects_intersect_iff] at hi
  unfold XRectangle.WF at hh he
  have hx : toShort (max h.x e.x) = max h.x e.x := toShort_eq _ (by omega) (by omega)
  have hy : toShort (max h.y e.y) = max h.y e.y := toShort_eq _ (by omega) (by omega)
  simp only [intersection_area, hx, hy]
  rw [toUShort_eq _ (by omega) (by omega), toUShort_eq _ (by omega) (by omega)]

theorem intersection_area_wf (h e : XRectangle) (hh : h.WF) (he : e.WF)
    (hi : rects_intersect h e = true) : (intersection_area h e).WF := by
  rw [intersection_area_eq h e hh he hi]
  rw [rects_intersect_iff] at hi
  unfold XRectangle.WF at hh he ⊢
  simp only
  omega

theorem intersection_area_within_left (h e : XRectangle) (hh : h.WF) (he : e.WF)
    (hi : rects_intersect h e = true) : (intersection_area h e).within h := by
  rw [intersection_area_eq h e hh he hi]
  rw [rects_intersect_iff] at hi
  unfold XRectangle.WF at hh he
  unfold XRectangle.within
  simp only
  omega

theorem intersection_area_within_right (h e : XRectangle) (hh : h.WF) (he : e.WF)
    (hi : rects_intersect h e = true) : (intersection_area h e).within e := by
  rw [intersection_area_eq h e hh he hi]
  rw [rects_intersect_iff] at hi
  unfold XRectangle.WF at hh he
  unfold XRectangle.within
  simp only
  omega

theorem intersection_area_degenerate (h e : XRectangle) (hh : h.WF) (he : e.WF)
    (hi : rects_intersect h e = true) (hc : (intersection_area h e).degenerate) :
    h.degenerate ∨ e.degenerate := by
  rw [intersection_area_eq h e hh he hi] at hc
  rw [rects_intersect_iff] at hi
  unfold XRectangle.WF at hh he
  unfold XRectangle.degenerate at hc ⊢
  simp only at hc
  omega

theorem intersection_area_contains (h e : XRectangle) (hh : h.WF) (he : e.WF)
    (hi : rects_intersect h e = true) (px py : Int) :
    (intersection_area h e).contains px py ↔ h.contains px py ∧ e.contains px py := by
  rw [intersection_area_eq h e hh he hi]
  unfold XRectangle.contains
  simp only
  omega

theorem XRectangle.within_inRange (a b : XRectangle) (ha : a.WF) (hab : a.within b)
    (hb : b.InRange) : a.InRange := by
  unfold XRectangle.InRange at hb ⊢
  unfold XRectangle.within at hab
  exact ⟨ha, by omega, by omega⟩

theorem rectlist_create_simple_some (x1 y1 x2 y2 : Int) (f : XRectangle)
    (h : rectlist_create_simple x1 y1 x2 y2 = some f) :
    x1 < x2 ∧ y1 < y2 ∧
      f = { x := toShort x1, y := toShort y1,
            width := toUShort (x2 - x1), height := toUShort (y2 - y1) } := by
  unfold rectlist_create_simple at h
  split at h
  · exact absurd h (by simp)
  · rename_i hc
    rw [Option.some.injEq] at h
    exact ⟨by omega, by omega, h.symm⟩

/-- Membership in the border parts, spelled out. -/
theorem insert_rect_border_mem_parts (large center f : XRectangle)
    (hf : f ∈ (insert_rect_border.parts large center).reduceOption) :
    rectlist_create_simple large.x large.y (large.x + large.width) center.y = some f ∨
    rectlist_create_simple large.x center.y center.x (center.y + center.height) = some f ∨
    rectlist_create_simple (center.x + center.width) center.y (large.x + large.width)
      (center.y + center.height) = some f ∨
    rectlist_create_simple large.x (center.y + center.height) (large.x + large.width)
      (large.y + large.height) = some f := by
  rw [List.reduceOption_mem_iff] at hf
  simp only [insert_rect_border.parts, List.mem_cons, List.mem_singleton, List.not_mem_nil,
    or_false] at hf
  rcases hf with h | h | h | h
  · exact Or.inl h.symm
  · exact Or.inr (Or.inl h.symm)
  · exact Or.inr (Or.inr (Or.inl h.symm))
  · exact Or.inr (Or.inr (Or.inr h.symm))

/-- Every border part is well-formed and has positive width and height, also when its
position wraps around. -/
theorem insert_rect_border_parts_wf (large center f : XRectangle) (hl : large.WF)
    (hc : center.WF) (hcl : center.within large)
    (hf : f ∈ (insert_rect_border.parts large center).reduceOption) :
    f.WF ∧ 0 < f.width ∧ 0 < f.height := by
  unfold XRectangle.WF at hl hc
  unfold XRectangle.within at hcl
  rcases insert_rect_border_mem_parts large center f hf with h | h | h | h <;>
  · obtain ⟨h1, h2, rfl⟩ := rectlist_create_simple_some _ _ _ _ _ h
    unfold XRectangle.WF
    simp only
    have a1 := toShort_range
    have a2 := toUShort_range
    refine ⟨⟨a1 _, a1 _, a2 _, a2 _⟩, ?_, ?_⟩
    · rw [toUShort_eq _ (by omega) (by omega)]; omega
    · rw [toUShort_eq _ (by omega) (by omega)]; omega

/-- Border parts of a rectangle within the `short` coordinate space: no wrap-around. -/
theorem insert_rect_border_parts_inRange (large center f : XRectangle) (hl : large.InRange)
    (hc : center.WF) (hcl : center.within large)
    (hf : f ∈ (insert_rect_border.parts large center).reduceOption) :
    f.InRange ∧ f.within large ∧ rects_intersect center f = false ∧
      ∀ px py, f.contains px py →
        large.contains px py ∧ ¬ center.contains px py := by
  unfold XRectangle.InRange XRectangle.WF at hl
  unfold XRectangle.WF at hc
  unfold XRectangle.within at hcl
  rcases insert_rect_border_mem_parts large center f hf with h | h | h | h <;>
  · obtain ⟨h1, h2, rfl⟩ := rectlist_create_simple_some _ _ _ _ _ h
    rw [toShort_eq _ (by omega) (by omega), toShort_eq _ (by omega) (by omega),
      toUShort_eq _ (by omega) (by omega), toUShort_eq _ (by omega) (by omega)]
    unfold XRectangle.InRange XRectangle.WF XRectangle.within XRectangle.contains
    rw [rects_intersect_false_iff]
    simp only
    refine ⟨by omega, by omega, by omega, ?_⟩
    intro px py hp
    omega

theorem insert_rect_border_parts_cover (large center : XRectangle) (hl : large.InRange)
    (hc : center.WF) (hcl : center.within large) (px py : Int)
    (hp : large.contains px py) :
    center.contains px py ∨
      ∃ f ∈ (insert_rect_border.parts large center).reduceOption, f.contains px py := by
  unfold XRectangle.InRange XRectangle.WF at hl
  unfold XRectangle.WF at hc
  unfold XRectangle.within at hcl
  unfold XRectangle.contains at hp
  by_cases hin : center.contains px py
  · exact Or.inl hin
  · right
    unfold XRectangle.contains at hin
    simp only [List.reduceOption_mem_iff, insert_rect_border.parts, List.mem_cons,
      List.mem_singleton, List.not_mem_nil, or_false]
    by_cases h1 : py < center.y
    · refine ⟨_, Or.inl (by rw [rectlist_create_simple, if_neg (by omega)]), ?_⟩
      rw [toShort_eq _ (by omega) (by omega), toShort_eq _ (by omega) (by omega),
        toUShort_eq _ (by omega) (by omega), toUShort_eq _ (by omega) (by omega)]
      unfold XRectangle.contains
      simp only
      omega
    · by_cases h2 : center.y + center.height ≤ py
      · refine ⟨_, Or.inr (Or.inr (Or.inr
          (by rw [rectlist_create_simple, if_neg (by omega)]))), ?_⟩
        rw [toShort_eq _ (by omega) (by omega), toShort_eq _ (by omega) (by omega),
          toUShort_eq _ (by omega) (by omega), toUShort_eq _ (by omega) (by omega)]
        unfold XRectangle.contains
        simp only
        omega
      · by_cases h3 : px < center.x
        · refine ⟨_, Or.inr (Or.inl (by rw [rectlist_create_simple, if_neg (by omega)])), ?_⟩
          rw [toShort_eq _ (by omega) (by omega), toShort_eq _ (by omega) (by omega),
            toUShort_eq _ (by omega) (by omega), toUShort_eq _ (by omega) (by omega)]
          unfold XRectangle.contains
          simp only
          omega
        · refine ⟨_, Or.inr (Or.inr (Or.inl
            (by rw [rectlist_create_simple, if_neg (by omega)]))), ?_⟩
          rw [toShort_eq _ (by omega) (by omega), toShort_eq _ (by omega) (by omega),
            toUShort_eq _ (by omega) (by omega), toUShort_eq _ (by omega) (by omega)]
          unfold XRectangle.contains
          simp only
          omega

/-! ## Areas -/

theorem rectlist_area_append (l1 l2 : List XRectangle) :
    rectlist_area (l1 ++ l2) = rectlist_area l1 + rectlist_area l2 := by
  induction l1 with
  | nil => simp [rectlist_area]
  | cons r rs ih =>
    show r.area + rectlist_area (rs ++ l2) = r.area + rectlist_area rs + rectlist_area l2
    rw [ih]; ring

theorem rectlist_degenerate_append (l1 l2 : List XRectangle) :
    rectlist_degenerate (l1 ++ l2) = rectlist_degenerate l1 + rectlist_degenerate l2 := by
  induction l1 with
  | nil => simp [rectlist_degenerate]
  | cons r rs ih =>
    show (if r.degenerate then 1 else 0) + rectlist_degenerate (rs ++ l2) =
      (if r.degenerate then 1 else 0) + rectlist_degenerate rs + rectlist_degenerate l2
    rw [ih]; ring

theorem rectlist_area_nonneg (l : List XRectangle) (hl : ∀ r ∈ l, r.WF) :
    0 ≤ rectlist_area l := by
  induction l with
  | nil => simp [rectlist_area]
  | cons r rs ih =>
    have hr := hl r (List.mem_cons_self _ _)
    have := ih (fun q hq => hl q (List.mem_cons_of_mem _ hq))
    unfold XRectangle.WF at hr
    have : 0 ≤ r.area := Int.mul_nonneg hr.2.2.1.1 hr.2.2.2.1
    simp only [rectlist_area]
    omega

theorem rectlist_degenerate_eq_zero (l : List XRectangle) (hl : ∀ r ∈ l, ¬ r.degenerate) :
    rectlist_degenerate l = 0 := by
  induction l with
  | nil => rfl
  | cons r rs ih =>
    simp only [rectlist_degenerate, if_neg (hl r (List.mem_cons_self _ _)),
      ih (fun q hq => hl q (List.mem_cons_of_mem _ hq))]

theorem rectlist_create_simple_area (x1 y1 x2 y2 : Int) (hx : x1 ≤ x2) (hy : y1 ≤ y2)
    (hx2 : x2 - x1 ≤ 65535) (hy2 : y2 - y1 ≤ 65535) :
    rectlist_area (rectlist_create_simple x1 y1 x2 y2).toList = (x2 - x1) * (y2 - y1) := by
  unfold rectlist_create_simple
  split
  · rename_i hc
    simp only [Option.toList, rectlist_area]
    rcases hc with hc | hc
    · have : x2 - x1 = 0 := by omega
      rw [this]; ring
    · have : y2 - y1 = 0 := by omega
      rw [this]; ring
  · simp only [Option.toList, rectlist_area, XRectangle.area]
    rw [toUShort_eq _ (by omega) (by omega), toUShort_eq _ (by omega) (by omega)]
    ring

theorem insert_rect_border_parts_reduceOption (large center : XRectangle) :
    (insert_rect_border.parts large center).reduceOption =
      (rectlist_create_simple large.x large.y (large.x + large.width) center.y).toList ++
      ((rectlist_create_simple large.x center.y center.x (center.y + center.height)).toList ++
      ((rectlist_create_simple (center.x + center.width) center.y (large.x + large.width)
        (center.y + center.height)).toList ++
      (rectlist_create_simple large.x (center.y + center.height) (large.x + large.width)
        (large.y + large.height)).toList)) := by
  simp only [insert_rect_border.parts]
  generalize rectlist_create_simple large.x large.y (large.x + large.width) center.y = p1
  generalize rectlist_create_simple large.x center.y center.x (center.y + center.height) = p2
  generalize rectlist_create_simple (center.x + center.width) center.y (large.x + large.width)
        (center.y + center.height) = p3
  generalize rectlist_create_simple large.x (center.y + center.height) (large.x + large.width)
        (large.y + large.height) = p4
  cases p1 <;> cases p2 <;> cases p3 <;> cases p4 <;> rfl

/-- The border parts account for exactly the area of `large` outside `center`. -/
theorem insert_rect_border_parts_area (large center : XRectangle) (hl : large.WF)
    (hc : center.WF) (hcl : center.within large) :
    rectlist_area (insert_rect_border.parts large center).reduceOption =
      large.area - center.area := by
  unfold XRectangle.WF at hl hc
  unfold XRectangle.within at hcl
  rw [insert_rect_border_parts_reduceOption]
  simp only [rectlist_area_append]
  rw [rectlist_create_simple_area _ _ _ _ (by omega) (by omega) (by omega) (by omega),
    rectlist_create_simple_area _ _ _ _ (by omega) (by omega) (by omega) (by omega),
    rectlist_create_simple_area _ _ _ _ (by omega) (by omega) (by omega) (by omega),
    rectlist_create_simple_area _ _ _ _ (by omega) (by omega) (by omega) (by omega)]
  unfold XRectangle.area
  ring

/-! ## Postconditions of an insertion, by induction over the call tree -/

theorem insert_rect_border_chain_lift
    (Q : List XRectangle → List XRectangle → List XRectangle → Prop)
    (hrefl : ∀ t, Q t [] t)
    (htrans : ∀ t es1 t1 es2 t2, Q t es1 t1 → Q t1 es2 t2 → Q t (es1 ++ es2) t2) :
    ∀ (parts : List (Option XRectangle)) (head res : List XRectangle),
      insert_rect_border.Chain (fun t e t1 => Q t e.toList t1) parts head res →
      Q head parts.reduceOption res := by
  intro parts
  induction parts with
  | nil =>
    intro head res h
    simp only [insert_rect_border.Chain] at h
    subst h
    exact hrefl _
  | cons p ps ih =>
    intro head res h
    obtain ⟨head1, h1, h2⟩ := h
    have h3 : (p :: ps).reduceOption = p.toList ++ ps.reduceOption := by
      cases p with
      | none => simp [List.reduceOption_cons_of_none]
      | some f => simp [List.reduceOption_cons_of_some]
    rw [h3]
    exact htrans _ _ _ _ _ h1 (ih _ _ h2)

/-- A relation between the list, the inserted rectangles and the resulting list holds for
every insertion as soon as it is reflexive, transitive and holds for the three ways an
insertion step can go. -/
theorem reclist_insert_disjoint_post
    (Q : List XRectangle → List XRectangle → List XRectangle → Prop)
    (hrefl : ∀ t, Q t [] t)
    (htrans : ∀ t es1 t1 es2 t2, Q t es1 t1 → Q t1 es2 t2 → Q t (es1 ++ es2) t2)
    (h_nil : ∀ e, Q [] [e] [e])
    (h_skip : ∀ h next e next1, rects_intersect h e = false →
      Q next [e] next1 → Q (h :: next) [e] (h :: next1))
    (h_split : ∀ h next e next2, rects_intersect h e = true →
      Q next ((insert_rect_border.parts h (intersection_area h e)).reduceOption ++
        (insert_rect_border.parts e (intersection_area h e)).reduceOption) next2 →
      Q (h :: next) [e] (intersection_area h e :: next2))
    (fuel : Nat) (head : List XRectangle) (element : Option XRectangle)
    (res : List XRectangle) (h : reclist_insert_disjoint fuel head element = some res) :
    Q head element.toList res := by
  refine reclist_insert_disjoint_induct (fun t e t1 => Q t e.toList t1) ?_ ?_ ?_ ?_
    fuel head element res h
  · intro t; exact hrefl t
  · intro e; exact h_nil e
  · intro hd next e next1 hi h1; exact h_skip hd next e next1 hi h1
  · intro hd next e next1 next2 hi h1 h2
    exact h_split hd next e next2 hi
      (htrans _ _ _ _ _ (insert_rect_border_chain_lift Q hrefl htrans _ _ _ h1)
        (insert_rect_border_chain_lift Q hrefl htrans _ _ _ h2))

theorem XRectangle.within_refl (a : XRectangle) : a.within a := by
  unfold XRectangle.within; omega

theorem XRectangle.within_trans (a b c : XRectangle) (hab : a.within b) (hbc : b.within c) :
    a.within c := by
  unfold XRectangle.within at *; omega

theorem InsertWF_refl (t : List XRectangle) : InsertWF t [] t := by
  intro ht _
  refine ⟨ht, by simp [rectlist_area], by simp [rectlist_degenerate], fun hn _ => hn, ?_⟩
  intro h0 t0 h
  exact ⟨h0, t0, h, XRectangle.within_refl _⟩

theorem InsertWF_trans (t es1 t1 es2 t2 : List XRectangle) (h1 : InsertWF t es1 t1)
    (h2 : InsertWF t1 es2 t2) : InsertWF t (es1 ++ es2) t2 := by
  intro ht hes
  obtain ⟨a1, a2, a3, a4, a5⟩ := h1 ht (fun r hr => hes r (List.mem_append_left _ hr))
  obtain ⟨b1, b2, b3, b4, b5⟩ := h2 a1 (fun r hr => hes r (List.mem_append_right _ hr))
  refine ⟨b1, ?_, ?_, ?_, ?_⟩
  · rw [rectlist_area_append]; omega
  · rw [rectlist_degenerate_append]; omega
  · intro hn hne
    exact b4 (a4 hn (fun r hr => hne r (List.mem_append_left _ hr)))
      (fun r hr => hne r (List.mem_append_right _ hr))
  · intro h0 t0 h
    obtain ⟨o1, rest1, e1, w1⟩ := a5 h0 t0 h
    obtain ⟨o2, rest2, e2, w2⟩ := b5 o1 rest1 e1
    exact ⟨o2, rest2, e2, XRectangle.within_trans _ _ _ w2 w1⟩

/-- Well-formed rectangles stay well-formed, no area is created, no degenerate rectangle
is created, the first node stays first. -/
theorem reclist_insert_disjoint_wf (fuel : Nat) (head : List XRectangle)
    (element : Option XRectangle) (res : List XRectangle)
    (h : reclist_insert_disjoint fuel head element = some res) :
    InsertWF head element.toList res := by
  refine reclist_insert_disjoint_post InsertWF InsertWF_refl InsertWF_trans ?_ ?_ ?_
    fuel head element res h
  · intro e _ he
    refine ⟨he, by simp [rectlist_area], by simp [rectlist_degenerate], fun _ hn => hn, ?_⟩
    intro h0 t0 h
    exact absurd h (by simp)
  · intro hd next e next1 _ h1 ht he
    obtain ⟨a1, a2, a3, a4, _⟩ := h1 (fun r hr => ht r (List.mem_cons_of_mem _ hr)) he
    refine ⟨?_, ?_, ?_, ?_, ?_⟩
    · intro r hr
      rcases List.mem_cons.mp hr with rfl | hr
      · exact ht _ (List.mem_cons_self _ _)
      · exact a1 r hr
    · simp only [rectlist_area] at a2 ⊢; omega
    · simp only [rectlist_degenerate] at a3 ⊢; omega
    · intro hn hne r hr
      rcases List.mem_cons.mp hr with rfl | hr
      · exact hn _ (List.mem_cons_self _ _)
      · exact a4 (fun q hq => hn q (List.mem_cons_of_mem _ hq)) hne r hr
    · intro h0 t0 h
      rw [List.cons.injEq] at h
      exact ⟨hd, next1, rfl, by rw [h.1]; exact XRectangle.within_refl _⟩
  · intro hd next e next2 hi h1 ht he
    have hhd : hd.WF := ht _ (List.mem_cons_self _ _)
    have hew : e.WF := he _ (List.mem_singleton_self _)
    have hc := intersection_area_wf hd e hhd hew hi
    have hcl := intersection_area_within_left hd e hhd hew hi
    have hcr := intersection_area_within_right hd e hhd hew hi
    have hparts : ∀ r ∈ (insert_rect_border.parts hd (intersection_area hd e)).reduceOption ++
        (insert_rect_border.parts e (intersection_area hd e)).reduceOption,
        r.WF ∧ 0 < r.width ∧ 0 < r.height := by
      intro r hr
      rcases List.mem_append.mp hr with hr | hr
      · exact insert_rect_border_parts_wf _ _ _ hhd hc hcl hr
      · exact insert_rect_border_parts_wf _ _ _ hew hc hcr hr
    have hnd : ∀ r ∈ (insert_rect_border.parts hd (intersection_area hd e)).reduceOption ++
        (insert_rect_border.parts e (intersection_area hd e)).reduceOption,
        ¬ r.degenerate := by
      intro r hr hdeg
      have := hparts r hr
      unfold XRectangle.degenerate at hdeg
      omega
    obtain ⟨a1, a2, a3, a4, _⟩ := h1 (fun r hr => ht r (List.mem_cons_of_mem _ hr))
      (fun r hr => (hparts r hr).1)
    rw [rectlist_area_append, insert_rect_border_parts_area _ _ hhd hc hcl,
      insert_rect_border_parts_area _ _ hew hc hcr] at a2
    rw [rectlist_degenerate_eq_zero _ hnd] at a3
    have hca : 0 ≤ (intersection_area hd e).area := by
      unfold XRectangle.WF at hc
      exact Int.mul_nonneg hc.2.2.1.1 hc.2.2.2.1
    refine ⟨?_, ?_, ?_, ?_, ?_⟩
    · intro r hr
      rcases List.mem_cons.mp hr with rfl | hr
      · exact hc
      · exact a1 r hr
    · simp only [rectlist_area] at a2 ⊢; omega
    · simp only [rectlist_degenerate] at a3 ⊢
      by_cases hcd : (intersection_area hd e).degenerate
      · rcases intersection_area_degenerate hd e hhd hew hi hcd with hx | hx
        · rw [if_pos hcd, if_pos hx]; omega
        · rw [if_pos hcd, if_pos hx]; omega
      · rw [if_neg hcd]; omega
    · intro hn hne r hr
      rcases List.mem_cons.mp hr with rfl | hr
      · intro hcd
        rcases intersection_area_degenerate hd e hhd hew hi hcd with hx | hx
        · exact hn _ (List.mem_cons_self _ _) hx
        · exact hne _ (List.mem_singleton_self _) hx
      · exact a4 (fun q hq => hn q (List.mem_cons_of_mem _ hq)) hnd r hr
    · intro h0 t0 h
      rw [List.cons.injEq] at h
      exact ⟨_, next2, rfl, by rw [← h.1]; exact hcl⟩

theorem rectlist_covers_cons (r : XRectangle) (l : List XRectangle) (px py : Int) :
    rectlist_covers (r :: l) px py ↔ r.contains px py ∨ rectlist_covers l px py := by
  simp [rectlist_covers]

theorem rectlist_covers_append (l1 l2 : List XRectangle) (px py : Int) :
    rectlist_covers (l1 ++ l2) px py ↔ rectlist_covers l1 px py ∨ rectlist_covers l2 px py := by
  simp only [rectlist_covers, List.mem_append]
  constructor
  · rintro ⟨r, hr | hr, hc⟩
    · exact Or.inl ⟨r, hr, hc⟩
    · exact Or.inr ⟨r, hr, hc⟩
  · rintro (⟨r, hr, hc⟩ | ⟨r, hr, hc⟩)
    · exact ⟨r, Or.inl hr, hc⟩
    · exact ⟨r, Or.inr hr, hc⟩

theorem rectlist_covers_nil (px py : Int) : ¬ rectlist_covers [] px py := by
  simp [rectlist_covers]

theorem InsertInRange_refl (t : List XRectangle) : InsertInRange t [] t := by
  intro ht _
  refine ⟨ht, fun x hx _ => hx, ?_, fun hd => hd⟩
  intro px py
  simp [rectlist_covers_nil]

theorem InsertInRange_trans (t es1 t1 es2 t2 : List XRectangle) (h1 : InsertInRange t es1 t1)
    (h2 : InsertInRange t1 es2 t2) : InsertInRange t (es1 ++ es2) t2 := by
  intro ht hes
  obtain ⟨a1, a2, a3, a4⟩ := h1 ht (fun r hr => hes r (List.mem_append_left _ hr))
  obtain ⟨b1, b2, b3, b4⟩ := h2 a1 (fun r hr => hes r (List.mem_append_right _ hr))
  refine ⟨b1, ?_, ?_, fun hd => b4 (a4 hd)⟩
  · intro x hx hxe
    exact b2 x (a2 x hx (fun r hr => hxe r (List.mem_append_left _ hr)))
      (fun r hr => hxe r (List.mem_append_right _ hr))
  · intro px py
    rw [b3, a3, rectlist_covers_append, or_assoc]

/-- Inside the coordinate space of `short` an insertion keeps the list free of
intersections and adds exactly the points of the inserted rectangle. -/
theorem reclist_insert_disjoint_inRange (fuel : Nat) (head : List XRectangle)
    (element : Option XRectangle) (res : List XRectangle)
    (h : reclist_insert_disjoint fuel head element = some res) :
    InsertInRange head element.toList res := by
  refine reclist_insert_disjoint_post InsertInRange InsertInRange_refl InsertInRange_trans
    ?_ ?_ ?_ fuel head element res h
  · intro e _ he
    refine ⟨he, fun x _ hxe => hxe, ?_, ?_⟩
    · intro px py
      simp [rectlist_covers_nil]
    · intro _
      simp [rectlist_disjoint]
  · intro hd next e next1 hi h1 ht he
    obtain ⟨a1, a2, a3, a4⟩ := h1 (fun r hr => ht r (List.mem_cons_of_mem _ hr)) he
    refine ⟨?_, ?_, ?_, ?_⟩
    · intro r hr
      rcases List.mem_cons.mp hr with rfl | hr
      · exact ht _ (List.mem_cons_self _ _)
      · exact a1 r hr
    · intro x hx hxe r hr
      rcases List.mem_cons.mp hr with rfl | hr
      · exact hx _ (List.mem_cons_self _ _)
      · exact a2 x (fun q hq => hx q (List.mem_cons_of_mem _ hq)) hxe r hr
    · intro px py
      rw [rectlist_covers_cons, rectlist_covers_cons, a3, or_assoc]
    · intro hdis
      unfold rectlist_disjoint at hdis ⊢
      rw [List.pairwise_cons] at hdis ⊢
      refine ⟨?_, a4 hdis.2⟩
      intro r hr
      refine a2 hd hdis.1 ?_ r hr
      intro q hq
      rw [List.mem_singleton] at hq
      subst hq
      exact hi
  · intro hd next e next2 hi h1 ht he
    have hhd : hd.InRange := ht _ (List.mem_cons_self _ _)
    have hew : e.InRange := he _ (List.mem_singleton_self _)
    have hc := intersection_area_wf hd e hhd.1 hew.1 hi
    have hcl := intersection_area_within_left hd e hhd.1 hew.1 hi
    have hcr := intersection_area_within_right hd e hhd.1 hew.1 hi
    have hcc := intersection_area_contains hd e hhd.1 hew.1 hi
    have hp1 := fun r hr =>
      insert_rect_border_parts_inRange hd (intersection_area hd e) r hhd hc hcl hr
    have hp2 := fun r hr =>
      insert_rect_border_parts_inRange e (intersection_area hd e) r hew hc hcr hr
    have hparts : ∀ r ∈ (insert_rect_border.parts hd (intersection_area hd e)).reduceOption ++
        (insert_rect_border.parts e (intersection_area hd e)).reduceOption,
        r.InRange ∧ (r.within hd ∨ r.within e) ∧
          rects_intersect (intersection_area hd e) r = false := by
      intro r hr
      rcases List.mem_append.mp hr with hr | hr
      · exact ⟨(hp1 r hr).1, Or.inl (hp1 r hr).2.1, (hp1 r hr).2.2.1⟩
      · exact ⟨(hp2 r hr).1, Or.inr (hp2 r hr).2.1, (hp2 r hr).2.2.1⟩
    obtain ⟨a1, a2, a3, a4⟩ := h1 (fun r hr => ht r (List.mem_cons_of_mem _ hr))
      (fun r hr => (hparts r hr).1)
    refine ⟨?_, ?_, ?_, ?_⟩
    · intro r hr
      rcases List.mem_cons.mp hr with rfl | hr
      · exact XRectangle.within_inRange _ _ hc hcl hhd
      · exact a1 r hr
    · intro x hx hxe r hr
      have hxh : rects_intersect x hd = false := hx _ (List.mem_cons_self _ _)
      have hxee : rects_intersect x e = false := hxe _ (List.mem_singleton_self _)
      rcases List.mem_cons.mp hr with rfl | hr
      · exact rects_intersect_within x _ hd hcl hxh
      · refine a2 x (fun q hq => hx q (List.mem_cons_of_mem _ hq)) ?_ r hr
        intro q hq
        rcases (hparts q hq).2.1 with hw | hw
        · exact rects_intersect_within x q hd hw hxh
        · exact rects_intersect_within x q e hw hxee
    · intro px py
      rw [rectlist_covers_cons, rectlist_covers_cons, a3, rectlist_covers_append, hcc]
      constructor
      · rintro (⟨h1, _⟩ | h1 | ⟨f, hf, hfc⟩ | ⟨f, hf, hfc⟩)
        · exact Or.inl (Or.inl h1)
        · exact Or.inl (Or.inr h1)
        · exact Or.inl (Or.inl ((hp1 f hf).2.2.2 px py hfc).1)
        · exact Or.inr ⟨e, List.mem_singleton_self _, ((hp2 f hf).2.2.2 px py hfc).1⟩
      · rintro ((h1 | h1) | ⟨q, hq, hqc⟩)
        · rcases insert_rect_border_parts_cover hd _ hhd hc hcl px py h1 with h2 | h2
          · exact Or.inl ((hcc px py).mp h2)
          · exact Or.inr (Or.inr (Or.inl h2))
        · exact Or.inr (Or.inl h1)
        · rw [List.mem_singleton] at hq
          subst hq
          rcases insert_rect_border_parts_cover q _ hew hc hcr px py hqc with h2 | h2
          · exact Or.inl ((hcc px py).mp h2)
          · exact Or.inr (Or.inr (Or.inr h2))
    · intro hdis
      unfold rectlist_disjoint at hdis ⊢
      rw [List.pairwise_cons] at hdis ⊢
      refine ⟨?_, a4 hdis.2⟩
      intro r hr
      refine a2 (intersection_area hd e) ?_ (fun q hq => (hparts q hq).2.2) r hr
      intro q hq
      rw [rects_intersect_comm]
      refine rects_intersect_within q _ hd hcl ?_
      rw [rects_intersect_comm]
      exact hdis.1 q hq

/-! ## Termination: enough fuel exists for well-formed rectangles -/

theorem insert_rect_border_loop_append
    (ins : List XRectangle → Option XRectangle → Option (List XRectangle)) :
    ∀ (ps1 ps2 : List (Option XRectangle)) (head : List XRectangle),
      insert_rect_border.loop ins (ps1 ++ ps2) head =
        (insert_rect_border.loop ins ps1 head).bind (insert_rect_border.loop ins ps2) := by
  intro ps1
  induction ps1 with
  | nil => intro ps2 head; rfl
  | cons p ps ih =>
    intro ps2 head
    simp only [List.cons_append, insert_rect_border.loop]
    cases ins head p with
    | none => rfl
    | some head1 => exact ih ps2 head1

theorem reclist_insert_disjoint_split_append (fuel : Nat) (h e : XRectangle)
    (next : List XRectangle) (hi : rects_intersect h e = true) :
    reclist_insert_disjoint (fuel + 1) (h :: next) (some e) =
      (insert_rect_border.loop (reclist_insert_disjoint fuel)
        (insert_rect_border.parts h (intersection_area h e) ++
          insert_rect_border.parts e (intersection_area h e)) next).map
        (fun next2 => intersection_area h e :: next2) := by
  rw [reclist_insert_disjoint_split _ _ _ _ hi, insert_rect_border_loop_append]
  unfold insert_rect_border
  cases insert_rect_border.loop (reclist_insert_disjoint fuel)
    (insert_rect_border.parts h (intersection_area h e)) next <;> rfl

/-- Inserting a list of parts terminates when inserting any single rectangle into a list
of smaller measure does. The measure is the total area, then the number of degenerate
rectangles. -/
theorem insert_rect_border_loop_terminates (A : Int) (D : Nat)
    (ih : ∀ (t : List XRectangle) (e : XRectangle), (∀ r ∈ t, r.WF) → e.WF →
      (rectlist_area t + e.area < A ∨
        (rectlist_area t + e.area ≤ A ∧ rectlist_degenerate t + rectlist_degenerate [e] < D)) →
      ∃ fuel res, reclist_insert_disjoint fuel t (some e) = some res) :
    ∀ (parts : List (Option XRectangle)) (head : List XRectangle),
      (∀ r ∈ head, r.WF) → (∀ r ∈ parts.reduceOption, r.WF) →
      (rectlist_area head + rectlist_area parts.reduceOption < A ∨
        (rectlist_area head + rectlist_area parts.reduceOption ≤ A ∧
          rectlist_degenerate head + rectlist_degenerate parts.reduceOption < D)) →
      ∃ fuel res, insert_rect_border.loop (reclist_insert_disjoint fuel) parts head
        = some res := by
  intro parts
  induction parts with
  | nil => intro head _ _ _; exact ⟨0, head, rfl⟩
  | cons p ps ihp =>
    intro head hh hp hm
    cases p with
    | none =>
      rw [List.reduceOption_cons_of_none] at hp hm
      obtain ⟨fuel, res, hr⟩ := ihp head hh hp hm
      refine ⟨fuel + 1, res, ?_⟩
      simp only [insert_rect_border.loop, reclist_insert_disjoint_none]
      exact insert_rect_border_loop_fuel_mono fuel (fuel + 1) (Nat.le_succ _) _ _ _ hr
    | some f =>
      rw [List.reduceOption_cons_of_some] at hp hm
      have hf : f.WF := hp f (List.mem_cons_self _ _)
      have hps : ∀ r ∈ ps.reduceOption, r.WF := fun r hr => hp r (List.mem_cons_of_mem _ hr)
      have hnn := rectlist_area_nonneg _ hps
      simp only [rectlist_area, rectlist_degenerate] at hm
      obtain ⟨fuel0, head1, h0⟩ := ih head f hh hf (by
        simp only [rectlist_degenerate]
        omega)
      obtain ⟨b1, b2, b3, _⟩ := reclist_insert_disjoint_wf _ _ _ _ h0 hh
        (by intro r hr; simp only [Option.toList, List.mem_singleton] at hr; subst hr; exact hf)
      simp only [Option.toList, rectlist_area, rectlist_degenerate] at b2 b3
      obtain ⟨fuel1, res, h1⟩ := ihp head1 b1 hps (by omega)
      refine ⟨max fuel0 fuel1, res, ?_⟩
      simp only [insert_rect_border.loop]
      rw [reclist_insert_disjoint_mono fuel0 _ (Nat.le_max_left _ _) _ _ _ h0]
      exact insert_rect_border_loop_fuel_mono fuel1 _ (Nat.le_max_right _ _) _ _ _ h1

/-- One step of the termination argument. -/
theorem reclist_insert_disjoint_terminates_step (head : List XRectangle) (e : XRectangle)
    (hh : ∀ r ∈ head, r.WF) (he : e.WF)
    (ih_parts : ∀ (t : List XRectangle) (f : XRectangle), (∀ r ∈ t, r.WF) → f.WF →
      (rectlist_area t + f.area < rectlist_area head + e.area ∨
        (rectlist_area t + f.area ≤ rectlist_area head + e.area ∧
          rectlist_degenerate t + rectlist_degenerate [f] <
            rectlist_degenerate head + rectlist_degenerate [e])) →
      ∃ fuel res, reclist_insert_disjoint fuel t (some f) = some res)
    (ih_skip : ∀ h next, head = h :: next →
      ∃ fuel res, reclist_insert_disjoint fuel next (some e) = some res) :
    ∃ fuel res, reclist_insert_disjoint fuel head (some e) = some res := by
  cases head with
  | nil => exact ⟨1, [e], rfl⟩
  | cons hd next =>
    by_cases hi : rects_intersect hd e = true
    · have hhd : hd.WF := hh _ (List.mem_cons_self _ _)
      have hnext : ∀ r ∈ next, r.WF := fun r hr => hh r (List.mem_cons_of_mem _ hr)
      have hc := intersection_area_wf hd e hhd he hi
      have hcl := intersection_area_within_left hd e hhd he hi
      have hcr := intersection_area_within_right hd e hhd he hi
      have hparts : ∀ r ∈ (insert_rect_border.parts hd (intersection_area hd e) ++
          insert_rect_border.parts e (intersection_area hd e)).reduceOption,
          r.WF ∧ 0 < r.width ∧ 0 < r.height := by
        intro r hr
        rw [List.reduceOption_append] at hr
        rcases List.mem_append.mp hr with hr | hr
        · exact insert_rect_border_parts_wf _ _ _ hhd hc hcl hr
        · exact insert_rect_border_parts_wf _ _ _ he hc hcr hr
      have hnd : rectlist_degenerate (insert_rect_border.parts hd (intersection_area hd e) ++
          insert_rect_border.parts e (intersection_area hd e)).reduceOption = 0 := by
        apply rectlist_degenerate_eq_zero
        intro r hr hdeg
        have := hparts r hr
        unfold XRectangle.degenerate at hdeg
        omega
      have harea : rectlist_area (insert_rect_border.parts hd (intersection_area hd e) ++
          insert_rect_border.parts e (intersection_area hd e)).reduceOption =
          hd.area - (intersection_area hd e).area + (e.area - (intersection_area hd e).area) := by
        rw [List.reduceOption_append, rectlist_area_append,
          insert_rect_border_parts_area _ _ hhd hc hcl,
          insert_rect_border_parts_area _ _ he hc hcr]
      have hca : 0 ≤ (intersection_area hd e).area := by
        unfold XRectangle.WF at hc
        exact Int.mul_nonneg hc.2.2.1.1 hc.2.2.2.1
      have hmeasure : rectlist_area next + rectlist_area
          (insert_rect_border.parts hd (intersection_area hd e) ++
            insert_rect_border.parts e (intersection_area hd e)).reduceOption <
            rectlist_area (hd :: next) + e.area ∨
          (rectlist_area next + rectlist_area
            (insert_rect_border.parts hd (intersection_area hd e) ++
              insert_rect_border.parts e (intersection_area hd e)).reduceOption ≤
              rectlist_area (hd :: next) + e.area ∧
            rectlist_degenerate next + rectlist_degenerate
              (insert_rect_border.parts hd (intersection_area hd e) ++
                insert_rect_border.parts e (intersection_area hd e)).reduceOption <
              rectlist_degenerate (hd :: next) + rectlist_degenerate [e]) := by
        rw [harea, hnd]
        simp only [rectlist_area, rectlist_degenerate]
        by_cases hz : (intersection_area hd e).area = 0
        · right
          have hcd : (intersection_area hd e).degenerate := by
            unfold XRectangle.degenerate
            unfold XRectangle.area at hz
            rcases Int.mul_eq_zero.mp hz with h0 | h0
            · exact Or.inl (le_of_eq h0)
            · exact Or.inr (le_of_eq h0)
          rcases intersection_area_degenerate hd e hhd he hi hcd with hx | hx
          · rw [if_pos hx]; constructor <;> omega
          · rw [if_pos hx]; constructor <;> omega
        · left; omega
      obtain ⟨fuel, res, hr⟩ := insert_rect_border_loop_terminates _ _ ih_parts _ next hnext
        (fun r hr => (hparts r hr).1) hmeasure
      refine ⟨fuel + 1, intersection_area hd e :: res, ?_⟩
      rw [reclist_insert_disjoint_split_append _ _ _ _ hi, hr]
      rfl
    · have hi2 : rects_intersect hd e = false := by simpa using hi
      obtain ⟨fuel, res, hr⟩ := ih_skip hd next rfl
      refine ⟨fuel + 1, hd :: res, ?_⟩
      rw [reclist_insert_disjoint_skip _ _ _ _ hi2, hr]
      rfl

theorem reclist_insert_disjoint_terminates_aux :
    ∀ (A D n : Nat) (head : List XRectangle) (e : XRectangle),
      (∀ r ∈ head, r.WF) → e.WF →
      rectlist_area head + e.area ≤ A →
      rectlist_degenerate head + rectlist_degenerate [e] ≤ D →
      head.length ≤ n →
      ∃ fuel res, reclist_insert_disjoint fuel head (some e) = some res := by
  intro A
  induction A using Nat.strong_induction_on with
  | _ A ihA =>
    intro D
    induction D using Nat.strong_induction_on with
    | _ D ihD =>
      intro n
      induction n using Nat.strong_induction_on with
      | _ n ihn =>
        intro head e hh he hA hD hn
        apply reclist_insert_disjoint_terminates_step head e hh he
        · intro t f ht hf hm
          have h1 := rectlist_area_nonneg t ht
          have h2 : 0 ≤ f.area := by
            unfold XRectangle.WF at hf
            exact Int.mul_nonneg hf.2.2.1.1 hf.2.2.2.1
          rcases hm with hm | ⟨hm1, hm2⟩
          · exact ihA (rectlist_area t + f.area).toNat (by omega) _ _ t f ht hf
              (by omega) (le_refl _) (le_refl _)
          · exact ihD (rectlist_degenerate t + rectlist_degenerate [f]) (by omega) _ t f ht hf
              (by omega) (le_refl _) (le_refl _)
        · intro hd next hcons
          subst hcons
          have hhd : hd.WF := hh _ (List.mem_cons_self _ _)
          have h2 : 0 ≤ hd.area := by
            unfold XRectangle.WF at hhd
            exact Int.mul_nonneg hhd.2.2.1.1 hhd.2.2.2.1
          simp only [rectlist_area, rectlist_degenerate, List.length_cons] at hA hD hn
          exact ihn next.length (by omega) next e
            (fun r hr => hh r (List.mem_cons_of_mem _ hr)) he (by omega)
            (by simp only [rectlist_degenerate]; omega) (le_refl _)

/-- Inserting a well-formed rectangle into a list of well-formed rectangles returns:
there is an amount of fuel from which on the insertion yields a result. -/
theorem reclist_insert_disjoint_terminates (head : List XRectangle) (e : XRectangle)
    (hh : ∀ r ∈ head, r.WF) (he : e.WF) :
    ∃ fuel res, ∀ fuel1, fuel ≤ fuel1 →
      reclist_insert_disjoint fuel1 head (some e) = some res := by
  have h1 := rectlist_area_nonneg head hh
  have h2 : 0 ≤ e.area := by
    unfold XRectangle.WF at he
    exact Int.mul_nonneg he.2.2.1.1 he.2.2.2.1
  obtain ⟨fuel, res, hr⟩ := reclist_insert_disjoint_terminates_aux
    (rectlist_area head + e.area).toNat _ _ head e hh he (by omega) (le_refl _) (le_refl _)
  exact ⟨fuel, res, fun fuel1 hle => reclist_insert_disjoint_mono fuel fuel1 hle _ _ _ hr⟩

/-! ## The fold `disjoin_rects` -/

theorem disjoin_rects_loop_post
    (Q : List XRectangle → List XRectangle → List XRectangle → Prop)
    (hrefl : ∀ t, Q t [] t)
    (htrans : ∀ t es1 t1 es2 t2, Q t es1 t1 → Q t1 es2 t2 → Q t (es1 ++ es2) t2)
    (hins : ∀ fuel t e r, reclist_insert_disjoint fuel t (some e) = some r → Q t [e] r)
    (fuel : Nat) :
    ∀ (buf rects res : List XRectangle),
      disjoin_rects.loop fuel buf rects = some res → Q rects buf res := by
  intro buf
  induction buf with
  | nil =>
    intro rects res h
    simp only [disjoin_rects.loop, Option.some.injEq] at h
    subst h
    exact hrefl _
  | cons c cs ih =>
    intro rects res h
    simp only [disjoin_rects.loop] at h
    cases h1 : reclist_insert_disjoint fuel rects (some c) with
    | none => simp [h1] at h
    | some rects1 =>
      rw [h1] at h
      exact htrans rects [c] rects1 cs res (hins _ _ _ _ h1) (ih _ _ h)

theorem disjoin_rects_loop_wf (fuel : Nat) (buf rects res : List XRectangle)
    (h : disjoin_rects.loop fuel buf rects = some res) : InsertWF rects buf res :=
  disjoin_rects_loop_post InsertWF InsertWF_refl InsertWF_trans
    (fun fuel t e r hr => reclist_insert_disjoint_wf fuel t (some e) r hr) fuel buf rects res h

theorem disjoin_rects_loop_inRange (fuel : Nat) (buf rects res : List XRectangle)
    (h : disjoin_rects.loop fuel buf rects = some res) : InsertInRange rects buf res :=
  disjoin_rects_loop_post InsertInRange InsertInRange_refl InsertInRange_trans
    (fun fuel t e r hr => reclist_insert_disjoint_inRange fuel t (some e) r hr)
    fuel buf rects res h

theorem disjoin_rects_loop_terminates :
    ∀ (buf rects : List XRectangle), (∀ r ∈ buf, r.WF) → (∀ r ∈ rects, r.WF) →
      ∃ fuel res, ∀ fuel1, fuel ≤ fuel1 → disjoin_rects.loop fuel1 buf rects = some res := by
  intro buf
  induction buf with
  | nil => intro rects _ _; exact ⟨0, rects, fun _ _ => rfl⟩
  | cons c cs ih =>
    intro rects hb hr
    have hc : c.WF := hb c (List.mem_cons_self _ _)
    obtain ⟨fuel0, rects1, h0⟩ := reclist_insert_disjoint_terminates rects c hr hc
    have hw := (reclist_insert_disjoint_wf _ _ _ _ (h0 fuel0 (le_refl _)) hr (by
      intro r hq
      simp only [Option.toList, List.mem_singleton] at hq
      subst hq; exact hc)).1
    obtain ⟨fuel1, res, h1⟩ := ih rects1 (fun r hq => hb r (List.mem_cons_of_mem _ hq)) hw
    refine ⟨max fuel0 fuel1, res, ?_⟩
    intro fuel2 hle
    simp only [disjoin_rects.loop]
    rw [h0 fuel2 (le_trans (Nat.le_max_left _ _) hle)]
    exact h1 fuel2 (le_trans (Nat.le_max_right _ _) hle)

/-- For well-formed rectangles `disjoin_rects` returns: from some amount of fuel on it
yields one and the same list. -/
theorem disjoin_rects_terminates (buf : List XRectangle) (hb : ∀ r ∈ buf, r.WF) :
    ∃ fuel res, ∀ fuel1, fuel ≤ fuel1 → disjoin_rects fuel1 buf = some res :=
  disjoin_rects_loop_terminates buf [] hb (by simp)

/-- An element that intersects nothing in the list is appended at its end. -/
theorem reclist_insert_disjoint_append (e : XRectangle) :
    ∀ (fuel : Nat) (t : List XRectangle), (∀ r ∈ t, rects_intersect r e = false) →
      t.length < fuel → reclist_insert_disjoint fuel t (some e) = some (t ++ [e]) := by
  intro fuel
  induction fuel with
  | zero => intro t _ h; omega
  | succ n ih =>
    intro t ht hlen
    cases t with
    | nil => rfl
    | cons hd next =>
      rw [reclist_insert_disjoint_skip _ _ _ _ (ht hd (List.mem_cons_self _ _)),
        ih next (fun r hr => ht r (List.mem_cons_of_mem _ hr))
          (by simp only [List.length_cons] at hlen; omega)]
      rfl

theorem disjoin_rects_loop_of_disjoint (fuel : Nat) :
    ∀ (buf rects : List XRectangle), rectlist_disjoint (rects ++ buf) →
      (rects ++ buf).length ≤ fuel →
      disjoin_rects.loop fuel buf rects = some (rects ++ buf) := by
  intro buf
  induction buf with
  | nil => intro rects _ _; simp [disjoin_rects.loop]
  | cons c cs ih =>
    intro rects hd hlen
    have hd1 := hd
    unfold rectlist_disjoint at hd1
    rw [List.pairwise_append] at hd1
    simp only [disjoin_rects.loop]
    rw [reclist_insert_disjoint_append c fuel rects
      (fun r hr => hd1.2.2 r hr c (List.mem_cons_self _ _))
      (by simp only [List.length_append, List.length_cons] at hlen; omega)]
    have hassoc : rects ++ [c] ++ cs = rects ++ c :: cs := by simp
    have := ih (rects ++ [c]) (by rw [hassoc]; exact hd) (by rw [hassoc]; exact hlen)
    rw [hassoc] at this
    exact this

/-! ## Area of the union -/

theorem XRectangle.contains_eq_product (r : XRectangle) :
    {p : Int × Int | r.contains p.1 p.2} =
      ↑(Finset.Ico r.x (r.x + r.width) ×ˢ Finset.Ico r.y (r.y + r.height)) := by
  ext ⟨a, b⟩
  simp only [Set.mem_setOf_eq, XRectangle.contains, Finset.coe_product, Finset.coe_Ico,
    Set.mem_prod, Set.mem_Ico]
  tauto

theorem XRectangle.ncard_contains (r : XRectangle) (hr : r.WF) :
    (Set.ncard {p : Int × Int | r.contains p.1 p.2} : Int) = r.area := by
  rw [XRectangle.contains_eq_product, Set.ncard_coe_Finset, Finset.card_product,
    Int.card_Ico, Int.card_Ico]
  unfold XRectangle.WF at hr
  unfold XRectangle.area
  push_cast
  rw [Int.toNat_of_nonneg (by omega), Int.toNat_of_nonneg (by omega)]
  ring

/-- The area of a list of pairwise non-intersecting rectangles is the number of unit
cells (integer points) it covers. -/
theorem rectlist_area_eq_ncard (l : List XRectangle) (hwf : ∀ r ∈ l, r.WF)
    (hdis : rectlist_disjoint l) :
    Set.Finite {p : Int × Int | rectlist_covers l p.1 p.2} ∧
      (Set.ncard {p : Int × Int | rectlist_covers l p.1 p.2} : Int) = rectlist_area l := by
  induction l with
  | nil =>
    have : {p : Int × Int | rectlist_covers [] p.1 p.2} = ∅ := by
      ext p; simp [rectlist_covers_nil]
    rw [this]
    simp [rectlist_area]
  | cons r rs ih =>
    unfold rectlist_disjoint at hdis
    rw [List.pairwise_cons] at hdis
    obtain ⟨hfin, hcard⟩ := ih (fun q hq => hwf q (List.mem_cons_of_mem _ hq)) hdis.2
    have hr := hwf r (List.mem_cons_self _ _)
    have hset : {p : Int × Int | rectlist_covers (r :: rs) p.1 p.2} =
        {p : Int × Int | r.contains p.1 p.2} ∪ {p : Int × Int | rectlist_covers rs p.1 p.2} := by
      ext p
      simp only [Set.mem_setOf_eq, Set.mem_union, rectlist_covers_cons]
    have hrfin : Set.Finite {p : Int × Int | r.contains p.1 p.2} := by
      rw [XRectangle.contains_eq_product]
      exact Finset.finite_toSet _
    have hdisj : Disjoint {p : Int × Int | r.contains p.1 p.2}
        {p : Int × Int | rectlist_covers rs p.1 p.2} := by
      rw [Set.disjoint_left]
      rintro p hp ⟨q, hq, hqc⟩
      have h1 := rects_intersect_of_contains r q p.1 p.2 hp hqc
      rw [hdis.1 q hq] at h1
      exact absurd h1 (by simp)
    rw [hset]
    refine ⟨hrfin.union hfin, ?_⟩
    rw [Set.ncard_union_eq hdisj hrfin hfin]
    push_cast
    rw [hcard, XRectangle.ncard_contains r hr]
    rfl

/-! ## Claims about the decomposition -/

theorem rectlist_disjoint_index (l : List XRectangle) (hd : rectlist_disjoint l)
    (i j : Nat) (a b : XRectangle) (hij : i ≠ j) (ha : l[i]? = some a) (hb : l[j]? = some b) :
    rects_intersect a b = false ∧ ∀ px py, ¬ (a.contains px py ∧ b.contains px py) := by
  obtain ⟨hi, rfl⟩ := List.getElem?_eq_some.mp ha
  obtain ⟨hj, rfl⟩ := List.getElem?_eq_some.mp hb
  have hp := List.pairwise_iff_getElem.mp hd
  have h1 : rects_intersect l[i] l[j] = false := by
    rcases Nat.lt_or_gt_of_ne hij with h | h
    · exact hp i j hi hj h
    · rw [rects_intersect_comm]; exact hp j i hj hi h
  refine ⟨h1, ?_⟩
  rintro px py ⟨h2, h3⟩
  rw [rects_intersect_of_contains _ _ px py h2 h3] at h1
  exact absurd h1 (by simp)

/-- C1, as stated, fails where a border part crosses the end of the `short` coordinate
space: all three inputs are well-formed `XRectangle`s, the right part of
`2000x10+32000+0` is stored at `x = 33000 - 65536 = -32536` and lands on the first
input, so the output holds two intersecting rectangles. -/
theorem disjoin_rects_wraps_onto_earlier_rect :
    (∀ r ∈ [(⟨-32536, 0, 1000, 10⟩ : XRectangle), ⟨32000, 0, 1000, 10⟩,
        ⟨32000, 0, 2000, 10⟩], r.WF) ∧
    disjoin_rects 4 [⟨-32536, 0, 1000, 10⟩, ⟨32000, 0, 1000, 10⟩, ⟨32000, 0, 2000, 10⟩] =
      some [⟨-32536, 0, 1000, 10⟩, ⟨32000, 0, 1000, 10⟩, ⟨-32536, 0, 1000, 10⟩] ∧
    rects_intersect ⟨-32536, 0, 1000, 10⟩ ⟨-32536, 0, 1000, 10⟩ = true ∧
    ¬ rectlist_disjoint
      [⟨-32536, 0, 1000, 10⟩, ⟨32000, 0, 1000, 10⟩, ⟨-32536, 0, 1000, 10⟩] := by
  decide

/-- C1 (amended): for every input sequence `R` of rectangles that lie inside the
coordinate space of `short` (`x + width ≤ 32768`, `y + height ≤ 32768`),
`disjoin_rects R` returns, and no two rectangles at distinct positions of the returned
list intersect: `rects_intersect` is false for them and no point lies in both. -/
theorem disjoin_rects_pairwise_disjoint (R : List XRectangle) (hR : ∀ r ∈ R, r.InRange) :
    ∃ fuel res, (∀ fuel1, fuel ≤ fuel1 → disjoin_rects fuel1 R = some res) ∧
      ∀ (i j : Nat) (a b : XRectangle), i ≠ j → res[i]? = some a → res[j]? = some b →
        rects_intersect a b = false ∧ ∀ px py, ¬ (a.contains px py ∧ b.contains px py) := by
  obtain ⟨fuel, res, h⟩ := disjoin_rects_terminates R (fun r hr => (hR r hr).1)
  refine ⟨fuel, res, h, ?_⟩
  have h1 := disjoin_rects_loop_inRange fuel R [] res (h fuel (le_refl _)) (by simp) hR
  have hd : rectlist_disjoint res := h1.2.2.2 (by simp [rectlist_disjoint])
  intro i j a b hij ha hb
  exact rectlist_disjoint_index res hd i j a b hij ha hb

theorem disjoin_rects_pairwise_disjoint_witness :
    (∀ r ∈ [(⟨0, 0, 10, 10⟩ : XRectangle), ⟨5, 5, 10, 10⟩], r.InRange) ∧
    ∃ fuel res, (∀ fuel1, fuel ≤ fuel1 →
        disjoin_rects fuel1 [⟨0, 0, 10, 10⟩, ⟨5, 5, 10, 10⟩] = some res) ∧
      ∀ (i j : Nat) (a b : XRectangle), i ≠ j → res[i]? = some a → res[j]? = some b →
        rects_intersect a b = false ∧ ∀ px py, ¬ (a.contains px py ∧ b.contains px py) :=
  ⟨by decide, disjoin_rects_pairwise_disjoint _ (by decide)⟩

/-- C2, as stated, fails where a border part crosses the end of the `short` coordinate
space: the point `(33000, 0)` lies in the input `2000x10+32000+0` and in no output
rectangle, and the point `(-32536, 0)` lies in an output rectangle and in no input. -/
theorem disjoin_rects_wraps_out_of_union :
    (∀ r ∈ [(⟨32000, 0, 1000, 10⟩ : XRectangle), ⟨32000, 0, 2000, 10⟩], r.WF) ∧
    disjoin_rects 2 [⟨32000, 0, 1000, 10⟩, ⟨32000, 0, 2000, 10⟩] =
      some [⟨32000, 0, 1000, 10⟩, ⟨-32536, 0, 1000, 10⟩] ∧
    rectlist_covers [⟨32000, 0, 1000, 10⟩, ⟨32000, 0, 2000, 10⟩] 33000 0 ∧
    ¬ rectlist_covers [⟨32000, 0, 1000, 10⟩, ⟨-32536, 0, 1000, 10⟩] 33000 0 ∧
    rectlist_covers [⟨32000, 0, 1000, 10⟩, ⟨-32536, 0, 1000, 10⟩] (-32536) 0 ∧
    ¬ rectlist_covers [⟨32000, 0, 1000, 10⟩, ⟨32000, 0, 2000, 10⟩] (-32536) 0 := by
  decide

/-- C2 (amended): for every input sequence `R` of rectangles that lie inside the
coordinate space of `short`, `disjoin_rects R` returns a list that covers exactly the
union of `R` (a point lies in some output rectangle iff it lies in some input
rectangle), and the sum of the output areas is the area of that union (its number of
unit cells). -/
theorem disjoin_rects_covers_union (R : List XRectangle) (hR : ∀ r ∈ R, r.InRange) :
    ∃ fuel res, (∀ fuel1, fuel ≤ fuel1 → disjoin_rects fuel1 R = some res) ∧
      (∀ px py, rectlist_covers res px py ↔ rectlist_covers R px py) ∧
      rectlist_area res = (Set.ncard {p : Int × Int | rectlist_covers R p.1 p.2} : Int) := by
  obtain ⟨fuel, res, h⟩ := disjoin_rects_terminates R (fun r hr => (hR r hr).1)
  have h1 := disjoin_rects_loop_inRange fuel R [] res (h fuel (le_refl _)) (by simp) hR
  have hd : rectlist_disjoint res := h1.2.2.2 (by simp [rectlist_disjoint])
  have hc : ∀ px py, rectlist_covers res px py ↔ rectlist_covers R px py := by
    intro px py
    rw [h1.2.2.1 px py]
    simp [rectlist_covers_nil]
  refine ⟨fuel, res, h, hc, ?_⟩
  rw [← (rectlist_area_eq_ncard res (fun r hr => (h1.1 r hr).1) hd).2]
  have hset : {p : Int × Int | rectlist_covers res p.1 p.2} =
      {p : Int × Int | rectlist_covers R p.1 p.2} := by
    ext p; exact hc p.1 p.2
  rw [hset]

theorem disjoin_rects_covers_union_witness :
    (∀ r ∈ [(⟨0, 0, 10, 10⟩ : XRectangle), ⟨5, 5, 10, 10⟩], r.InRange) ∧
    ∃ fuel res, (∀ fuel1, fuel ≤ fuel1 →
        disjoin_rects fuel1 [⟨0, 0, 10, 10⟩, ⟨5, 5, 10, 10⟩] = some res) ∧
      (∀ px py, rectlist_covers res px py ↔
        rectlist_covers [⟨0, 0, 10, 10⟩, ⟨5, 5, 10, 10⟩] px py) ∧
      rectlist_area res = (Set.ncard {p : Int × Int |
        rectlist_covers [⟨0, 0, 10, 10⟩, ⟨5, 5, 10, 10⟩] p.1 p.2} : Int) :=
  ⟨by decide, disjoin_rects_covers_union _ (by decide)⟩

/-- C3, as stated, fails for a degenerate input: `disjoin_rects` puts the first input
rectangle into the list as it is, so `0x0+0+0` is returned as an output rectangle. -/
theorem disjoin_rects_keeps_degenerate_input :
    (⟨0, 0, 0, 0⟩ : XRectangle).WF ∧
    disjoin_rects 1 [⟨0, 0, 0, 0⟩] = some [⟨0, 0, 0, 0⟩] ∧
    (⟨0, 0, 0, 0⟩ : XRectangle).degenerate ∧
    ¬ (0 < (⟨0, 0, 0, 0⟩ : XRectangle).width ∧ 0 < (⟨0, 0, 0, 0⟩ : XRectangle).height) := by
  decide

/-- C3 (amended): for every input sequence `R` of non-degenerate rectangles (width > 0
and height > 0), `disjoin_rects R` returns and every rectangle of the returned list is
non-degenerate. -/
theorem disjoin_rects_nondegenerate (R : List XRectangle)
    (hR : ∀ r ∈ R, r.WF ∧ 0 < r.width ∧ 0 < r.height) :
    ∃ fuel res, (∀ fuel1, fuel ≤ fuel1 → disjoin_rects fuel1 R = some res) ∧
      ∀ r ∈ res, 0 < r.width ∧ 0 < r.height := by
  obtain ⟨fuel, res, h⟩ := disjoin_rects_terminates R (fun r hr => (hR r hr).1)
  refine ⟨fuel, res, h, ?_⟩
  have h1 := disjoin_rects_loop_wf fuel R [] res (h fuel (le_refl _)) (by simp)
    (fun r hr => (hR r hr).1)
  have h2 := h1.2.2.2.1 (by simp) (by
    intro r hr hdeg
    have := hR r hr
    unfold XRectangle.degenerate at hdeg
    omega)
  intro r hr
  have := h2 r hr
  unfold XRectangle.degenerate at this
  omega

theorem disjoin_rects_nondegenerate_witness :
    (∀ r ∈ [(⟨0, 0, 10, 10⟩ : XRectangle), ⟨5, 5, 10, 10⟩],
      r.WF ∧ 0 < r.width ∧ 0 < r.height) ∧
    ∃ fuel res, (∀ fuel1, fuel ≤ fuel1 →
        disjoin_rects fuel1 [⟨0, 0, 10, 10⟩, ⟨5, 5, 10, 10⟩] = some res) ∧
      ∀ r ∈ res, 0 < r.width ∧ 0 < r.height :=
  ⟨by decide, disjoin_rects_nondegenerate _ (by decide)⟩

/-- C4: priority of the earlier rectangle. When the element `e` intersects the head `h`
of the list, `reclist_insert_disjoint` returns, the first node of the result is the
node of `h` now holding exactly `intersection_area h e`, and the rest is the old tail
with the border parts of `h` and then of `e` inserted: no node holds `e` itself.
Consequently the first rectangle of `disjoin_rects (r0 :: R)` lies inside `r0`. -/
theorem reclist_insert_disjoint_priority (h e : XRectangle) (next : List XRectangle)
    (r0 : XRectangle) (R : List XRectangle)
    (hh : h.WF) (hn : ∀ r ∈ next, r.WF) (he : e.WF) (hi : rects_intersect h e = true)
    (hr0 : r0.WF) (hR : ∀ r ∈ R, r.WF) :
    (∃ fuel next1 next2, ∀ fuel1, fuel ≤ fuel1 →
      insert_rect_border (reclist_insert_disjoint fuel1) next h (intersection_area h e)
        = some next1 ∧
      insert_rect_border (reclist_insert_disjoint fuel1) next1 e (intersection_area h e)
        = some next2 ∧
      reclist_insert_disjoint (fuel1 + 1) (h :: next) (some e)
        = some (intersection_area h e :: next2)) ∧
    (∃ fuel first rest, (∀ fuel1, fuel ≤ fuel1 →
        disjoin_rects fuel1 (r0 :: R) = some (first :: rest)) ∧
      first.within r0 ∧ ∀ px py, first.contains px py → r0.contains px py) := by
  constructor
  · obtain ⟨fuel, res, hres⟩ := reclist_insert_disjoint_terminates (h :: next) e
      (by
        intro r hr
        rcases List.mem_cons.mp hr with rfl | hr
        · exact hh
        · exact hn r hr) he
    have h0 := hres (fuel + 1) (Nat.le_succ _)
    rw [reclist_insert_disjoint_split _ _ _ _ hi] at h0
    obtain ⟨next1, h1, h2⟩ := Option.bind_eq_some.mp h0
    obtain ⟨next2, h3, _⟩ := Option.map_eq_some'.mp h2
    refine ⟨fuel, next1, next2, ?_⟩
    intro fuel1 hle
    have g1 := insert_rect_border_loop_fuel_mono fuel fuel1 hle _ _ _ h1
    have g3 := insert_rect_border_loop_fuel_mono fuel fuel1 hle _ _ _ h3
    refine ⟨g1, g3, ?_⟩
    rw [reclist_insert_disjoint_split _ _ _ _ hi]
    rw [show insert_rect_border (reclist_insert_disjoint fuel1) next h
      (intersection_area h e) = some next1 from g1, Option.some_bind]
    rw [show insert_rect_border (reclist_insert_disjoint fuel1) next1 e
      (intersection_area h e) = some next2 from g3, Option.map_some']
  · obtain ⟨fuel, res, hres⟩ := disjoin_rects_terminates (r0 :: R) (by
      intro r hr
      rcases List.mem_cons.mp hr with rfl | hr
      · exact hr0
      · exact hR r hr)
    have h0 := hres (fuel + 1) (Nat.le_succ _)
    have h1 : disjoin_rects.loop (fuel + 1) R [r0] = some res := h0
    have h2 := (disjoin_rects_loop_wf _ _ _ _ h1 (by
      intro r hr
      rw [List.mem_singleton] at hr
      subst hr; exact hr0) hR).2.2.2.2 r0 [] rfl
    obtain ⟨first, rest, h3, h4⟩ := h2
    subst h3
    refine ⟨fuel, first, rest, hres, h4, ?_⟩
    intro px py hp
    unfold XRectangle.within at h4
    unfold XRectangle.contains at hp ⊢
    omega

theorem reclist_insert_disjoint_priority_witness :
    ((⟨0, 0, 10, 10⟩ : XRectangle).WF ∧
      (∀ r ∈ [(⟨20, 0, 5, 5⟩ : XRectangle)], r.WF) ∧ (⟨5, 5, 10, 10⟩ : XRectangle).WF ∧
      rects_intersect ⟨0, 0, 10, 10⟩ ⟨5, 5, 10, 10⟩ = true ∧
      (⟨0, 0, 10, 10⟩ : XRectangle).WF ∧ (∀ r ∈ [(⟨5, 5, 10, 10⟩ : XRectangle)], r.WF)) ∧
    ((∃ fuel next1 next2, ∀ fuel1, fuel ≤ fuel1 →
      insert_rect_border (reclist_insert_disjoint fuel1) [⟨20, 0, 5, 5⟩] ⟨0, 0, 10, 10⟩
        (intersection_area ⟨0, 0, 10, 10⟩ ⟨5, 5, 10, 10⟩) = some next1 ∧
      insert_rect_border (reclist_insert_disjoint fuel1) next1 ⟨5, 5, 10, 10⟩
        (intersection_area ⟨0, 0, 10, 10⟩ ⟨5, 5, 10, 10⟩) = some next2 ∧
      reclist_insert_disjoint (fuel1 + 1) (⟨0, 0, 10, 10⟩ :: [⟨20, 0, 5, 5⟩])
        (some ⟨5, 5, 10, 10⟩)
        = some (intersection_area ⟨0, 0, 10, 10⟩ ⟨5, 5, 10, 10⟩ :: next2)) ∧
    (∃ fuel first rest, (∀ fuel1, fuel ≤ fuel1 →
        disjoin_rects fuel1 (⟨0, 0, 10, 10⟩ :: [⟨5, 5, 10, 10⟩]) = some (first :: rest)) ∧
      first.within ⟨0, 0, 10, 10⟩ ∧
      ∀ px py, first.contains px py → (⟨0, 0, 10, 10⟩ : XRectangle).contains px py)) :=
  ⟨by decide, reclist_insert_disjoint_priority ⟨0, 0, 10, 10⟩ ⟨5, 5, 10, 10⟩
    [⟨20, 0, 5, 5⟩] ⟨0, 0, 10, 10⟩ [⟨5, 5, 10, 10⟩]
    (by decide) (by decide) (by decide) (by decide) (by decide) (by decide)⟩

/-- C5, as stated, fails in its last part: `disjoin_rects` is not idempotent on an
output that holds intersecting rectangles, which it returns when a border part crosses
the end of the `short` coordinate space. -/
theorem disjoin_rects_not_idempotent_after_wrap :
    (∀ r ∈ [(⟨-32536, 0, 1000, 10⟩ : XRectangle), ⟨32000, 0, 1000, 10⟩,
        ⟨32000, 0, 2000, 10⟩], r.WF) ∧
    disjoin_rects 4 [⟨-32536, 0, 1000, 10⟩, ⟨32000, 0, 1000, 10⟩, ⟨32000, 0, 2000, 10⟩] =
      some [⟨-32536, 0, 1000, 10⟩, ⟨32000, 0, 1000, 10⟩, ⟨-32536, 0, 1000, 10⟩] ∧
    disjoin_rects 4 [⟨-32536, 0, 1000, 10⟩, ⟨32000, 0, 1000, 10⟩, ⟨-32536, 0, 1000, 10⟩] =
      some [⟨-32536, 0, 1000, 10⟩, ⟨32000, 0, 1000, 10⟩] := by
  decide

/-- C5 (amended): `disjoin_rects []` is the empty list, `disjoin_rects [A] = [A]` for
every rectangle `A`, and `disjoin_rects L = L` for every list `L` whose rectangles are
pairwise non-intersecting; so `disjoin_rects` is idempotent on its output for every
input inside the coordinate space of `short`. -/
theorem disjoin_rects_fixes_disjoint (A : XRectangle) (L R : List XRectangle)
    (hL : rectlist_disjoint L) (hR : ∀ r ∈ R, r.InRange) :
    (∀ fuel, disjoin_rects fuel [] = some []) ∧
    (∀ fuel, 1 ≤ fuel → disjoin_rects fuel [A] = some [A]) ∧
    (∀ fuel, L.length ≤ fuel → disjoin_rects fuel L = some L) ∧
    (∃ fuel res, ∀ fuel1, fuel ≤ fuel1 →
      disjoin_rects fuel1 R = some res ∧ disjoin_rects fuel1 res = some res) := by
  refine ⟨fun _ => rfl, ?_, ?_, ?_⟩
  · intro fuel hf
    have := disjoin_rects_loop_of_disjoint fuel [A] [] (by simp [rectlist_disjoint])
      (by simpa using hf)
    simpa [disjoin_rects] using this
  · intro fuel hf
    have := disjoin_rects_loop_of_disjoint fuel L [] (by simpa using hL) (by simpa using hf)
    simpa [disjoin_rects] using this
  · obtain ⟨fuel, res, h⟩ := disjoin_rects_terminates R (fun r hr => (hR r hr).1)
    have h1 := disjoin_rects_loop_inRange fuel R [] res (h fuel (le_refl _)) (by simp) hR
    have hd : rectlist_disjoint res := h1.2.2.2 (by simp [rectlist_disjoint])
    refine ⟨max fuel res.length, res, ?_⟩
    intro fuel1 hle
    refine ⟨h fuel1 (le_trans (Nat.le_max_left _ _) hle), ?_⟩
    have := disjoin_rects_loop_of_disjoint fuel1 res [] (by simpa using hd)
      (by simpa using le_trans (Nat.le_max_right _ _) hle)
    simpa [disjoin_rects] using this

theorem disjoin_rects_fixes_disjoint_witness :
    (rectlist_disjoint [⟨0, 0, 10, 10⟩, ⟨10, 0, 10, 10⟩] ∧
      ∀ r ∈ [(⟨0, 0, 10, 10⟩ : XRectangle), ⟨5, 5, 10, 10⟩], r.InRange) ∧
    ((∀ fuel, disjoin_rects fuel [] = some []) ∧
    (∀ fuel, 1 ≤ fuel → disjoin_rects fuel [⟨3, 4, 5, 6⟩] = some [⟨3, 4, 5, 6⟩]) ∧
    (∀ fuel, [(⟨0, 0, 10, 10⟩ : XRectangle), ⟨10, 0, 10, 10⟩].length ≤ fuel →
      disjoin_rects fuel [⟨0, 0, 10, 10⟩, ⟨10, 0, 10, 10⟩] =
        some [⟨0, 0, 10, 10⟩, ⟨10, 0, 10, 10⟩]) ∧
    (∃ fuel res, ∀ fuel1, fuel ≤ fuel1 →
      disjoin_rects fuel1 [⟨0, 0, 10, 10⟩, ⟨5, 5, 10, 10⟩] = some res ∧
      disjoin_rects fuel1 res = some res)) :=
  ⟨by decide, disjoin_rects_fixes_disjoint ⟨3, 4, 5, 6⟩ [⟨0, 0, 10, 10⟩, ⟨10, 0, 10, 10⟩]
    [⟨0, 0, 10, 10⟩, ⟨5, 5, 10, 10⟩] (by decide) (by decide)⟩

/-- C6: for the input `[10x10+0+0, 10x10+5+5]` `disjoin_rects` returns (from fuel 5 on)
five rectangles that are pairwise disjoint, whose areas sum to 175, and whose first
element is the 5x5 rectangle at (5,5), the overlap of the two inputs held by the node of
the first. -/
theorem disjoin_rects_two_squares :
    (∀ fuel, 5 ≤ fuel → disjoin_rects fuel [⟨0, 0, 10, 10⟩, ⟨5, 5, 10, 10⟩] =
      some [⟨5, 5, 5, 5⟩, ⟨0, 0, 10, 5⟩, ⟨0, 5, 5, 5⟩, ⟨10, 5, 5, 5⟩, ⟨5, 10, 10, 5⟩]) ∧
    rectlist_disjoint
      [⟨5, 5, 5, 5⟩, ⟨0, 0, 10, 5⟩, ⟨0, 5, 5, 5⟩, ⟨10, 5, 5, 5⟩, ⟨5, 10, 10, 5⟩] ∧
    rectlist_area
      [⟨5, 5, 5, 5⟩, ⟨0, 0, 10, 5⟩, ⟨0, 5, 5, 5⟩, ⟨10, 5, 5, 5⟩, ⟨5, 10, 10, 5⟩] = 175 ∧
    intersection_area ⟨0, 0, 10, 10⟩ ⟨5, 5, 10, 10⟩ = ⟨5, 5, 5, 5⟩ ∧
    (⟨5, 5, 5, 5⟩ : XRectangle).within ⟨0, 0, 10, 10⟩ := by
  refine ⟨?_, by decide, by decide, by decide, by decide⟩
  intro fuel hf
  exact disjoin_rects_loop_mono 5 fuel hf _ _ _ (by decide)

theorem disjoin_rects_two_squares_witness :
    (5 : Nat) ≤ 8 ∧ disjoin_rects 8 [⟨0, 0, 10, 10⟩, ⟨5, 5, 10, 10⟩] =
      some [⟨5, 5, 5, 5⟩, ⟨0, 0, 10, 5⟩, ⟨0, 5, 5, 5⟩, ⟨10, 5, 5, 5⟩, ⟨5, 10, 10, 5⟩] :=
  ⟨by decide, disjoin_rects_two_squares.1 8 (by decide)⟩

/-! ## The registry: what each helper leaves unchanged -/

@[simp] theorem State.call_g_monitors (s : State) (c : Call) :
    (s.call c).g_monitors = s.g_monitors := rfl

@[simp] theorem State.call_g_cur_monitor (s : State) (c : Call) :
    (s.call c).g_cur_monitor = s.g_cur_monitor := rfl

@[simp] theorem State.call_g_tags (s : State) (c : Call) :
    (s.call c).g_tags = s.g_tags := rfl

@[simp] theorem State.update_monitor_length (s : State) (p : Int) (f : HSMonitor → HSMonitor) :
    (s.update_monitor p f).g_monitors.length = s.g_monitors.length := by
  unfold State.update_monitor
  split <;> simp

@[simp] theorem State.update_monitor_g_cur_monitor (s : State) (p : Int)
    (f : HSMonitor → HSMonitor) :
    (s.update_monitor p f).g_cur_monitor = s.g_cur_monitor := by
  unfold State.update_monitor
  split <;> rfl

@[simp] theorem monitor_apply_layout_length (env : Env) (s : State) (monitor : Option Int) :
    (monitor_apply_layout env s monitor).g_monitors.length = s.g_monitors.length := by
  unfold monitor_apply_layout
  split
  · rfl
  · split
    · rfl
    · split
      · simp
      · simp only
        split <;> split <;> simp

@[simp] theorem monitor_apply_layout_g_cur_monitor (env : Env) (s : State)
    (monitor : Option Int) :
    (monitor_apply_layout env s monitor).g_cur_monitor = s.g_cur_monitor := by
  unfold monitor_apply_layout
  split
  · rfl
  · split
    · rfl
    · split
      · simp
      · simp only
        split <;> split <;> simp

@[simp] theorem set_pads_length (env : Env) (s : State) (monitor : Int)
    (argv : List String) (k : Nat) :
    (set_pads env s monitor argv k).g_monitors.length = s.g_monitors.length := by
  unfold set_pads
  simp only
  split <;> split <;> split <;> split <;> simp

@[simp] theorem set_pads_g_cur_monitor (env : Env) (s : State) (monitor : Int)
    (argv : List String) (k : Nat) :
    (set_pads env s monitor argv k).g_cur_monitor = s.g_cur_monitor := by
  unfold set_pads
  simp only
  split <;> split <;> split <;> split <;> simp

theorem all_monitors_apply_layout_foldl_shape (env : Env) (is : List Nat) :
    ∀ s : State,
      (is.foldl (fun (s : State) (i : Nat) =>
        monitor_apply_layout env s (some (Int.ofNat i))) s).g_monitors.length
        = s.g_monitors.length ∧
      (is.foldl (fun (s : State) (i : Nat) =>
        monitor_apply_layout env s (some (Int.ofNat i))) s).g_cur_monitor
        = s.g_cur_monitor := by
  induction is with
  | nil => intro s; exact ⟨rfl, rfl⟩
  | cons i is ih =>
    intro s
    rw [List.foldl_cons]
    have := ih (monitor_apply_layout env s (some (Int.ofNat i)))
    simpa using this

theorem all_monitors_apply_layout_shape (env : Env) (s : State) :
    (all_monitors_apply_layout env s).g_monitors.length = s.g_monitors.length ∧
    (all_monitors_apply_layout env s).g_cur_monitor = s.g_cur_monitor :=
  all_monitors_apply_layout_foldl_shape env _ s

@[simp] theorem add_monitor_length (s : State) (rect : XRectangle) (tag : Nat) :
    (add_monitor s rect tag).1.g_monitors.length = s.g_monitors.length + 1 := by
  simp [add_monitor]

@[simp] theorem add_monitor_g_cur_monitor (s : State) (rect : XRectangle) (tag : Nat) :
    (add_monitor s rect tag).1.g_cur_monitor = s.g_cur_monitor := rfl

/-! ## The registry invariant -/

theorem add_monitor_command_shape (env : Env) (s : State) (argv : List String) :
    s.g_monitors.length ≤ (add_monitor_command env s argv).2.g_monitors.length ∧
    (add_monitor_command env s argv).2.g_cur_monitor = s.g_cur_monitor := by
  unfold add_monitor_command
  simp only
  split
  · exact ⟨le_refl _, rfl⟩
  · split
    · exact ⟨le_refl _, rfl⟩
    · split
      · exact ⟨le_refl _, rfl⟩
      · simp

theorem remove_monitor_inv (env : Env) (s : State) (index : Int) (h : s.Inv) :
    (remove_monitor env s index).2.Inv ∧
    s.g_monitors.length ≤ (remove_monitor env s index).2.g_monitors.length + 1 ∧
    ((remove_monitor env s index).1 = Status.HERBST_SUCCESS →
      (remove_monitor env s index).2.g_monitors.length + 1 = s.g_monitors.length) := by
  unfold State.Inv at h
  unfold remove_monitor
  split
  · exact ⟨h, by simp, by simp⟩
  · split
    · exact ⟨h, by simp, by simp⟩
    · rename_i h1 h2
      have hm : s.monitor index ≠ none := by
        unfold State.monitor
        rw [if_neg (by omega)]
        intro hn
        rw [List.getElem?_eq_none_iff] at hn
        omega
      split
      · rename_i hn; exact absurd hn hm
      · simp only
        have hlen : (s.g_monitors.eraseIdx index.toNat).length + 1 = s.g_monitors.length := by
          rw [List.length_eraseIdx, if_pos (by omega)]
          omega
        unfold State.Inv
        by_cases hc : s.g_cur_monitor > index
        · simp only [hc, if_true, State.call_g_cur_monitor, State.call_g_monitors]
          generalize s.g_monitors.eraseIdx index.toNat = l1 at hlen ⊢
          have : ¬ int_ge_len (s.g_cur_monitor - 1) l1.length := by
            unfold int_ge_len; omega
          rw [if_neg this]
          simp only
          omega
        · simp only [hc, if_false, State.call_g_cur_monitor, State.call_g_monitors]
          generalize s.g_monitors.eraseIdx index.toNat = l1 at hlen ⊢
          by_cases hc2 : int_ge_len s.g_cur_monitor l1.length
          · rw [if_pos hc2]
            simp only [monitor_apply_layout_length, monitor_apply_layout_g_cur_monitor]
            unfold int_ge_len at hc2
            omega
          · rw [if_neg hc2]
            simp only
            unfold int_ge_len at hc2
            omega

theorem set_monitor_rects_loop_rects_shape :
    ∀ (ts : List XRectangle) (s : State) (i : Int),
      (set_monitor_rects.loop_rects s ts i).1.g_monitors.length = s.g_monitors.length ∧
      (set_monitor_rects.loop_rects s ts i).1.g_cur_monitor = s.g_cur_monitor := by
  intro ts
  induction ts with
  | nil => intro s i; exact ⟨rfl, rfl⟩
  | cons t ts ih =>
    intro s i
    unfold set_monitor_rects.loop_rects
    split
    · split
      · exact ⟨rfl, rfl⟩
      · rename_i m _
        have := ih (s.update_monitor m (fun mon => { mon with rect := t })) (i + 1)
        simpa using this
    · exact ⟨rfl, rfl⟩

theorem set_monitor_rects_loop_add_shape :
    ∀ (ts : List XRectangle) (s : State) (i : Int),
      match set_monitor_rects.loop_add s ts i with
      | Except.error s1 =>
        s.g_monitors.length ≤ s1.g_monitors.length ∧ s1.g_cur_monitor = s.g_cur_monitor
      | Except.ok (s1, _) =>
        s.g_monitors.length ≤ s1.g_monitors.length ∧ s1.g_cur_monitor = s.g_cur_monitor := by
  intro ts
  induction ts with
  | nil => intro s i; exact ⟨le_refl _, rfl⟩
  | cons t ts ih =>
    intro s i
    cases hf : find_unused_tag s with
    | none =>
      simp [set_monitor_rects.loop_add, hf]
    | some tag =>
      simp only [set_monitor_rects.loop_add, hf]
      have := ih ((add_monitor s t tag).1.call (Call.frame_show_recursive tag)) (i + 1)
      split at this
      · rename_i s1 heq
        simp only [State.call_g_monitors, add_monitor_length, State.call_g_cur_monitor,
          add_monitor_g_cur_monitor] at this
        exact ⟨by omega, this.2⟩
      · rename_i s1 j heq
        simp only [State.call_g_monitors, add_monitor_length, State.call_g_cur_monitor,
          add_monitor_g_cur_monitor] at this
        exact ⟨by omega, this.2⟩

theorem set_monitor_rects_loop_remove_inv (env : Env) :
    ∀ (n : Nat) (s : State) (i : Int), s.Inv →
      (set_monitor_rects.loop_remove env n s i).Inv := by
  intro n
  induction n with
  | zero => intro s i h; exact h
  | succ n ih =>
    intro s i h
    unfold set_monitor_rects.loop_remove
    split
    · exact ih _ _ (remove_monitor_inv env s i h).1
    · exact h

theorem State.Inv_of_shape (s s1 : State) (h : s.Inv)
    (hlen : s.g_monitors.length ≤ s1.g_monitors.length)
    (hcur : s1.g_cur_monitor = s.g_cur_monitor) : s1.Inv := by
  unfold State.Inv at h ⊢
  omega

theorem set_monitor_rects_inv (env : Env) (s : State) (templates : List XRectangle)
    (h : s.Inv) : (set_monitor_rects env s templates).2.Inv := by
  unfold set_monitor_rects
  split
  · exact h
  · have h1 := set_monitor_rects_loop_rects_shape templates s 0
    generalize set_monitor_rects.loop_rects s templates 0 = r at h1
    obtain ⟨s1, i, rest⟩ := r
    simp only at h1 ⊢
    have hs1 : s1.Inv := State.Inv_of_shape s s1 h (by omega) h1.2
    have h2 := set_monitor_rects_loop_add_shape rest s1 i
    split
    · rename_i s2 heq
      rw [heq] at h2
      exact State.Inv_of_shape s1 s2 hs1 h2.1 h2.2
    · rename_i s2 j heq
      rw [heq] at h2
      have hs2 : s2.Inv := State.Inv_of_shape s1 s2 hs1 h2.1 h2.2
      have hs3 := set_monitor_rects_loop_remove_inv env s2.g_monitors.length s2 j hs2
      have h4 := all_monitors_apply_layout_shape env
        (set_monitor_rects.loop_remove env s2.g_monitors.length s2 j)
      exact State.Inv_of_shape _ _ hs3 (le_of_eq h4.1.symm) h4.2

theorem CLAMP_len_range (x : Int) (len : Nat) (h : 1 ≤ len) :
    0 ≤ CLAMP_len x 0 len ∧ CLAMP_len x 0 len < len := by
  unfold CLAMP_len
  split
  · omega
  · split
    · omega
    · split <;> omega

theorem monitor_focus_by_index_inv (env : Env) (s : State) (new_selection : Int)
    (q : PointerQuery) (h : s.Inv) : (monitor_focus_by_index env s new_selection q).Inv := by
  have hr := CLAMP_len_range new_selection s.g_monitors.length h.1
  unfold monitor_focus_by_index
  simp only
  split
  · exact h
  · split
    · exact h
    · unfold State.Inv at h ⊢
      split <;> split <;> simp <;> omega

theorem run_op_inv (env : Env) (s : State) (op : Op) (h : s.Inv) : (run_op env s op).Inv := by
  cases op with
  | add_monitor rect tag =>
    exact State.Inv_of_shape s _ h (by simp [run_op]) rfl
  | add_monitor_command argv =>
    have := add_monitor_command_shape env s argv
    exact State.Inv_of_shape s _ h this.1 this.2
  | remove_monitor index => exact (remove_monitor_inv env s index h).1
  | remove_monitor_command argv =>
    simp only [run_op, remove_monitor_command]
    split
    · exact h
    · exact (remove_monitor_inv env s _ h).1
  | set_monitor_rects templates => exact set_monitor_rects_inv env s templates h
  | set_monitor_rects_command argv =>
    simp only [run_op, set_monitor_rects_command]
    split
    · exact h
    · exact set_monitor_rects_inv env s _ h
  | monitor_focus_by_index new_selection q =>
    exact monitor_focus_by_index_inv env s new_selection q h
  | monitor_focus_command argv q =>
    simp only [run_op, monitor_focus_command]
    split
    · exact h
    · exact monitor_focus_by_index_inv env s _ q h
  | monitor_cycle_command argv q =>
    simp only [run_op, monitor_cycle_command]
    exact monitor_focus_by_index_inv env s _ q h

/-- C7: the registry invariant. Starting from a state with at least one monitor and
`0 ≤ g_cur_monitor < length`, after any finite sequence of `add_monitor`,
`remove_monitor`, `set_monitor_rects`, `monitor_focus_by_index` and `monitor_cycle`
operations (and their command forms), successful or rejected, with any arguments, the
registry still has at least one monitor and `0 ≤ g_cur_monitor < length`. -/
theorem registry_invariant (env : Env) (ops : List Op) (s : State)
    (hlen : 1 ≤ s.g_monitors.length)
    (hcur : 0 ≤ s.g_cur_monitor ∧ s.g_cur_monitor < s.g_monitors.length) :
    1 ≤ (ops.foldl (run_op env) s).g_monitors.length ∧
    0 ≤ (ops.foldl (run_op env) s).g_cur_monitor ∧
    (ops.foldl (run_op env) s).g_cur_monitor < (ops.foldl (run_op env) s).g_monitors.length := by
  have h : s.Inv := ⟨hlen, hcur.1, hcur.2⟩
  clear hlen hcur
  induction ops generalizing s with
  | nil => exact h
  | cons op ops ih => exact ih (run_op env s op) (run_op_inv env s op h)

theorem registry_invariant_witness :
    (1 ≤ (example_state [example_monitor 1 ⟨0, 0, 800, 600⟩]).g_monitors.length ∧
      (0 ≤ (example_state [example_monitor 1 ⟨0, 0, 800, 600⟩]).g_cur_monitor ∧
        (example_state [example_monitor 1 ⟨0, 0, 800, 600⟩]).g_cur_monitor <
          (example_state [example_monitor 1 ⟨0, 0, 800, 600⟩]).g_monitors.length)) ∧
    (1 ≤ ([Op.remove_monitor 0, Op.add_monitor ⟨800, 0, 800, 600⟩ 2,
        Op.monitor_cycle_command [] ⟨true, 5, 5⟩, Op.remove_monitor 1].foldl
        (run_op example_env)
        (example_state [example_monitor 1 ⟨0, 0, 800, 600⟩])).g_monitors.length ∧
      0 ≤ ([Op.remove_monitor 0, Op.add_monitor ⟨800, 0, 800, 600⟩ 2,
        Op.monitor_cycle_command [] ⟨true, 5, 5⟩, Op.remove_monitor 1].foldl
        (run_op example_env)
        (example_state [example_monitor 1 ⟨0, 0, 800, 600⟩])).g_cur_monitor ∧
      ([Op.remove_monitor 0, Op.add_monitor ⟨800, 0, 800, 600⟩ 2,
        Op.monitor_cycle_command [] ⟨true, 5, 5⟩, Op.remove_monitor 1].foldl
        (run_op example_env)
        (example_state [example_monitor 1 ⟨0, 0, 800, 600⟩])).g_cur_monitor <
      ([Op.remove_monitor 0, Op.add_monitor ⟨800, 0, 800, 600⟩ 2,
        Op.monitor_cycle_command [] ⟨true, 5, 5⟩, Op.remove_monitor 1].foldl
        (run_op example_env)
        (example_state [example_monitor 1 ⟨0, 0, 800, 600⟩])).g_monitors.length) :=
  ⟨by decide, registry_invariant example_env _ _ (by decide) (by decide)⟩

/-! ## Error paths -/

theorem find_monitor_with_tag_loop_isSome (tag : Nat) :
    ∀ (l : List HSMonitor) (i : Int),
      (find_monitor_with_tag.loop tag l i).isSome = true ↔ ∃ m ∈ l, m.tag = tag := by
  intro l
  induction l with
  | nil => intro i; simp [find_monitor_with_tag.loop]
  | cons m ms ih =>
    intro i
    unfold find_monitor_with_tag.loop
    by_cases h : m.tag = tag
    · simp [h]
    · simp [h, ih]

theorem find_monitor_with_tag_isSome (s : State) (tag : Nat) :
    (find_monitor_with_tag s tag).isSome = true ↔ ∃ m ∈ s.g_monitors, m.tag = tag :=
  find_monitor_with_tag_loop_isSome tag s.g_monitors 0

theorem remove_monitor_length (env : Env) (s : State) (index : Int)
    (h1 : 0 ≤ index) (h2 : index < s.g_monitors.length) (h3 : 2 ≤ s.g_monitors.length) :
    (remove_monitor env s index).1 = Status.HERBST_SUCCESS ∧
    (remove_monitor env s index).2.g_monitors.length + 1 = s.g_monitors.length := by
  unfold remove_monitor
  rw [if_neg (by omega), if_neg (by omega)]
  have hm : s.monitor index ≠ none := by
    unfold State.monitor
    rw [if_neg (by omega)]
    intro hn
    rw [List.getElem?_eq_none_iff] at hn
    omega
  have hlen : (s.g_monitors.eraseIdx index.toNat).length + 1 = s.g_monitors.length := by
    rw [List.length_eraseIdx, if_pos (by omega)]
    omega
  split
  · rename_i hn; exact absurd hn hm
  · refine ⟨rfl, ?_⟩
    simp only [State.call_g_monitors]
    split <;> split <;> simpa using hlen

/-- C10: `remove_monitor index` returns `HERBST_INVALID_ARGUMENT` when `index < 0` or
`index >= length`, and otherwise `HERBST_FORBIDDEN` when the registry holds exactly one
monitor; in both cases nothing changes. On the sole remaining monitor (index 0, length
1) it fails with `HERBST_FORBIDDEN`. It succeeds exactly when `0 <= index < length` and
`length >= 2`, and then the length decreases by one. -/
theorem remove_monitor_status (env : Env) (s : State) (index : Int) :
    ((index < 0 ∨ index ≥ s.g_monitors.length) →
      remove_monitor env s index = (Status.HERBST_INVALID_ARGUMENT, s)) ∧
    (0 ≤ index → index < s.g_monitors.length → s.g_monitors.length = 1 →
      remove_monitor env s index = (Status.HERBST_FORBIDDEN, s)) ∧
    (s.g_monitors.length = 1 → remove_monitor env s 0 = (Status.HERBST_FORBIDDEN, s)) ∧
    ((remove_monitor env s index).1 = Status.HERBST_SUCCESS ↔
      (0 ≤ index ∧ index < s.g_monitors.length ∧ 2 ≤ s.g_monitors.length)) ∧
    ((remove_monitor env s index).1 = Status.HERBST_SUCCESS →
      (remove_monitor env s index).2.g_monitors.length + 1 = s.g_monitors.length) := by
  have hinv : (index < 0 ∨ index ≥ s.g_monitors.length) →
      remove_monitor env s index = (Status.HERBST_INVALID_ARGUMENT, s) := by
    intro h
    unfold remove_monitor
    rw [if_pos h]
  have hforb : ∀ i : Int, 0 ≤ i → i < s.g_monitors.length → s.g_monitors.length = 1 →
      remove_monitor env s i = (Status.HERBST_FORBIDDEN, s) := by
    intro i h1 h2 h3
    unfold remove_monitor
    rw [if_neg (by omega), if_pos (by omega)]
  have hiff : (remove_monitor env s index).1 = Status.HERBST_SUCCESS ↔
      (0 ≤ index ∧ index < s.g_monitors.length ∧ 2 ≤ s.g_monitors.length) := by
    constructor
    · intro h
      by_cases c1 : index < 0 ∨ index ≥ s.g_monitors.length
      · rw [hinv c1] at h
        simp at h
      · by_cases c2 : s.g_monitors.length = 1
        · rw [hforb index (by omega) (by omega) c2] at h
          simp at h
        · omega
    · intro h
      exact (remove_monitor_length env s index h.1 h.2.1 h.2.2).1
  refine ⟨hinv, hforb index, ?_, hiff, ?_⟩
  · intro h
    exact hforb 0 (le_refl _) (by omega) h
  · intro h
    have h2 := hiff.mp h
    exact (remove_monitor_length env s index h2.1 h2.2.1 h2.2.2).2

theorem remove_monitor_status_witness :
    (((5 : Int) < 0 ∨ (5 : Int) ≥ (example_state
        [example_monitor 1 ⟨0, 0, 800, 600⟩]).g_monitors.length) ∧
      remove_monitor example_env (example_state [example_monitor 1 ⟨0, 0, 800, 600⟩]) 5 =
        (Status.HERBST_INVALID_ARGUMENT,
          example_state [example_monitor 1 ⟨0, 0, 800, 600⟩])) ∧
    ((example_state [example_monitor 1 ⟨0, 0, 800, 600⟩]).g_monitors.length = 1 ∧
      remove_monitor example_env (example_state [example_monitor 1 ⟨0, 0, 800, 600⟩]) 0 =
        (Status.HERBST_FORBIDDEN, example_state [example_monitor 1 ⟨0, 0, 800, 600⟩])) ∧
    ((remove_monitor example_env (example_state [example_monitor 1 ⟨0, 0, 800, 600⟩,
        example_monitor 2 ⟨800, 0, 800, 600⟩]) 1).1 = Status.HERBST_SUCCESS ∧
      (remove_monitor example_env (example_state [example_monitor 1 ⟨0, 0, 800, 600⟩,
        example_monitor 2 ⟨800, 0, 800, 600⟩]) 1).2.g_monitors.length + 1 =
      (example_state [example_monitor 1 ⟨0, 0, 800, 600⟩,
        example_monitor 2 ⟨800, 0, 800, 600⟩]).g_monitors.length) :=
  ⟨⟨by decide, (remove_monitor_status example_env
      (example_state [example_monitor 1 ⟨0, 0, 800, 600⟩]) 5).1 (by decide)⟩,
    ⟨by decide, (remove_monitor_status example_env
      (example_state [example_monitor 1 ⟨0, 0, 800, 600⟩]) 0).2.2.1 (by decide)⟩,
    ⟨by decide, (remove_monitor_status example_env
      (example_state [example_monitor 1 ⟨0, 0, 800, 600⟩,
        example_monitor 2 ⟨800, 0, 800, 600⟩]) 1).2.2.2.2 (by decide)⟩⟩

/-- C9: when the `add_monitor` command names a tag (`argv[2]`, found by `find_tag`) that
some monitor of the registry is already bound to, it returns `HERBST_TAG_IN_USE` and
changes nothing: the monitor sequence and the current index are as before. -/
theorem add_monitor_command_tag_in_use (env : Env) (s : State) (argv : List String)
    (tag : Nat) (hargc : 3 ≤ argv.length) (hname : argv.getD 2 "" ≠ "")
    (hfind : env.find_tag (argv.getD 2 "") = some tag)
    (hbound : ∃ m ∈ s.g_monitors, m.tag = tag) :
    add_monitor_command env s argv = (Status.HERBST_TAG_IN_USE, s) ∧
    (add_monitor_command env s argv).2.g_monitors = s.g_monitors ∧
    (add_monitor_command env s argv).2.g_cur_monitor = s.g_cur_monitor := by
  have h : add_monitor_command env s argv = (Status.HERBST_TAG_IN_USE, s) := by
    unfold add_monitor_command
    simp only
    rw [if_neg (by omega), if_neg (by
      intro hc
      rcases hc with hc | hc
      · omega
      · exact hname hc), hfind]
    simp only
    rw [if_pos ((find_monitor_with_tag_isSome s tag).mpr hbound)]
  rw [h]
  exact ⟨rfl, rfl, rfl⟩

theorem add_monitor_command_tag_in_use_witness :
    (3 ≤ ["add_monitor", "800x600+800+0", "web"].length ∧
      ["add_monitor", "800x600+800+0", "web"].getD 2 "" ≠ "" ∧
      (fun _ => some 1 : String → Option Nat)
        (["add_monitor", "800x600+800+0", "web"].getD 2 "") = some 1 ∧
      ∃ m ∈ (example_state [example_monitor 1 ⟨0, 0, 800, 600⟩]).g_monitors, m.tag = 1) ∧
    (add_monitor_command { example_env with find_tag := fun _ => some 1 }
        (example_state [example_monitor 1 ⟨0, 0, 800, 600⟩])
        ["add_monitor", "800x600+800+0", "web"] =
      (Status.HERBST_TAG_IN_USE, example_state [example_monitor 1 ⟨0, 0, 800, 600⟩]) ∧
    (add_monitor_command { example_env with find_tag := fun _ => some 1 }
        (example_state [example_monitor 1 ⟨0, 0, 800, 600⟩])
        ["add_monitor", "800x600+800+0", "web"]).2.g_monitors =
      (example_state [example_monitor 1 ⟨0, 0, 800, 600⟩]).g_monitors ∧
    (add_monitor_command { example_env with find_tag := fun _ => some 1 }
        (example_state [example_monitor 1 ⟨0, 0, 800, 600⟩])
        ["add_monitor", "800x600+800+0", "web"]).2.g_cur_monitor =
      (example_state [example_monitor 1 ⟨0, 0, 800, 600⟩]).g_cur_monitor) :=
  ⟨⟨by decide, by decide, rfl, ⟨example_monitor 1 ⟨0, 0, 800, 600⟩, by decide, rfl⟩⟩,
    add_monitor_command_tag_in_use { example_env with find_tag := fun _ => some 1 }
      (example_state [example_monitor 1 ⟨0, 0, 800, 600⟩])
      ["add_monitor", "800x600+800+0", "web"] 1 (by decide) (by decide) rfl
      ⟨example_monitor 1 ⟨0, 0, 800, 600⟩, by decide, rfl⟩⟩

/-- C8, as stated, fails for `set_monitor_rects`: with one monitor and no unused tag,
two templates make it store the first template into the existing monitor and then
return `HERBST_TAG_IN_USE`; the registry is not what it was before the call. -/
theorem set_monitor_rects_fails_after_update :
    (set_monitor_rects example_env (example_state [example_monitor 1 ⟨0, 0, 800, 600⟩])
      [⟨0, 0, 400, 300⟩, ⟨400, 0, 400, 300⟩]).1 = Status.HERBST_TAG_IN_USE ∧
    (set_monitor_rects example_env (example_state [example_monitor 1 ⟨0, 0, 800, 600⟩])
      [⟨0, 0, 400, 300⟩, ⟨400, 0, 400, 300⟩]).2.registry =
      ([example_monitor 1 ⟨0, 0, 400, 300⟩], 0) ∧
    (set_monitor_rects example_env (example_state [example_monitor 1 ⟨0, 0, 800, 600⟩])
      [⟨0, 0, 400, 300⟩, ⟨400, 0, 400, 300⟩]).2.registry ≠
      (example_state [example_monitor 1 ⟨0, 0, 800, 600⟩]).registry := by
  decide

/-- C8 (amended): error atomicity. If `add_monitor`, `remove_monitor`, `move_monitor` or
`monitor_set_pad` returns a non-zero status, for any state and arguments, then nothing
has changed: the registry (monitors with all their fields, current index) is exactly
what it was before the call. The same holds for `set_monitor_rects` when it returns
`HERBST_INVALID_ARGUMENT`; when it returns `HERBST_TAG_IN_USE` the current index is
unchanged and no monitor has been removed. -/
theorem error_leaves_registry_unchanged (env : Env) (s : State) (argv : List String)
    (index : Int) (templates : List XRectangle) :
    ((add_monitor_command env s argv).1 ≠ Status.HERBST_SUCCESS →
      (add_monitor_command env s argv).2 = s) ∧
    ((remove_monitor env s index).1 ≠ Status.HERBST_SUCCESS →
      (remove_monitor env s index).2 = s) ∧
    ((remove_monitor_command env s argv).1 ≠ Status.HERBST_SUCCESS →
      (remove_monitor_command env s argv).2 = s) ∧
    ((move_monitor_command env s argv).1 ≠ Status.HERBST_SUCCESS →
      (move_monitor_command env s argv).2 = s) ∧
    ((monitor_set_pad_command env s argv).1 ≠ Status.HERBST_SUCCESS →
      (monitor_set_pad_command env s argv).2 = s) ∧
    ((set_monitor_rects env s templates).1 = Status.HERBST_INVALID_ARGUMENT →
      (set_monitor_rects env s templates).2 = s) ∧
    ((set_monitor_rects_command env s argv).1 = Status.HERBST_INVALID_ARGUMENT →
      (set_monitor_rects_command env s argv).2 = s) ∧
    ((set_monitor_rects env s templates).1 = Status.HERBST_TAG_IN_USE →
      (set_monitor_rects env s templates).2.g_cur_monitor = s.g_cur_monitor ∧
      s.g_monitors.length ≤ (set_monitor_rects env s templates).2.g_monitors.length) := by
  have hrm : ∀ i : Int, (remove_monitor env s i).1 ≠ Status.HERBST_SUCCESS →
      (remove_monitor env s i).2 = s := by
    intro i
    unfold remove_monitor
    split
    · intro _; rfl
    · split
      · intro _; rfl
      · split
        · intro _; rfl
        · intro h; exact absurd rfl h
  have hsr : ∀ ts : List XRectangle,
      (set_monitor_rects env s ts).1 = Status.HERBST_INVALID_ARGUMENT →
      (set_monitor_rects env s ts).2 = s := by
    intro ts
    unfold set_monitor_rects
    split
    · intro _; rfl
    · simp only
      split
      · intro h; simp at h
      · intro h; simp at h
  refine ⟨?_, hrm index, ?_, ?_, ?_, hsr templates, ?_, ?_⟩
  · unfold add_monitor_command
    simp only
    split
    · intro _; rfl
    · split
      · intro _; rfl
      · split
        · intro _; rfl
        · intro h; exact absurd rfl h
  · unfold remove_monitor_command
    split
    · intro _; rfl
    · exact hrm _
  · unfold move_monitor_command
    split
    · intro _; rfl
    · simp only
      split
      · intro _; rfl
      · split
        · intro _; rfl
        · intro h; exact absurd rfl h
  · unfold monitor_set_pad_command
    split
    · intro _; rfl
    · simp only
      split
      · intro _; rfl
      · intro h; exact absurd rfl h
  · unfold set_monitor_rects_command
    split
    · intro _; rfl
    · exact hsr _
  · unfold set_monitor_rects
    split
    · intro h; simp at h
    · have h1 := set_monitor_rects_loop_rects_shape templates s 0
      generalize set_monitor_rects.loop_rects s templates 0 = r at h1
      obtain ⟨s1, i, rest⟩ := r
      simp only at h1 ⊢
      have h2 := set_monitor_rects_loop_add_shape rest s1 i
      split
      · rename_i s2 heq
        rw [heq] at h2
        intro _
        simp only at h2 ⊢
        exact ⟨by rw [h2.2, h1.2], by omega⟩
      · intro h; simp at h

theorem error_leaves_registry_unchanged_witness :
    ((remove_monitor example_env (example_state [example_monitor 1 ⟨0, 0, 800, 600⟩]) 0).1 ≠
        Status.HERBST_SUCCESS ∧
      (remove_monitor example_env (example_state [example_monitor 1 ⟨0, 0, 800, 600⟩]) 0).2 =
        example_state [example_monitor 1 ⟨0, 0, 800, 600⟩]) ∧
    ((move_monitor_command example_env (example_state [example_monitor 1 ⟨0, 0, 800, 600⟩])
        ["move_monitor"]).1 ≠ Status.HERBST_SUCCESS ∧
      (move_monitor_command example_env (example_state [example_monitor 1 ⟨0, 0, 800, 600⟩])
        ["move_monitor"]).2 = example_state [example_monitor 1 ⟨0, 0, 800, 600⟩]) ∧
    ((set_monitor_rects example_env (example_state [example_monitor 1 ⟨0, 0, 800, 600⟩])
        []).1 = Status.HERBST_INVALID_ARGUMENT ∧
      (set_monitor_rects example_env (example_state [example_monitor 1 ⟨0, 0, 800, 600⟩])
        []).2 = example_state [example_monitor 1 ⟨0, 0, 800, 600⟩]) :=
  ⟨⟨by decide, (error_leaves_registry_unchanged example_env
      (example_state [example_monitor 1 ⟨0, 0, 800, 600⟩]) ["move_monitor"] 0 []).2.1
      (by decide)⟩,
    ⟨by decide, (error_leaves_registry_unchanged example_env
      (example_state [example_monitor 1 ⟨0, 0, 800, 600⟩]) ["move_monitor"] 0 []).2.2.2.1
      (by decide)⟩,
    ⟨by decide, (error_leaves_registry_unchanged example_env
      (example_state [example_monitor 1 ⟨0, 0, 800, 600⟩]) ["move_monitor"] 0 []).2.2.2.2.2.1
      (by decide)⟩⟩

/-! ## The layout lock -/

theorem State.update_monitor_eq (s : State) (p : Int) (f : HSMonitor → HSMonitor) (hp : 0 ≤ p) :
    s.update_monitor p f = { s with g_monitors := s.g_monitors.modify f p.toNat } := by
  unfold State.update_monitor
  rw [if_neg (by omega)]

theorem State.monitor_nonneg (s : State) (p : Int) (m : HSMonitor) (h : s.monitor p = some m) :
    0 ≤ p ∧ s.g_monitors[p.toNat]? = some m := by
  unfold State.monitor at h
  by_cases hp : p < 0
  · rw [if_pos hp] at h; exact absurd h (by simp)
  · rw [if_neg hp] at h; exact ⟨by omega, h⟩

/-- What one call of `monitor_apply_layout` does to the state: while locked it marks the
monitor dirty, otherwise it clears the mark and makes the layout calls. -/
theorem monitor_apply_layout_eq (env : Env) (s : State) (p : Int) (m : HSMonitor)
    (hm : s.monitor p = some m) :
    monitor_apply_layout env s (some p) =
      if s.g_monitors_locked ≠ 0 then
        { s with g_monitors := s.g_monitors.modify (fun m => { m with dirty := true }) p.toNat }
      else
        { s with
          g_monitors := s.g_monitors.modify (fun m => { m with dirty := false }) p.toNat,
          calls := s.calls ++
            monitor_apply_layout.calls env s.g_window_gap s.g_cur_monitor p m } := by
  have hp := (State.monitor_nonneg s p m hm).1
  unfold monitor_apply_layout
  simp only [hm]
  by_cases hl : s.g_monitors_locked ≠ 0
  · rw [if_pos hl, if_pos hl, State.update_monitor_eq _ _ _ hp]
  · rw [if_neg hl, if_neg hl, State.update_monitor_eq _ _ _ hp]
    by_cases hf : env.tag_floating m.tag = true <;> by_cases hcur : s.g_cur_monitor = p <;>
      simp [hf, hcur, State.call, get_current_monitor, monitor_apply_layout.calls,
        monitor_apply_layout.rect]

theorem monitor_apply_layout_none (env : Env) (s : State) (p : Int)
    (hm : s.monitor p = none) : monitor_apply_layout env s (some p) = s := by
  unfold monitor_apply_layout
  simp only [hm]

/-- The fields `monitor_apply_layout` never writes. -/
theorem monitor_apply_layout_frame (env : Env) (s : State) (monitor : Option Int) :
    (monitor_apply_layout env s monitor).g_monitors_locked = s.g_monitors_locked ∧
    (monitor_apply_layout env s monitor).g_window_gap = s.g_window_gap ∧
    (monitor_apply_layout env s monitor).g_tags = s.g_tags ∧
    (monitor_apply_layout env s monitor).g_swap_monitors_to_get_tag =
      s.g_swap_monitors_to_get_tag := by
  cases monitor with
  | none => exact ⟨rfl, rfl, rfl, rfl⟩
  | some p =>
    cases hm : s.monitor p with
    | none => rw [monitor_apply_layout_none env s p hm]; exact ⟨rfl, rfl, rfl, rfl⟩
    | some m =>
      rw [monitor_apply_layout_eq env s p m hm]
      split <;> exact ⟨rfl, rfl, rfl, rfl⟩

theorem monitors_lock_changed_calls_append (env : Env) (gap cur : Int) :
    ∀ (l1 l2 : List HSMonitor) (i : Int),
      monitors_lock_changed.calls env gap cur i (l1 ++ l2) =
        monitors_lock_changed.calls env gap cur i l1 ++
          monitors_lock_changed.calls env gap cur (i + l1.length) l2 := by
  intro l1
  induction l1 with
  | nil => intro l2 i; simp [monitors_lock_changed.calls]
  | cons a l1 ih =>
    intro l2 i
    show (if a.dirty then monitor_apply_layout.calls env gap cur i a else []) ++
        monitors_lock_changed.calls env gap cur (i + 1) (l1 ++ l2) =
      ((if a.dirty then monitor_apply_layout.calls env gap cur i a else []) ++
        monitors_lock_changed.calls env gap cur (i + 1) l1) ++
        monitors_lock_changed.calls env gap cur (i + ((l1.length + 1 : Nat) : Int)) l2
    rw [ih, List.append_assoc]
    have : i + 1 + (l1.length : Int) = i + ((l1.length + 1 : Nat) : Int) := by
      push_cast; ring
    rw [this]

theorem getElem?_take_map_append_drop {α : Type} (f : α → α) (l : List α) (k i : Nat)
    (hk : k ≤ l.length) :
    ((l.take k).map f ++ l.drop k)[i]? = if i < k then (l[i]?).map f else l[i]? := by
  rw [List.getElem?_append]
  simp only [List.length_map, List.length_take, Nat.min_eq_left hk]
  by_cases hi : i < k
  · rw [if_pos hi, if_pos hi, List.getElem?_map, List.getElem?_take_of_lt hi]
  · rw [if_neg hi, if_neg hi, List.getElem?_drop]
    congr 1
    omega

theorem modify_take_map_append_drop {α : Type} (f : α → α) (l : List α) (k : Nat)
    (hk : k < l.length) :
    List.modify f k ((l.take k).map f ++ l.drop k) =
      (l.take (k + 1)).map f ++ l.drop (k + 1) := by
  apply List.ext_getElem?
  intro i
  rw [List.getElem?_modify, getElem?_take_map_append_drop _ _ _ _ (by omega),
    getElem?_take_map_append_drop _ _ _ _ (by omega)]
  by_cases hi : i < k
  · rw [if_pos hi, if_pos (by omega)]
    cases l[i]? <;> simp [show k ≠ i by omega]
  · rw [if_neg hi]
    by_cases hik : i = k
    · subst hik
      rw [if_pos (by omega)]
      cases l[i]? <;> simp
    · rw [if_neg (by omega)]
      cases l[i]? <;> simp [show k ≠ i by omega]

theorem take_map_append_drop_succ {α : Type} (f : α → α) (l : List α) (k : Nat)
    (hk : k < l.length) (hf : f l[k] = l[k]) :
    (l.take k).map f ++ l.drop k = (l.take (k + 1)).map f ++ l.drop (k + 1) := by
  apply List.ext_getElem?
  intro i
  rw [getElem?_take_map_append_drop _ _ _ _ (by omega),
    getElem?_take_map_append_drop _ _ _ _ (by omega)]
  by_cases hi : i < k
  · rw [if_pos hi, if_pos (by omega)]
  · rw [if_neg hi]
    by_cases hik : i = k
    · subst hik
      rw [if_pos (by omega), List.getElem?_eq_getElem hk]
      simp [hf]
    · rw [if_neg (by omega)]

/-- The loop of `monitors_lock_changed` after its first `k` rounds, when the monitors are
not locked: the first `k` monitors are clean, and each of them that was dirty has had the
layout applied once, in order. -/
theorem monitors_lock_changed_fold (env : Env) (s : State) (h0 : s.g_monitors_locked = 0) :
    ∀ k, k ≤ s.g_monitors.length →
      (List.range k).foldl
        (fun (s : State) (i : Nat) =>
          match s.monitor (Int.ofNat i) with
          | none => s
          | some m =>
            if m.dirty then monitor_apply_layout env s (some (Int.ofNat i)) else s) s =
      { s with
        g_monitors := (s.g_monitors.take k).map (fun m => { m with dirty := false }) ++
          s.g_monitors.drop k,
        calls := s.calls ++ monitors_lock_changed.calls env s.g_window_gap s.g_cur_monitor 0
          (s.g_monitors.take k) } := by
  intro k
  induction k with
  | zero =>
    intro _
    simp [monitors_lock_changed.calls]
  | succ k ih =>
    intro hk
    have hk1 : k < s.g_monitors.length := by omega
    rw [List.range_succ, List.foldl_append, ih (by omega)]
    simp only [List.foldl_cons, List.foldl_nil, Int.ofNat_eq_coe]
    have hget : s.g_monitors[k]? = some s.g_monitors[k] := List.getElem?_eq_getElem hk1
    have hmon : State.monitor
        { s with
          g_monitors := (s.g_monitors.take k).map (fun m => { m with dirty := false }) ++
            s.g_monitors.drop k,
          calls := s.calls ++
            monitors_lock_changed.calls env s.g_window_gap s.g_cur_monitor 0
              (s.g_monitors.take k) } (k : Int) = some s.g_monitors[k] := by
      unfold State.monitor
      rw [if_neg (by omega)]
      simp only [Int.toNat_ofNat]
      rw [getElem?_take_map_append_drop _ _ _ _ (by omega), if_neg (by omega), hget]
    have htake : s.g_monitors.take (k + 1) = s.g_monitors.take k ++ [s.g_monitors[k]] := by
      rw [List.take_succ, hget]; rfl
    have hlen : (s.g_monitors.take k).length = k := by
      rw [List.length_take]; omega
    rw [hmon]
    simp only
    by_cases hd : s.g_monitors[k].dirty = true
    · rw [if_pos hd, monitor_apply_layout_eq env _ _ _ hmon]
      simp only [h0, ne_eq, not_true_eq_false, if_false, Int.toNat_ofNat]
      rw [modify_take_map_append_drop _ _ _ hk1, htake, monitors_lock_changed_calls_append,
        hlen]
      simp [monitors_lock_changed.calls, hd]
    · rw [if_neg hd]
      have hf : (fun m : HSMonitor => { m with dirty := false }) s.g_monitors[k] =
          s.g_monitors[k] := by
        cases hm : s.g_monitors[k] with
        | mk tag rect pu pr pd pl mx my dirty =>
          rw [hm] at hd
          simp only [Bool.not_eq_true] at hd
          simp [hd]
      rw [take_map_append_drop_succ _ _ _ hk1 hf, htake, monitors_lock_changed_calls_append,
        hlen]
      simp [monitors_lock_changed.calls, hd]

theorem monitors_lock_changed_unlocked (env : Env) (s : State) (h0 : s.g_monitors_locked = 0) :
    monitors_lock_changed env s =
      { s with
        g_monitors := s.g_monitors.map (fun m => { m with dirty := false }),
        calls := s.calls ++
          monitors_lock_changed.calls env s.g_window_gap s.g_cur_monitor 0 s.g_monitors } := by
  have hf := monitors_lock_changed_fold env s h0 _ (le_refl _)
  simp only [List.take_length, List.drop_length, List.append_nil] at hf
  have h1 : ¬ s.g_monitors_locked < 0 := by omega
  have e : (if s.g_monitors_locked < 0 then
      ({ s with g_monitors_locked := 0 }).call Call.HSDebug else s) = s := if_neg h1
  unfold monitors_lock_changed
  simp only [e]
  rw [if_pos h0]
  exact hf

theorem monitors_lock_changed_locked (env : Env) (s : State) (h : 0 < s.g_monitors_locked) :
    monitors_lock_changed env s = s := by
  have h1 : ¬ s.g_monitors_locked < 0 := by omega
  have h2 : ¬ s.g_monitors_locked = 0 := by omega
  unfold monitors_lock_changed
  simp only [h1, h2, if_false]

theorem monitors_lock_changed_calls_count (env : Env) (gap cur : Int) :
    ∀ (l : List HSMonitor) (i : Int),
      ((monitors_lock_changed.calls env gap cur i l).filter Call.is_layout).length =
        (l.filter (fun m => m.dirty)).length := by
  intro l
  induction l with
  | nil => intro i; rfl
  | cons a l ih =>
    intro i
    simp only [monitors_lock_changed.calls, List.filter_append, List.length_append, ih]
    by_cases hd : a.dirty = true
    · simp only [hd, if_true, List.filter_cons_of_pos, List.length_cons]
      by_cases hf : env.tag_floating a.tag = true <;> by_cases hc : cur = i <;>
        simp [monitor_apply_layout.calls, hf, hc, Call.is_layout, List.filter] <;> omega
    · simp [hd]

/-- What `monitors_lock` does to the counter: it is the wrapped increment of the counter
clamped at 0, reset to 0 by `monitors_lock_changed` when the increment wrapped to a
negative number. -/
theorem monitors_lock_command_counter (env : Env) (s : State) :
    (monitors_lock_command env s).2.g_monitors_locked =
      max (toInt (max s.g_monitors_locked 0 + 1)) 0 := by
  unfold monitors_lock_command
  simp only
  have e : (if s.g_monitors_locked < 0 then { s with g_monitors_locked := 0 } else s
      ).g_monitors_locked = max s.g_monitors_locked 0 := by
    by_cases hneg : s.g_monitors_locked < 0
    · rw [if_pos hneg]
      show (0 : Int) = _
      omega
    · rw [if_neg hneg]
      omega
  rw [e]
  generalize toInt (max s.g_monitors_locked 0 + 1) = c
  generalize (if s.g_monitors_locked < 0 then { s with g_monitors_locked := 0 } else s) = t
  by_cases hc : c < 0
  · have h := monitors_lock_changed_unlocked env
      (({ t with g_monitors_locked := 0 } : State).call Call.HSDebug) rfl
    have hu : monitors_lock_changed env { t with g_monitors_locked := c } =
        monitors_lock_changed env
          (({ t with g_monitors_locked := 0 } : State).call Call.HSDebug) := by
      unfold monitors_lock_changed
      simp only [hc, if_true, State.call, lt_self_iff_false, if_false]
    rw [hu, h]
    simp only [State.call]
    omega
  · by_cases h0 : c = 0
    · rw [h0, monitors_lock_changed_unlocked env _ rfl]
      simp
    · rw [monitors_lock_changed_locked env _ (by simp only; omega)]
      simp only
      omega

theorem monitors_unlock_command_counter (env : Env) (s : State) :
    (monitors_unlock_command env s).2.g_monitors_locked = max s.g_monitors_locked 1 - 1 := by
  unfold monitors_unlock_command
  simp only
  by_cases hc : s.g_monitors_locked < 1
  · rw [if_pos hc, monitors_lock_changed_unlocked _ _ (by simp)]
    simp only
    omega
  · rw [if_neg hc]
    by_cases hc1 : s.g_monitors_locked = 1
    · rw [monitors_lock_changed_unlocked _ _ (by simp only; omega)]
      simp only
      omega
    · rw [monitors_lock_changed_locked _ _ (by simp only; omega)]
      simp only
      omega

/-- At `INT_MAX` the increment of `monitors_lock` overflows: with wrap-around the counter
becomes `INT_MIN`, which `monitors_lock_changed` resets to 0. So after `monitors_lock`
the counter is 0 and not `max(c, 0) + 1 = 2147483648`, the monitors are not locked, and
a following `monitors_unlock` leaves 0 and does not restore `c`. -/
theorem monitors_lock_overflows_at_int_max :
    (monitors_lock_command example_env
      { example_state [example_monitor 1 ⟨0, 0, 800, 600⟩] with
        g_monitors_locked := 2147483647 }).2.g_monitors_locked = 0 ∧
    (0 : Int) ≠ max 2147483647 0 + 1 ∧
    (monitors_unlock_command example_env (monitors_lock_command example_env
      { example_state [example_monitor 1 ⟨0, 0, 800, 600⟩] with
        g_monitors_locked := 2147483647 }).2).2.g_monitors_locked = 0 := by
  decide

/-- C13 (amended): the lock counter. For every value `c` of the counter below `INT_MAX`
(negative ones included), after `monitors_lock` the counter is `max c 0 + 1`; for every
`c`, after `monitors_unlock` it is `max c 1 - 1`; the counter is not negative after
either command, unlocking at 0 stays at 0, and for `0 ≤ c < INT_MAX` a lock followed by
an unlock restores `c`. The results are `int`s again. -/
theorem lock_counter_bounds (env : Env) (s : State) :
    (s.g_monitors_locked < 2147483647 →
      (monitors_lock_command env s).2.g_monitors_locked = max s.g_monitors_locked 0 + 1) ∧
    (monitors_unlock_command env s).2.g_monitors_locked = max s.g_monitors_locked 1 - 1 ∧
    0 ≤ (monitors_lock_command env s).2.g_monitors_locked ∧
    0 ≤ (monitors_unlock_command env s).2.g_monitors_locked ∧
    (s.g_monitors_locked = 0 → (monitors_unlock_command env s).2.g_monitors_locked = 0) ∧
    (0 ≤ s.g_monitors_locked → s.g_monitors_locked < 2147483647 →
      (monitors_unlock_command env (monitors_lock_command env s).2).2.g_monitors_locked =
        s.g_monitors_locked) ∧
    (monitors_lock_command env s).2.g_monitors_locked ≤ 2147483647 ∧
    (s.g_monitors_locked ≤ 2147483647 →
      (monitors_unlock_command env s).2.g_monitors_locked ≤ 2147483646) := by
  have hlock := monitors_lock_command_counter env s
  have hunlock := monitors_unlock_command_counter env
  have hr := toInt_range (max s.g_monitors_locked 0 + 1)
  have heq : s.g_monitors_locked < 2147483647 →
      toInt (max s.g_monitors_locked 0 + 1) = max s.g_monitors_locked 0 + 1 := by
    intro h
    apply toInt_eq
    unfold int_range
    omega
  unfold int_range at hr
  refine ⟨?_, hunlock s, ?_, ?_, ?_, ?_, ?_, ?_⟩
  · intro h
    rw [hlock, heq h]
    omega
  · rw [hlock]; omega
  · rw [hunlock]; omega
  · intro h; rw [hunlock]; omega
  · intro h1 h2
    rw [hunlock, hlock, heq h2]
    omega
  · rw [hlock]; omega
  · intro h; rw [hunlock]; omega

theorem lock_counter_bounds_witness :
    ((example_state [example_monitor 1 ⟨0, 0, 800, 600⟩]).g_monitors_locked < 2147483647 ∧
      (monitors_lock_command example_env
        (example_state [example_monitor 1 ⟨0, 0, 800, 600⟩])).2.g_monitors_locked =
        max (example_state [example_monitor 1 ⟨0, 0, 800, 600⟩]).g_monitors_locked 0 + 1) ∧
    ((example_state [example_monitor 1 ⟨0, 0, 800, 600⟩]).g_monitors_locked = 0 ∧
      (monitors_unlock_command example_env
        (example_state [example_monitor 1 ⟨0, 0, 800, 600⟩])).2.g_monitors_locked = 0) ∧
    ((0 ≤ (example_state [example_monitor 1 ⟨0, 0, 800, 600⟩]).g_monitors_locked ∧
        (example_state [example_monitor 1 ⟨0, 0, 800, 600⟩]).g_monitors_locked <
          2147483647) ∧
      (monitors_unlock_command example_env (monitors_lock_command example_env
        (example_state [example_monitor 1 ⟨0, 0, 800, 600⟩])).2).2.g_monitors_locked =
      (example_state [example_monitor 1 ⟨0, 0, 800, 600⟩]).g_monitors_locked) :=
  ⟨⟨by decide, (lock_counter_bounds example_env
      (example_state [example_monitor 1 ⟨0, 0, 800, 600⟩])).1 (by decide)⟩,
    ⟨by decide, (lock_counter_bounds example_env
      (example_state [example_monitor 1 ⟨0, 0, 800, 600⟩])).2.2.2.2.1 (by decide)⟩,
    ⟨⟨by decide, by decide⟩, (lock_counter_bounds example_env
      (example_state [example_monitor 1 ⟨0, 0, 800, 600⟩])).2.2.2.2.2.1
        (by decide) (by decide)⟩⟩

/-- C12: lock coalescing. While the lock counter is > 0, `monitor_apply_layout m` makes
no call at all (no layout, no focus) and changes nothing but `m.dirty`, which it sets.
When `monitors_unlock` brings the counter to 0 (it was at most 1), the calls it makes
are one application of the layout for each monitor whose dirty flag was set, in registry
order, none for a monitor that was not dirty (so as many layout calls as dirty
monitors), and afterwards no monitor is dirty; nothing else changes. When the counter
stays above 0 it is only decremented. One application, as made by
`monitor_apply_layout` when not locked, holds exactly one layout call. -/
theorem lock_coalescing (env : Env) (s : State) (p : Int) (m : HSMonitor) :
    (0 < s.g_monitors_locked → s.monitor p = some m →
      monitor_apply_layout env s (some p) =
        { s with g_monitors :=
            s.g_monitors.modify (fun m => { m with dirty := true }) p.toNat } ∧
      (monitor_apply_layout env s (some p)).calls = s.calls ∧
      (monitor_apply_layout env s (some p)).monitor p = some { m with dirty := true }) ∧
    (s.g_monitors_locked ≤ 1 →
      (monitors_unlock_command env s).2 =
        { s with
          g_monitors_locked := 0,
          g_monitors := s.g_monitors.map (fun m => { m with dirty := false }),
          calls := s.calls ++
            monitors_lock_changed.calls env s.g_window_gap s.g_cur_monitor 0 s.g_monitors } ∧
      ((monitors_lock_changed.calls env s.g_window_gap s.g_cur_monitor 0
          s.g_monitors).filter Call.is_layout).length =
        (s.g_monitors.filter (fun m => m.dirty)).length ∧
      ∀ m1 ∈ (monitors_unlock_command env s).2.g_monitors, m1.dirty = false) ∧
    (1 < s.g_monitors_locked →
      (monitors_unlock_command env s).2 =
        { s with g_monitors_locked := s.g_monitors_locked - 1 }) ∧
    (s.g_monitors_locked = 0 → s.monitor p = some m →
      (monitor_apply_layout env s (some p)).calls =
        s.calls ++ monitor_apply_layout.calls env s.g_window_gap s.g_cur_monitor p m ∧
      ((monitor_apply_layout.calls env s.g_window_gap s.g_cur_monitor p m).filter
        Call.is_layout).length = 1) := by
  refine ⟨?_, ?_, ?_, ?_⟩
  · intro hl hm
    have hp := State.monitor_nonneg s p m hm
    have heq := monitor_apply_layout_eq env s p m hm
    rw [if_pos (by omega)] at heq
    rw [heq]
    refine ⟨rfl, rfl, ?_⟩
    unfold State.monitor
    rw [if_neg (by omega)]
    simp only
    rw [List.getElem?_modify, hp.2]
    simp
  · intro hl
    have hres : (monitors_unlock_command env s).2 =
        { s with
          g_monitors_locked := 0,
          g_monitors := s.g_monitors.map (fun m => { m with dirty := false }),
          calls := s.calls ++
            monitors_lock_changed.calls env s.g_window_gap s.g_cur_monitor 0
              s.g_monitors } := by
      unfold monitors_unlock_command
      simp only
      by_cases hc : s.g_monitors_locked < 1
      · rw [if_pos hc, monitors_lock_changed_unlocked _ _ (by simp)]
        simp
      · have h1 : s.g_monitors_locked - 1 = 0 := by omega
        rw [if_neg hc, monitors_lock_changed_unlocked _ _ (by simp only; omega)]
        simp [h1]
    refine ⟨hres, monitors_lock_changed_calls_count env _ _ _ _, ?_⟩
    rw [hres]
    intro m1 hm1
    simp only [List.mem_map] at hm1
    obtain ⟨m0, _, rfl⟩ := hm1
    rfl
  · intro hl
    unfold monitors_unlock_command
    simp only
    rw [if_neg (by omega), monitors_lock_changed_locked _ _ (by simp only; omega)]
  · intro hl hm
    have heq := monitor_apply_layout_eq env s p m hm
    rw [if_neg (by simp [hl])] at heq
    rw [heq]
    refine ⟨rfl, ?_⟩
    by_cases hf : env.tag_floating m.tag = true <;> by_cases hc : s.g_cur_monitor = p <;>
      simp [monitor_apply_layout.calls, hf, hc, Call.is_layout, List.filter]

theorem lock_coalescing_witness :
    ((0 < (example_locked_state [example_monitor 1 ⟨0, 0, 800, 600⟩]).g_monitors_locked ∧
      (example_locked_state [example_monitor 1 ⟨0, 0, 800, 600⟩]).monitor 0 =
        some (example_monitor 1 ⟨0, 0, 800, 600⟩)) ∧
      (monitor_apply_layout example_env
        (example_locked_state [example_monitor 1 ⟨0, 0, 800, 600⟩]) (some 0)).calls =
        (example_locked_state [example_monitor 1 ⟨0, 0, 800, 600⟩]).calls) ∧
    ((example_locked_state [example_dirty_monitor 1 ⟨0, 0, 800, 600⟩,
        example_monitor 2 ⟨800, 0, 800, 600⟩]).g_monitors_locked ≤ 1 ∧
      ∀ m1 ∈ (monitors_unlock_command example_env
        (example_locked_state [example_dirty_monitor 1 ⟨0, 0, 800, 600⟩,
          example_monitor 2 ⟨800, 0, 800, 600⟩])).2.g_monitors, m1.dirty = false) ∧
    (((example_state [example_monitor 1 ⟨0, 0, 800, 600⟩]).g_monitors_locked = 0 ∧
      (example_state [example_monitor 1 ⟨0, 0, 800, 600⟩]).monitor 0 =
        some (example_monitor 1 ⟨0, 0, 800, 600⟩)) ∧
      ((monitor_apply_layout.calls example_env
        (example_state [example_monitor 1 ⟨0, 0, 800, 600⟩]).g_window_gap
        (example_state [example_monitor 1 ⟨0, 0, 800, 600⟩]).g_cur_monitor 0
        (example_monitor 1 ⟨0, 0, 800, 600⟩)).filter Call.is_layout).length = 1) :=
  ⟨⟨⟨by decide, by decide⟩,
      ((lock_coalescing example_env
        (example_locked_state [example_monitor 1 ⟨0, 0, 800, 600⟩]) 0
        (example_monitor 1 ⟨0, 0, 800, 600⟩)).1 (by decide) (by decide)).2.1⟩,
    ⟨by decide,
      ((lock_coalescing example_env
        (example_locked_state [example_dirty_monitor 1 ⟨0, 0, 800, 600⟩,
          example_monitor 2 ⟨800, 0, 800, 600⟩]) 0
        (example_dirty_monitor 1 ⟨0, 0, 800, 600⟩)).2.1 (by decide)).2.2⟩,
    ⟨⟨by decide, by decide⟩,
      ((lock_coalescing example_env (example_state [example_monitor 1 ⟨0, 0, 800, 600⟩]) 0
        (example_monitor 1 ⟨0, 0, 800, 600⟩)).2.2.2 (by decide) (by decide)).2⟩⟩

/-! ## Focus by index and cycling -/

theorem State.monitor_isSome (s : State) (p : Int) (h0 : 0 ≤ p)
    (h1 : p < s.g_monitors.length) : ∃ m, s.monitor p = some m := by
  unfold State.monitor
  rw [if_neg (by omega)]
  have : p.toNat < s.g_monitors.length := by omega
  exact ⟨s.g_monitors[p.toNat], List.getElem?_eq_getElem this⟩

theorem monitor_focus_by_index_same (env : Env) (s : State) (new_selection : Int)
    (q : PointerQuery) (h : s.g_cur_monitor = CLAMP_len new_selection 0 s.g_monitors.length) :
    monitor_focus_by_index env s new_selection q = s := by
  unfold monitor_focus_by_index
  simp only
  rw [if_pos h]

theorem monitor_focus_by_index_cur (env : Env) (s : State) (new_selection : Int)
    (q : PointerQuery) (h : 1 ≤ s.g_monitors.length) :
    (monitor_focus_by_index env s new_selection q).g_cur_monitor =
      CLAMP_len new_selection 0 s.g_monitors.length := by
  have hr := CLAMP_len_range new_selection s.g_monitors.length h
  obtain ⟨m, hm⟩ := State.monitor_isSome s _ hr.1 hr.2
  unfold monitor_focus_by_index
  simp only
  split
  · assumption
  · rw [hm]
    simp only
    split <;> split <;> simp

/-- C15: what `monitor_focus_by_index target` does to the current index, for every
registry with at least one monitor: the new current index is `length - 1` when
`target < 0` (the comparison of `CLAMP` with the unsigned bound `length - 1` holds for
every negative `target`) and when `target > length - 1`, and `target` otherwise; when that
index is the current index, nothing changes at all. So a negative target selects the
last monitor, not monitor 0. -/
theorem monitor_focus_by_index_clamp_unsigned (env : Env) (s : State) (target : Int)
    (q : PointerQuery) (hlen : 1 ≤ s.g_monitors.length) :
    (target < 0 →
      (monitor_focus_by_index env s target q).g_cur_monitor = s.g_monitors.length - 1) ∧
    ((s.g_monitors.length : Int) - 1 < target →
      (monitor_focus_by_index env s target q).g_cur_monitor = s.g_monitors.length - 1) ∧
    (0 ≤ target → target ≤ (s.g_monitors.length : Int) - 1 →
      (monitor_focus_by_index env s target q).g_cur_monitor = target) ∧
    (CLAMP_len target 0 s.g_monitors.length = s.g_cur_monitor →
      monitor_focus_by_index env s target q = s) := by
  have hc := monitor_focus_by_index_cur env s target q hlen
  have hne : s.g_monitors.length ≠ 0 := by omega
  refine ⟨?_, ?_, ?_, ?_⟩
  · intro h
    rw [hc]
    unfold CLAMP_len
    rw [if_neg hne, if_pos (Or.inl h)]
  · intro h
    rw [hc]
    unfold CLAMP_len
    rw [if_neg hne, if_pos (Or.inr h)]
  · intro h1 h2
    rw [hc]
    unfold CLAMP_len
    rw [if_neg hne, if_neg (by omega), if_neg (by omega)]
  · intro h
    exact monitor_focus_by_index_same env s target q h.symm

theorem monitor_focus_by_index_clamp_unsigned_witness :
    (-1 : Int) < 0 ∧
    (monitor_focus_by_index example_env
      (example_state [example_monitor 1 ⟨0, 0, 800, 600⟩,
        example_monitor 2 ⟨800, 0, 800, 600⟩, example_monitor 3 ⟨1600, 0, 800, 600⟩])
      (-1) ⟨true, 5, 5⟩).g_cur_monitor =
    ((example_state [example_monitor 1 ⟨0, 0, 800, 600⟩,
        example_monitor 2 ⟨800, 0, 800, 600⟩,
        example_monitor 3 ⟨1600, 0, 800, 600⟩]).g_monitors.length : Int) - 1 :=
  ⟨by decide, (monitor_focus_by_index_clamp_unsigned example_env
      (example_state [example_monitor 1 ⟨0, 0, 800, 600⟩,
        example_monitor 2 ⟨800, 0, 800, 600⟩, example_monitor 3 ⟨1600, 0, 800, 600⟩])
      (-1) ⟨true, 5, 5⟩ (by decide)).1 (by decide)⟩

theorem remove_monitor_eq (env : Env) (s : State) (index : Int) (mon : HSMonitor)
    (h1 : 0 ≤ index) (h2 : index < s.g_monitors.length) (h3 : 2 ≤ s.g_monitors.length)
    (hm : s.monitor index = some mon) :
    remove_monitor env s index =
      (Status.HERBST_SUCCESS,
        if int_ge_len (if s.g_cur_monitor > index then s.g_cur_monitor - 1
            else s.g_cur_monitor) (s.g_monitors.eraseIdx index.toNat).length then
          monitor_apply_layout env
            { s with
              g_cur_monitor := (if s.g_cur_monitor > index then s.g_cur_monitor - 1
                else s.g_cur_monitor) - 1,
              g_monitors := s.g_monitors.eraseIdx index.toNat,
              calls := s.calls ++ [Call.frame_hide_recursive mon.tag] }
            (some ((if s.g_cur_monitor > index then s.g_cur_monitor - 1
              else s.g_cur_monitor) - 1))
        else
          { s with
            g_cur_monitor := if s.g_cur_monitor > index then s.g_cur_monitor - 1
              else s.g_cur_monitor,
            g_monitors := s.g_monitors.eraseIdx index.toNat,
            calls := s.calls ++ [Call.frame_hide_recursive mon.tag] }) := by
  unfold remove_monitor
  rw [if_neg (by omega), if_neg (by omega)]
  simp only [hm]
  by_cases hc : s.g_cur_monitor > index
  · simp only [hc, if_true, State.call, get_current_monitor]
  · simp only [hc, if_false, State.call, get_current_monitor]

theorem length_eraseIdx_succ {α : Type} (l : List α) (i : Nat) (h : i < l.length) :
    (l.eraseIdx i).length + 1 = l.length := by
  rw [List.length_eraseIdx, if_pos h]
  omega

theorem map_modify_absorb {α β : Type} (g : α → β) (f : α → α) (hf : ∀ a, g (f a) = g a)
    (l : List α) (n : Nat) : (l.modify f n).map g = l.map g := by
  apply List.ext_getElem?
  intro i
  rw [List.getElem?_map, List.getElem?_map, List.getElem?_modify]
  cases l[i]? with
  | none => rfl
  | some a =>
    by_cases hn : n = i
    · simp [hn, hf]
    · simp [hn]

/-- The state `remove_monitor` leaves on success: the monitor is erased from the array;
the current index is decremented when it was greater than `index`, and also when the
removed monitor was the current and the last one, in which case the layout is applied
to the new current monitor (its dirty flag is written). -/
theorem remove_monitor_shape (env : Env) (s : State) (index : Int)
    (hlen : 2 ≤ s.g_monitors.length)
    (hidx : 0 ≤ index ∧ index < s.g_monitors.length)
    (hcur : 0 ≤ s.g_cur_monitor ∧ s.g_cur_monitor < s.g_monitors.length) :
    (remove_monitor env s index).1 = Status.HERBST_SUCCESS ∧
    (remove_monitor env s index).2.g_cur_monitor =
      (if index < s.g_cur_monitor ∨
          (index = s.g_cur_monitor ∧ s.g_cur_monitor = (s.g_monitors.length : Int) - 1)
        then s.g_cur_monitor - 1 else s.g_cur_monitor) ∧
    (remove_monitor env s index).2.g_monitors =
      (if index = s.g_cur_monitor ∧ s.g_cur_monitor = (s.g_monitors.length : Int) - 1 then
        (s.g_monitors.eraseIdx index.toNat).modify
          (fun m => { m with dirty := decide (s.g_monitors_locked ≠ 0) })
          (s.g_monitors.length - 2)
      else s.g_monitors.eraseIdx index.toNat) := by
  obtain ⟨mon, hm⟩ := State.monitor_isSome s index hidx.1 hidx.2
  have hlenE := length_eraseIdx_succ s.g_monitors index.toNat (by omega)
  rw [remove_monitor_eq env s index mon hidx.1 hidx.2 hlen hm]
  refine ⟨rfl, ?_⟩
  simp only
  by_cases hlast : index = s.g_cur_monitor ∧ s.g_cur_monitor = (s.g_monitors.length : Int) - 1
  · have hc : ¬ s.g_cur_monitor > index := by omega
    rw [if_neg hc, if_pos (by unfold int_ge_len; omega), if_pos hlast]
    obtain ⟨m1, hm1⟩ := State.monitor_isSome
      { s with
        g_cur_monitor := s.g_cur_monitor - 1,
        g_monitors := s.g_monitors.eraseIdx index.toNat,
        calls := s.calls ++ [Call.frame_hide_recursive mon.tag] } (s.g_cur_monitor - 1)
      (by omega) (by show s.g_cur_monitor - 1 <
        ((s.g_monitors.eraseIdx index.toNat).length : Int); omega)
    rw [monitor_apply_layout_eq env _ _ m1 hm1]
    have ht : (s.g_cur_monitor - 1).toNat = s.g_monitors.length - 2 := by omega
    simp only [ht]
    by_cases hl : s.g_monitors_locked ≠ 0
    · rw [if_pos hl, if_pos (by omega)]
      simp [hl]
    · rw [if_neg hl, if_pos (by omega)]
      simp [hl]
  · rw [if_neg hlast]
    by_cases hc : s.g_cur_monitor > index
    · rw [if_pos hc, if_neg (by unfold int_ge_len; omega), if_pos (Or.inl hc)]
      exact ⟨rfl, rfl⟩
    · rw [if_neg hc, if_neg (by unfold int_ge_len; omega), if_neg (by omega)]
      exact ⟨rfl, rfl⟩

/-- The removal of the current and last monitor writes the dirty flag of the new current
monitor: with the monitors locked, removing monitor 1 of two, the current one, leaves
monitor 0 with `dirty = true`, while it was `false` before the call. -/
theorem remove_monitor_changes_dirty_flag :
    (remove_monitor example_env
      { example_locked_state [example_monitor 1 ⟨0, 0, 800, 600⟩,
          example_monitor 2 ⟨800, 0, 800, 600⟩] with g_cur_monitor := 1 } 1).1 =
      Status.HERBST_SUCCESS ∧
    (remove_monitor example_env
      { example_locked_state [example_monitor 1 ⟨0, 0, 800, 600⟩,
          example_monitor 2 ⟨800, 0, 800, 600⟩] with g_cur_monitor := 1 } 1).2.g_monitors =
      [example_dirty_monitor 1 ⟨0, 0, 800, 600⟩] ∧
    (remove_monitor example_env
      { example_locked_state [example_monitor 1 ⟨0, 0, 800, 600⟩,
          example_monitor 2 ⟨800, 0, 800, 600⟩] with g_cur_monitor := 1 } 1).2.g_monitors ≠
      [example_monitor 1 ⟨0, 0, 800, 600⟩] := by
  decide

/-- C19 (amended): selection is preserved by removal. For every registry with at least
two monitors, a valid current index and a valid `index`, `remove_monitor index` succeeds
and the remaining monitors keep their order and their contents, except that the dirty
flag of the new current monitor is written (set while locked, cleared otherwise) when
the removed monitor was the current and the last one. If `index` is not the current
index, the current monitor is the same monitor as before (the current index is
decremented exactly when it was greater than `index`); if `index` is the current index,
the new current monitor is the one that followed the removed one, or the new last
monitor when the removed one was last. -/
theorem remove_monitor_selection (env : Env) (s : State) (index : Int)
    (hlen : 2 ≤ s.g_monitors.length)
    (hidx : 0 ≤ index ∧ index < s.g_monitors.length)
    (hcur : 0 ≤ s.g_cur_monitor ∧ s.g_cur_monitor < s.g_monitors.length) :
    (remove_monitor env s index).1 = Status.HERBST_SUCCESS ∧
    (remove_monitor env s index).2.g_monitors.map (fun m => { m with dirty := false }) =
      (s.g_monitors.eraseIdx index.toNat).map (fun m => { m with dirty := false }) ∧
    (¬ (index = s.g_cur_monitor ∧ s.g_cur_monitor = (s.g_monitors.length : Int) - 1) →
      (remove_monitor env s index).2.g_monitors = s.g_monitors.eraseIdx index.toNat) ∧
    (∀ j : Nat, (j : Int) ≠ (remove_monitor env s index).2.g_cur_monitor →
      (remove_monitor env s index).2.g_monitors[j]? =
        (s.g_monitors.eraseIdx index.toNat)[j]?) ∧
    (index < s.g_cur_monitor →
      (remove_monitor env s index).2.g_cur_monitor = s.g_cur_monitor - 1 ∧
      (remove_monitor env s index).2.monitor (remove_monitor env s index).2.g_cur_monitor =
        s.monitor s.g_cur_monitor) ∧
    (s.g_cur_monitor < index →
      (remove_monitor env s index).2.g_cur_monitor = s.g_cur_monitor ∧
      (remove_monitor env s index).2.monitor (remove_monitor env s index).2.g_cur_monitor =
        s.monitor s.g_cur_monitor) ∧
    (index = s.g_cur_monitor → s.g_cur_monitor < (s.g_monitors.length : Int) - 1 →
      (remove_monitor env s index).2.g_cur_monitor = s.g_cur_monitor ∧
      (remove_monitor env s index).2.monitor (remove_monitor env s index).2.g_cur_monitor =
        s.monitor (s.g_cur_monitor + 1)) ∧
    (index = s.g_cur_monitor → s.g_cur_monitor = (s.g_monitors.length : Int) - 1 →
      (remove_monitor env s index).2.g_cur_monitor = (s.g_monitors.length : Int) - 2 ∧
      (remove_monitor env s index).2.g_cur_monitor =
        ((remove_monitor env s index).2.g_monitors.length : Int) - 1 ∧
      (remove_monitor env s index).2.monitor (remove_monitor env s index).2.g_cur_monitor =
        (s.monitor (s.g_cur_monitor - 1)).map
          (fun m => { m with dirty := decide (s.g_monitors_locked ≠ 0) })) := by
  obtain ⟨hst, hc, hg⟩ := remove_monitor_shape env s index hlen hidx hcur
  have hlenE := length_eraseIdx_succ s.g_monitors index.toNat (by omega)
  have hmon : ∀ p : Int, 0 ≤ p →
      ¬ (index = s.g_cur_monitor ∧ s.g_cur_monitor = (s.g_monitors.length : Int) - 1) →
      (remove_monitor env s index).2.monitor p =
        if p < index then s.monitor p else s.monitor (p + 1) := by
    intro p hp hlast
    unfold State.monitor
    rw [hg, if_neg hlast, if_neg (by omega), List.getElem?_eraseIdx]
    by_cases hpi : p < index
    · rw [if_pos hpi, if_pos (by omega), if_neg (by omega)]
    · rw [if_neg hpi, if_neg (by omega), if_neg (by omega)]
      congr 1
      omega
  refine ⟨hst, ?_, ?_, ?_, ?_, ?_, ?_, ?_⟩
  · rw [hg]
    split
    · have habs : ∀ a : HSMonitor,
          (fun m : HSMonitor => { m with dirty := false })
            ((fun m : HSMonitor => { m with dirty := decide (s.g_monitors_locked ≠ 0) }) a) =
          (fun m : HSMonitor => { m with dirty := false }) a := fun _ => rfl
      exact map_modify_absorb _ _ habs _ _
    · rfl
  · intro h
    rw [hg, if_neg h]
  · intro j hj
    rw [hg]
    split
    · rename_i hlast
      rw [hc, if_pos (by omega)] at hj
      rw [List.getElem?_modify]
      have : s.g_monitors.length - 2 ≠ j := by omega
      cases (s.g_monitors.eraseIdx index.toNat)[j]? <;> simp [this]
    · rfl
  · intro h
    rw [hc, if_pos (Or.inl h)]
    refine ⟨rfl, ?_⟩
    rw [hmon _ (by omega) (by omega), if_neg (by omega)]
    congr 1
    omega
  · intro h
    rw [hc, if_neg (by omega)]
    refine ⟨rfl, ?_⟩
    rw [hmon _ (by omega) (by omega), if_pos h]
  · intro h1 h2
    rw [hc, if_neg (by omega)]
    refine ⟨rfl, ?_⟩
    rw [hmon _ (by omega) (by omega), if_neg (by omega)]
  · intro h1 h2
    have hl : (remove_monitor env s index).2.g_monitors.length + 1 =
        s.g_monitors.length := (remove_monitor_length env s index hidx.1 hidx.2 hlen).2
    have hR : s.monitor (s.g_cur_monitor - 1) =
        s.g_monitors[(s.g_cur_monitor - 1).toNat]? := by
      unfold State.monitor
      rw [if_neg (by omega)]
    have hL : (remove_monitor env s index).2.monitor (s.g_cur_monitor - 1) =
        (remove_monitor env s index).2.g_monitors[(s.g_cur_monitor - 1).toNat]? := by
      unfold State.monitor
      rw [if_neg (by omega)]
    rw [hc, if_pos (Or.inr ⟨h1, h2⟩)]
    refine ⟨by omega, by omega, ?_⟩
    have ht : s.g_monitors.length - 2 = (s.g_cur_monitor - 1).toNat := by omega
    rw [hL, hR, hg, if_pos ⟨h1, h2⟩, List.getElem?_modify, List.getElem?_eraseIdx,
      if_pos (by omega), ht]
    cases s.g_monitors[(s.g_cur_monitor - 1).toNat]? <;> simp

theorem remove_monitor_selection_witness :
    (remove_monitor example_env
      (example_state [example_monitor 1 ⟨0, 0, 800, 600⟩,
        example_monitor 2 ⟨800, 0, 800, 600⟩, example_monitor 3 ⟨1600, 0, 800, 600⟩]) 0).1 =
      Status.HERBST_SUCCESS ∧
    (remove_monitor example_env
      (example_state [example_monitor 1 ⟨0, 0, 800, 600⟩,
        example_monitor 2 ⟨800, 0, 800, 600⟩, example_monitor 3 ⟨1600, 0, 800, 600⟩])
      0).2.g_monitors.map (fun m => { m with dirty := false }) =
    ((example_state [example_monitor 1 ⟨0, 0, 800, 600⟩,
        example_monitor 2 ⟨800, 0, 800, 600⟩,
        example_monitor 3 ⟨1600, 0, 800, 600⟩]).g_monitors.eraseIdx (0 : Int).toNat).map
      (fun m => { m with dirty := false }) :=
  ⟨(remove_monitor_selection example_env
      (example_state [example_monitor 1 ⟨0, 0, 800, 600⟩,
        example_monitor 2 ⟨800, 0, 800, 600⟩, example_monitor 3 ⟨1600, 0, 800, 600⟩]) 0
      (by decide) (by decide) (by decide)).1,
    (remove_monitor_selection example_env
      (example_state [example_monitor 1 ⟨0, 0, 800, 600⟩,
        example_monitor 2 ⟨800, 0, 800, 600⟩, example_monitor 3 ⟨1600, 0, 800, 600⟩]) 0
      (by decide) (by decide) (by decide)).2.1⟩

/-! ## The remembered mouse offset -/

theorem forall_mem_modify {α : Type} (P : α → Prop) (f : α → α) (l : List α) (n : Nat)
    (h : ∀ a ∈ l, P a) (hf : ∀ a, l[n]? = some a → P (f a)) :
    ∀ a ∈ l.modify f n, P a := by
  intro a ha
  obtain ⟨i, hi⟩ := List.mem_iff_getElem?.mp ha
  rw [List.getElem?_modify] at hi
  cases hb : l[i]? with
  | none => rw [hb] at hi; simp at hi
  | some b =>
    rw [hb] at hi
    simp only [Option.map_eq_map, Option.map, Option.some.injEq] at hi
    by_cases hn : n = i
    · rw [if_pos hn] at hi
      rw [← hi]
      exact hf b (by rw [hn]; exact hb)
    · rw [if_neg hn] at hi
      rw [← hi]
      exact h b (List.mem_iff_getElem?.mpr ⟨i, hb⟩)

theorem State.update_monitor_forall (P : HSMonitor → Prop) (s : State) (p : Int)
    (f : HSMonitor → HSMonitor) (h : ∀ m ∈ s.g_monitors, P m)
    (hf : ∀ m, s.monitor p = some m → P (f m)) :
    ∀ m ∈ (s.update_monitor p f).g_monitors, P m := by
  unfold State.update_monitor
  by_cases hp : p < 0
  · rw [if_pos hp]; exact h
  · rw [if_neg hp]
    apply forall_mem_modify P f _ _ h
    intro a ha
    apply hf
    unfold State.monitor
    rw [if_neg hp]
    exact ha

theorem State.monitor_mem (s : State) (p : Int) (m : HSMonitor) (h : s.monitor p = some m) :
    m ∈ s.g_monitors :=
  List.mem_iff_getElem?.mpr ⟨p.toNat, (State.monitor_nonneg s p m h).2⟩

theorem State.update_monitor_twice (s : State) (p : Int) (f g : HSMonitor → HSMonitor) :
    (s.update_monitor p f).update_monitor p g = s.update_monitor p (g ∘ f) := by
  unfold State.update_monitor
  by_cases hp : p < 0
  · simp only [hp, if_true]
  · simp only [hp, if_false, List.modify_modify_eq]

theorem monitor_apply_layout_forall (P : HSMonitor → Prop) (env : Env) (s : State)
    (monitor : Option Int) (h : ∀ m ∈ s.g_monitors, P m)
    (hd : ∀ (m : HSMonitor) (b : Bool), P m → P { m with dirty := b }) :
    ∀ m ∈ (monitor_apply_layout env s monitor).g_monitors, P m := by
  cases monitor with
  | none => exact h
  | some p =>
    cases hm : s.monitor p with
    | none => rw [monitor_apply_layout_none env s p hm]; exact h
    | some m0 =>
      have hp := State.monitor_nonneg s p m0 hm
      rw [monitor_apply_layout_eq env s p m0 hm]
      split
      · exact forall_mem_modify P _ _ _ h
          (fun a ha => hd a true (h a (List.mem_iff_getElem?.mpr ⟨_, ha⟩)))
      · exact forall_mem_modify P _ _ _ h
          (fun a ha => hd a false (h a (List.mem_iff_getElem?.mpr ⟨_, ha⟩)))

theorem set_pads_forall (P : HSMonitor → Prop) (env : Env) (s : State) (monitor : Int)
    (argv : List String) (k : Nat) (h : ∀ m ∈ s.g_monitors, P m)
    (hd : ∀ (m : HSMonitor) (a b c d : Int), P m →
      P { m with pad_up := a, pad_right := b, pad_down := c, pad_left := d }) :
    ∀ m ∈ (set_pads env s monitor argv k).g_monitors, P m := by
  have step : ∀ (t : State) (f : HSMonitor → HSMonitor), (∀ m, P m → P (f m)) →
      (∀ m ∈ t.g_monitors, P m) → ∀ m ∈ (t.update_monitor monitor f).g_monitors, P m := by
    intro t f hf ht
    exact State.update_monitor_forall P t monitor f ht
      (fun m hm => hf m (ht m (State.monitor_mem t monitor m hm)))
  unfold set_pads
  simp only
  have h1 : ∀ m ∈ (if argv.length > k ∧ argv.getD k "" ≠ "" then
      s.update_monitor monitor (fun m => { m with pad_up := env.atoi (argv.getD k "") })
      else s).g_monitors, P m := by
    split
    · exact step s _ (fun m hm => hd m _ m.pad_right m.pad_down m.pad_left hm) h
    · exact h
  generalize (if argv.length > k ∧ argv.getD k "" ≠ "" then
      s.update_monitor monitor (fun m => { m with pad_up := env.atoi (argv.getD k "") })
      else s) = s1 at h1 ⊢
  have h2 : ∀ m ∈ (if argv.length > k + 1 ∧ argv.getD (k + 1) "" ≠ "" then
      s1.update_monitor monitor
        (fun m => { m with pad_right := env.atoi (argv.getD (k + 1) "") })
      else s1).g_monitors, P m := by
    split
    · exact step s1 _ (fun m hm => hd m m.pad_up _ m.pad_down m.pad_left hm) h1
    · exact h1
  generalize (if argv.length > k + 1 ∧ argv.getD (k + 1) "" ≠ "" then
      s1.update_monitor monitor
        (fun m => { m with pad_right := env.atoi (argv.getD (k + 1) "") })
      else s1) = s2 at h2 ⊢
  have h3 : ∀ m ∈ (if argv.length > k + 2 ∧ argv.getD (k + 2) "" ≠ "" then
      s2.update_monitor monitor
        (fun m => { m with pad_down := env.atoi (argv.getD (k + 2) "") })
      else s2).g_monitors, P m := by
    split
    · exact step s2 _ (fun m hm => hd m m.pad_up m.pad_right _ m.pad_left hm) h2
    · exact h2
  generalize (if argv.length > k + 2 ∧ argv.getD (k + 2) "" ≠ "" then
      s2.update_monitor monitor
        (fun m => { m with pad_down := env.atoi (argv.getD (k + 2) "") })
      else s2) = s3 at h3 ⊢
  split
  · exact step s3 _ (fun m hm => hd m m.pad_up m.pad_right m.pad_down _ hm) h3
  · exact h3

theorem mouse_in_rect_dirty (m : HSMonitor) (b : Bool) (h : m.mouse_in_rect) :
    HSMonitor.mouse_in_rect { m with dirty := b } := h

theorem mouse_in_rect_pads (m : HSMonitor) (a b c d : Int) (h : m.mouse_in_rect) :
    HSMonitor.mouse_in_rect
      { m with pad_up := a, pad_right := b, pad_down := c, pad_left := d } := h

theorem mouse_in_rect_clamp (o : HSMonitor) (rx ry : Int) (h : o.mouse_in_rect) :
    HSMonitor.mouse_in_rect
      { o with
        mouse_x := CLAMP (rx - o.rect.x) 0 (o.rect.width - 1),
        mouse_y := CLAMP (ry - o.rect.y) 0 (o.rect.height - 1) } := by
  unfold HSMonitor.mouse_in_rect at h ⊢
  unfold CLAMP
  simp only
  refine ⟨?_, ?_⟩
  · split
    · omega
    · split <;> omega
  · split
    · omega
    · split <;> omega

/-- The four writes to `old->mouse` in `monitor_focus_by_index` are one write. -/
theorem monitor_focus_by_index_mouse_writes (t : State) (old rx ry : Int) :
    (((t.update_monitor old (fun o => { o with mouse_x := rx - o.rect.x })).update_monitor
        old (fun o => { o with mouse_y := ry - o.rect.y })).update_monitor old
        (fun o => { o with mouse_x := CLAMP o.mouse_x 0 (o.rect.width - 1) })).update_monitor
        old (fun o => { o with mouse_y := CLAMP o.mouse_y 0 (o.rect.height - 1) }) =
      t.update_monitor old (fun o =>
        { o with
          mouse_x := CLAMP (rx - o.rect.x) 0 (o.rect.width - 1),
          mouse_y := CLAMP (ry - o.rect.y) 0 (o.rect.height - 1) }) := by
  rw [State.update_monitor_twice, State.update_monitor_twice, State.update_monitor_twice]
  rfl

theorem add_monitor_mouse (s : State) (rect : XRectangle) (tag : Nat)
    (h : ∀ m ∈ s.g_monitors, m.mouse_in_rect) (hr : 0 < rect.width ∧ 0 < rect.height) :
    ∀ m ∈ (add_monitor s rect tag).1.g_monitors, m.mouse_in_rect := by
  intro m hm
  unfold add_monitor at hm
  simp only [List.mem_append, List.mem_singleton] at hm
  cases hm with
  | inl h1 => exact h m h1
  | inr h1 =>
    rw [h1]
    unfold HSMonitor.mouse_in_rect
    simp only
    omega

theorem move_monitor_command_mouse (env : Env) (s : State) (argv : List String)
    (h : ∀ m ∈ s.g_monitors, m.mouse_in_rect)
    (hfit : mouse_fits (s.monitor (env.atoi (argv.getD 1 "")))
      (env.parse_rectangle (argv.getD 2 ""))) :
    ∀ m ∈ (move_monitor_command env s argv).2.g_monitors, m.mouse_in_rect := by
  unfold move_monitor_command
  split
  · exact h
  · simp only
    split
    · exact h
    · split
      · exact h
      · apply monitor_apply_layout_forall _ _ _ _ _ mouse_in_rect_dirty
        apply set_pads_forall _ _ _ _ _ _ _ mouse_in_rect_pads
        apply State.update_monitor_forall _ _ _ _ h
        intro m hm
        rw [hm] at hfit
        have hm1 := h m (State.monitor_mem s _ m hm)
        unfold mouse_fits at hfit
        unfold HSMonitor.mouse_in_rect at hm1 ⊢
        simp only at hfit ⊢
        omega

theorem monitor_focus_by_index_mouse (env : Env) (s : State) (new_selection : Int)
    (q : PointerQuery) (h : ∀ m ∈ s.g_monitors, m.mouse_in_rect) :
    ∀ m ∈ (monitor_focus_by_index env s new_selection q).g_monitors, m.mouse_in_rect := by
  unfold monitor_focus_by_index
  simp only
  split
  · exact h
  · split
    · exact h
    · rename_i mon hmon
      have h2 : ∀ m ∈ (monitor_apply_layout env (monitor_apply_layout env
          (({ s with g_cur_monitor :=
              CLAMP_len new_selection 0 s.g_monitors.length }).call
            (Call.frame_focus_recursive mon.tag)) (some s.g_cur_monitor))
          (some (CLAMP_len new_selection 0 s.g_monitors.length))).g_monitors,
          m.mouse_in_rect := by
        apply monitor_apply_layout_forall _ _ _ _ _ mouse_in_rect_dirty
        apply monitor_apply_layout_forall _ _ _ _ _ mouse_in_rect_dirty
        exact h
      generalize monitor_apply_layout env (monitor_apply_layout env
          (({ s with g_cur_monitor :=
              CLAMP_len new_selection 0 s.g_monitors.length }).call
            (Call.frame_focus_recursive mon.tag)) (some s.g_cur_monitor))
          (some (CLAMP_len new_selection 0 s.g_monitors.length)) = t at h2 ⊢
      rw [monitor_focus_by_index_mouse_writes]
      have h3 : ∀ m ∈ (if q.ok = true then
          t.update_monitor s.g_cur_monitor (fun o =>
            { o with
              mouse_x := CLAMP (q.rx - o.rect.x) 0 (o.rect.width - 1),
              mouse_y := CLAMP (q.ry - o.rect.y) 0 (o.rect.height - 1) })
          else t).g_monitors, m.mouse_in_rect := by
        split
        · apply State.update_monitor_forall _ _ _ _ h2
          intro m hm
          exact mouse_in_rect_clamp m q.rx q.ry (h2 m (State.monitor_mem t _ m hm))
        · exact h2
      generalize (if q.ok = true then
          t.update_monitor s.g_cur_monitor (fun o =>
            { o with
              mouse_x := CLAMP (q.rx - o.rect.x) 0 (o.rect.width - 1),
              mouse_y := CLAMP (q.ry - o.rect.y) 0 (o.rect.height - 1) })
          else t) = t2 at h3 ⊢
      split <;> simpa using h3

theorem remove_monitor_mouse (env : Env) (s : State) (index : Int)
    (h : ∀ m ∈ s.g_monitors, m.mouse_in_rect) :
    ∀ m ∈ (remove_monitor env s index).2.g_monitors, m.mouse_in_rect := by
  unfold remove_monitor
  split
  · exact h
  · split
    · exact h
    · split
      · exact h
      · have hs : ∀ m ∈ s.g_monitors.eraseIdx index.toNat, m.mouse_in_rect :=
          fun m hm => h m (List.mem_of_mem_eraseIdx hm)
        simp only
        split <;> split <;>
          first
            | exact hs
            | (apply monitor_apply_layout_forall _ _ _ _ _ mouse_in_rect_dirty
               exact hs)

theorem all_monitors_apply_layout_mouse (env : Env) (s : State)
    (h : ∀ m ∈ s.g_monitors, m.mouse_in_rect) :
    ∀ m ∈ (all_monitors_apply_layout env s).g_monitors, m.mouse_in_rect := by
  unfold all_monitors_apply_layout
  generalize List.range s.g_monitors.length = l
  induction l generalizing s with
  | nil => exact h
  | cons a l ih =>
    rw [List.foldl_cons]
    exact ih _ (monitor_apply_layout_forall _ _ _ _ h mouse_in_rect_dirty)

theorem templates_fit_nil :
    ∀ ts : List XRectangle, templates_fit ts [] → ∀ t ∈ ts, 0 < t.width ∧ 0 < t.height := by
  intro ts
  induction ts with
  | nil => intro _ t ht; exact absurd ht (List.not_mem_nil t)
  | cons a ts ih =>
    intro h t ht
    rcases List.mem_cons.mp ht with rfl | ht
    · exact h.1
    · exact ih h.2 t ht

theorem drop_modify_succ {α : Type} (f : α → α) (l : List α) (n : Nat) :
    (l.modify f n).drop (n + 1) = l.drop (n + 1) := by
  apply List.ext_getElem?
  intro k
  rw [List.getElem?_drop, List.getElem?_drop, List.getElem?_modify]
  have : n ≠ n + 1 + k := by omega
  cases l[n + 1 + k]? <;> simp [this]

/-- The first loop of `set_monitor_rects` keeps the mouse offsets inside the rectangles
when each template is large enough for the monitor it is given to; the templates it
leaves over are those the condition requires to be of positive size. -/
theorem set_monitor_rects_loop_rects_mouse :
    ∀ (ts : List XRectangle) (s : State) (i : Int), 0 ≤ i →
      (∀ m ∈ s.g_monitors, m.mouse_in_rect) →
      templates_fit ts (s.g_monitors.drop i.toNat) →
      (∀ m ∈ (set_monitor_rects.loop_rects s ts i).1.g_monitors, m.mouse_in_rect) ∧
      ∀ t ∈ (set_monitor_rects.loop_rects s ts i).2.2, 0 < t.width ∧ 0 < t.height := by
  intro ts
  induction ts with
  | nil =>
    intro s i _ h _
    exact ⟨h, fun t ht => absurd ht (List.not_mem_nil t)⟩
  | cons t ts ih =>
    intro s i hi h hfit
    unfold set_monitor_rects.loop_rects
    by_cases hlt : i < s.g_monitors.length
    · have hw : monitor_with_index s i = some i := by
        unfold monitor_with_index
        rw [if_neg (by omega)]
      have hn : i.toNat < s.g_monitors.length := by omega
      rw [if_pos hlt, hw]
      simp only
      rw [List.drop_eq_getElem_cons hn] at hfit
      have hmi : s.monitor i = some s.g_monitors[i.toNat] := by
        unfold State.monitor
        rw [if_neg (by omega)]
        exact List.getElem?_eq_getElem hn
      have h1 : ∀ m ∈ (s.update_monitor i (fun mon => { mon with rect := t })).g_monitors,
          m.mouse_in_rect := by
        apply State.update_monitor_forall _ _ _ _ h
        intro m hm
        rw [hmi, Option.some.injEq] at hm
        subst hm
        have hp := h _ (List.getElem_mem hn)
        have hf := hfit.1
        unfold mouse_fits at hf
        unfold HSMonitor.mouse_in_rect at hp ⊢
        simp only at hf ⊢
        omega
      apply ih _ (i + 1) (by omega) h1
      rw [State.update_monitor_eq _ _ _ hi]
      have e : (i + 1).toNat = i.toNat + 1 := by omega
      simp only [e, drop_modify_succ]
      exact hfit.2
    · rw [if_neg hlt]
      refine ⟨h, ?_⟩
      have hd : s.g_monitors.drop i.toNat = [] := List.drop_eq_nil_of_le (by omega)
      rw [hd] at hfit
      exact templates_fit_nil _ hfit

theorem set_monitor_rects_loop_add_mouse :
    ∀ (ts : List XRectangle) (s : State) (i : Int),
      (∀ m ∈ s.g_monitors, m.mouse_in_rect) → (∀ t ∈ ts, 0 < t.width ∧ 0 < t.height) →
      match set_monitor_rects.loop_add s ts i with
      | Except.error s1 => ∀ m ∈ s1.g_monitors, m.mouse_in_rect
      | Except.ok (s1, _) => ∀ m ∈ s1.g_monitors, m.mouse_in_rect := by
  intro ts
  induction ts with
  | nil => intro s i h _; exact h
  | cons t ts ih =>
    intro s i h hpos
    cases hf : find_unused_tag s with
    | none =>
      simp only [set_monitor_rects.loop_add, hf]
      exact h
    | some tag =>
      simp only [set_monitor_rects.loop_add, hf]
      apply ih
      · exact add_monitor_mouse s t tag h (hpos t (List.mem_cons_self _ _))
      · exact fun u hu => hpos u (List.mem_cons_of_mem _ hu)

theorem set_monitor_rects_loop_remove_mouse (env : Env) :
    ∀ (n : Nat) (s : State) (i : Int), (∀ m ∈ s.g_monitors, m.mouse_in_rect) →
      ∀ m ∈ (set_monitor_rects.loop_remove env n s i).g_monitors, m.mouse_in_rect := by
  intro n
  induction n with
  | zero => intro s i h; exact h
  | succ n ih =>
    intro s i h
    unfold set_monitor_rects.loop_remove
    split
    · exact ih _ _ (remove_monitor_mouse env s i h)
    · exact h

theorem set_monitor_rects_mouse (env : Env) (s : State) (templates : List XRectangle)
    (h : ∀ m ∈ s.g_monitors, m.mouse_in_rect) (hfit : templates_fit templates s.g_monitors) :
    ∀ m ∈ (set_monitor_rects env s templates).2.g_monitors, m.mouse_in_rect := by
  unfold set_monitor_rects
  split
  · exact h
  · have h1 := set_monitor_rects_loop_rects_mouse templates s 0 (le_refl _) h
      (by simpa using hfit)
    generalize set_monitor_rects.loop_rects s templates 0 = r at h1
    obtain ⟨s1, i, rest⟩ := r
    simp only at h1 ⊢
    have h2 := set_monitor_rects_loop_add_mouse rest s1 i h1.1 h1.2
    split
    · rename_i s2 heq
      rw [heq] at h2
      exact h2
    · rename_i s2 i2 heq
      rw [heq] at h2
      simp only at h2 ⊢
      apply all_monitors_apply_layout_mouse
      exact set_monitor_rects_loop_remove_mouse env _ s2 i2 h2

theorem run_mouse_op_mouse (env : Env) (s : State) (op : MouseOp)
    (h : ∀ m ∈ s.g_monitors, m.mouse_in_rect) (hfit : mouse_op_fits env s op) :
    ∀ m ∈ (run_mouse_op env s op).g_monitors, m.mouse_in_rect := by
  cases op with
  | add_monitor rect tag => exact add_monitor_mouse s rect tag h hfit
  | move_monitor_command argv => exact move_monitor_command_mouse env s argv h hfit
  | set_monitor_rects templates => exact set_monitor_rects_mouse env s templates h hfit
  | monitor_focus_by_index new_selection q =>
    exact monitor_focus_by_index_mouse env s new_selection q h

theorem State.monitor_update_monitor (s : State) (p r : Int) (f : HSMonitor → HSMonitor) :
    (s.update_monitor p f).monitor r =
      if r = p then (s.monitor r).map f else s.monitor r := by
  unfold State.update_monitor State.monitor
  by_cases hp : p < 0
  · rw [if_pos hp]
    by_cases hr : r < 0
    · simp [hr]
    · rw [if_neg hr, if_neg (by omega)]
  · rw [if_neg hp]
    by_cases hr : r < 0
    · simp [hr]
    · simp only [hr, if_false]
      rw [List.getElem?_modify]
      by_cases hrp : r = p
      · subst hrp
        cases s.g_monitors[r.toNat]? <;> simp
      · have : p.toNat ≠ r.toNat := by omega
        rw [if_neg hrp]
        cases s.g_monitors[r.toNat]? <;> simp [this]

theorem monitor_apply_layout_monitor (env : Env) (s : State) (p r : Int) :
    (monitor_apply_layout env s (some p)).monitor r =
      if r = p then
        (s.monitor r).map (fun m => { m with dirty := decide (s.g_monitors_locked ≠ 0) })
      else s.monitor r := by
  cases hm : s.monitor p with
  | none =>
    rw [monitor_apply_layout_none env s p hm]
    by_cases hrp : r = p
    · rw [if_pos hrp, hrp, hm]; rfl
    · rw [if_neg hrp]
  | some m =>
    have hp := (State.monitor_nonneg s p m hm).1
    rw [monitor_apply_layout_eq env s p m hm]
    by_cases hl : s.g_monitors_locked ≠ 0
    · rw [if_pos hl]
      have := State.monitor_update_monitor s p r (fun m => { m with dirty := true })
      rw [State.update_monitor_eq _ _ _ hp] at this
      rw [this]
      simp [hl]
    · rw [if_neg hl]
      have := State.monitor_update_monitor s p r (fun m => { m with dirty := false })
      rw [State.update_monitor_eq _ _ _ hp] at this
      have e : ∀ (c : List Call), State.monitor
          { s with
            g_monitors := s.g_monitors.modify (fun m => { m with dirty := false }) p.toNat,
            calls := c } r =
          State.monitor
            { s with
              g_monitors := s.g_monitors.modify (fun m => { m with dirty := false })
                p.toNat } r := fun _ => rfl
      rw [e, this]
      simp [hl]

/-- After `monitor_focus_by_index` has switched away from the monitor `o`, with the
pointer query succeeding, the monitor has the same rectangle and its mouse offset is the
pointer position minus the origin of the rectangle, clamped. -/
theorem monitor_focus_by_index_old_mouse (env : Env) (s : State) (new_selection : Int)
    (q : PointerQuery) (o : HSMonitor) (hlen : 1 ≤ s.g_monitors.length)
    (hq : q.ok = true) (ho : s.monitor s.g_cur_monitor = some o)
    (hne : CLAMP_len new_selection 0 s.g_monitors.length ≠ s.g_cur_monitor) :
    ∃ o1, (monitor_focus_by_index env s new_selection q).monitor s.g_cur_monitor = some o1 ∧
      o1.rect = o.rect ∧
      o1.mouse_x = CLAMP (q.rx - o.rect.x) 0 (o.rect.width - 1) ∧
      o1.mouse_y = CLAMP (q.ry - o.rect.y) 0 (o.rect.height - 1) := by
  have hr := CLAMP_len_range new_selection s.g_monitors.length hlen
  obtain ⟨mon, hmon⟩ := State.monitor_isSome s _ hr.1 hr.2
  have hne2 : ¬ s.g_cur_monitor = CLAMP_len new_selection 0 s.g_monitors.length :=
    fun h => hne h.symm
  unfold monitor_focus_by_index
  simp only
  rw [if_neg hne2, hmon]
  simp only [hq, if_true]
  rw [monitor_focus_by_index_mouse_writes]
  have hcall : ∀ (t : State) (c : Call) (r : Int), (t.call c).monitor r = t.monitor r :=
    fun _ _ _ => rfl
  have key : ∀ t : State, t.monitor s.g_cur_monitor =
        (s.monitor s.g_cur_monitor).map
          (fun m => { m with dirty := decide (s.g_monitors_locked ≠ 0) }) →
      ∃ o1, (t.update_monitor s.g_cur_monitor (fun o =>
          { o with
            mouse_x := CLAMP (q.rx - o.rect.x) 0 (o.rect.width - 1),
            mouse_y := CLAMP (q.ry - o.rect.y) 0 (o.rect.height - 1) })).monitor
          s.g_cur_monitor = some o1 ∧
        o1.rect = o.rect ∧
        o1.mouse_x = CLAMP (q.rx - o.rect.x) 0 (o.rect.width - 1) ∧
        o1.mouse_y = CLAMP (q.ry - o.rect.y) 0 (o.rect.height - 1) := by
    intro t ht
    rw [State.monitor_update_monitor, if_pos rfl, ht, ho]
    exact ⟨_, rfl, rfl, rfl, rfl⟩
  have ht : (monitor_apply_layout env (monitor_apply_layout env
      (({ s with g_cur_monitor :=
          CLAMP_len new_selection 0 s.g_monitors.length }).call
        (Call.frame_focus_recursive mon.tag)) (some s.g_cur_monitor))
      (some (CLAMP_len new_selection 0 s.g_monitors.length))).monitor s.g_cur_monitor =
      (s.monitor s.g_cur_monitor).map
        (fun m => { m with dirty := decide (s.g_monitors_locked ≠ 0) }) := by
    rw [monitor_apply_layout_monitor, if_neg hne2, monitor_apply_layout_monitor, if_pos rfl]
    rfl
  obtain ⟨o1, h1, h2⟩ := key _ ht
  refine ⟨o1, ?_, h2⟩
  rw [← h1]
  split <;> rfl

/-- The mouse offset is not clamped again when the rectangle of a monitor is replaced:
from a registry of two `800x600` monitors with mouse offsets `(0, 0)`, focusing monitor 1
with the pointer at `(799, 599)` stores the offset `(799, 599)` in monitor 0; then
`set_monitor_rects` with the rectangle `100x100+0+0` for monitor 0, and as well
`move_monitor 0 100x100+0+0`, leave monitor 0 with mouse offset `799 > 100 - 1`. And
`add_monitor` with a rectangle of width 0 adds a monitor whose mouse offset 0 is above
`rect.width - 1`. -/
theorem mouse_offset_outside_after_rect_change :
    (∀ m ∈ (example_state [example_monitor 1 ⟨0, 0, 800, 600⟩,
      example_monitor 2 ⟨800, 0, 800, 600⟩]).g_monitors, m.mouse_in_rect) ∧
    (set_monitor_rects example_env
      (monitor_focus_by_index example_env
        (example_state [example_monitor 1 ⟨0, 0, 800, 600⟩,
          example_monitor 2 ⟨800, 0, 800, 600⟩]) 1 ⟨true, 799, 599⟩)
      [⟨0, 0, 100, 100⟩, ⟨800, 0, 800, 600⟩]).2.g_monitors.map
        (fun m => (m.mouse_x, m.mouse_y, m.rect.width, m.rect.height)) =
      [(799, 599, 100, 100), (0, 0, 800, 600)] ∧
    (move_monitor_command
      { example_env with parse_rectangle := fun _ => ⟨0, 0, 100, 100⟩ }
      (monitor_focus_by_index example_env
        (example_state [example_monitor 1 ⟨0, 0, 800, 600⟩,
          example_monitor 2 ⟨800, 0, 800, 600⟩]) 1 ⟨true, 799, 599⟩)
      ["move_monitor", "0", "100x100+0+0"]).2.g_monitors.map
        (fun m => (m.mouse_x, m.mouse_y, m.rect.width, m.rect.height)) =
      [(799, 599, 100, 100), (0, 0, 800, 600)] ∧
    (¬ ∀ m ∈ (set_monitor_rects example_env
      (monitor_focus_by_index example_env
        (example_state [example_monitor 1 ⟨0, 0, 800, 600⟩,
          example_monitor 2 ⟨800, 0, 800, 600⟩]) 1 ⟨true, 799, 599⟩)
      [⟨0, 0, 100, 100⟩, ⟨800, 0, 800, 600⟩]).2.g_monitors, m.mouse_in_rect) ∧
    ¬ ∀ m ∈ (add_monitor
      (example_state [example_monitor 1 ⟨0, 0, 800, 600⟩]) ⟨800, 0, 0, 600⟩ 2).1.g_monitors,
      m.mouse_in_rect := by
  decide

/-- C18 (amended): the mouse-offset invariant. If every monitor's remembered mouse offset
satisfies `0 <= mouse.x <= rect.width - 1` and `0 <= mouse.y <= rect.height - 1`, then
this still holds after every sequence of `add_monitor` with rectangles of positive width
and height, `move_monitor` with a rectangle large enough for the offset the moved monitor
remembers, `set_monitor_rects` with templates large enough for the offsets of the
monitors they are given to (and of positive width and height where a monitor is added),
and `monitor_focus_by_index`. When `monitor_focus_by_index` switches away from a
monitor, the pointer query succeeding, that monitor keeps its rectangle and its mouse
offset becomes the pointer position minus the origin of the rectangle, clamped into
`[0, rect.width - 1]` and `[0, rect.height - 1]`. -/
theorem mouse_offset_invariant (env : Env) (ops : List MouseOp) (s : State)
    (hinv : ∀ m ∈ s.g_monitors, m.mouse_in_rect) (hrun : mouse_run env s ops) :
    (∀ m ∈ (ops.foldl (run_mouse_op env) s).g_monitors, m.mouse_in_rect) ∧
    (∀ (new_selection : Int) (q : PointerQuery) (o : HSMonitor),
      1 ≤ s.g_monitors.length → q.ok = true → s.monitor s.g_cur_monitor = some o →
      CLAMP_len new_selection 0 s.g_monitors.length ≠ s.g_cur_monitor →
      ∃ o1, (monitor_focus_by_index env s new_selection q).monitor s.g_cur_monitor =
          some o1 ∧
        o1.rect = o.rect ∧
        o1.mouse_x = CLAMP (q.rx - o.rect.x) 0 (o.rect.width - 1) ∧
        o1.mouse_y = CLAMP (q.ry - o.rect.y) 0 (o.rect.height - 1) ∧
        o1.mouse_in_rect) := by
  constructor
  · induction ops generalizing s with
    | nil => exact hinv
    | cons op ops ih =>
      exact ih (run_mouse_op env s op) (run_mouse_op_mouse env s op hinv hrun.1) hrun.2
  · intro new_selection q o hlen hq ho hne
    obtain ⟨o1, h1, h2, h3, h4⟩ :=
      monitor_focus_by_index_old_mouse env s new_selection q o hlen hq ho hne
    refine ⟨o1, h1, h2, h3, h4, ?_⟩
    have hm := mouse_in_rect_clamp o q.rx q.ry (hinv o (State.monitor_mem s _ o ho))
    unfold HSMonitor.mouse_in_rect at hm ⊢
    rw [h2, h3, h4]
    exact hm

theorem mouse_offset_invariant_witness :
    ((∀ m ∈ (example_state [example_monitor 1 ⟨0, 0, 800, 600⟩]).g_monitors,
        m.mouse_in_rect) ∧
      mouse_run example_env (example_state [example_monitor 1 ⟨0, 0, 800, 600⟩])
        [MouseOp.add_monitor ⟨800, 0, 800, 600⟩ 2,
          MouseOp.monitor_focus_by_index 1 ⟨true, 399, 299⟩,
          MouseOp.move_monitor_command ["move_monitor", "0", "800x600+0+0"],
          MouseOp.set_monitor_rects [⟨0, 0, 400, 300⟩, ⟨400, 0, 400, 300⟩]]) ∧
    ∀ m ∈ ([MouseOp.add_monitor ⟨800, 0, 800, 600⟩ 2,
        MouseOp.monitor_focus_by_index 1 ⟨true, 399, 299⟩,
        MouseOp.move_monitor_command ["move_monitor", "0", "800x600+0+0"],
        MouseOp.set_monitor_rects [⟨0, 0, 400, 300⟩, ⟨400, 0, 400, 300⟩]].foldl
      (run_mouse_op example_env)
      (example_state [example_monitor 1 ⟨0, 0, 800, 600⟩])).g_monitors, m.mouse_in_rect :=
  ⟨⟨by decide, by decide⟩,
    (mouse_offset_invariant example_env
      [MouseOp.add_monitor ⟨800, 0, 800, 600⟩ 2,
        MouseOp.monitor_focus_by_index 1 ⟨true, 399, 299⟩,
        MouseOp.move_monitor_command ["move_monitor", "0", "800x600+0+0"],
        MouseOp.set_monitor_rects [⟨0, 0, 400, 300⟩, ⟨400, 0, 400, 300⟩]]
      (example_state [example_monitor 1 ⟨0, 0, 800, 600⟩]) (by decide) (by decide)).1⟩

/-! ## The command `monitor_rect` -/

theorem monitor_rect_command_print_index (sscanf_d : String → Option Int) (s : State)
    (str : String) (with_pad : Bool) (i : Int) (m : HSMonitor)
    (hi : sscanf_d str = some i) (hm : s.monitor i = some m) :
    monitor_rect_command.print sscanf_d s (some str) with_pad =
      (Status.HERBST_SUCCESS,
        some (if with_pad then
          printf_d4 (toShort (m.rect.x + m.pad_left)) (toShort (m.rect.y + m.pad_up))
            (toUShort (m.rect.width - (m.pad_left + m.pad_right)))
            (toUShort (m.rect.height - (m.pad_up + m.pad_down)))
        else printf_d4 m.rect.x m.rect.y m.rect.width m.rect.height)) := by
  have h0 := State.monitor_nonneg s i m hm
  have hlt : i.toNat < s.g_monitors.length := by
    by_contra hc
    have := List.getElem?_eq_none_iff.mpr (Nat.le_of_not_lt hc)
    rw [this] at h0
    exact absurd h0.2 (by simp)
  have hw : monitor_with_index s i = some i := by
    unfold monitor_with_index
    rw [if_neg (by omega)]
  unfold monitor_rect_command.print
  simp only [hi, hw, hm]
  cases with_pad <;> rfl

theorem monitor_rect_command_print_current (sscanf_d : String → Option Int) (s : State)
    (index_str : Option String) (with_pad : Bool) (m : HSMonitor)
    (hi : ∀ str, index_str = some str → sscanf_d str = none)
    (hm : s.monitor s.g_cur_monitor = some m) :
    monitor_rect_command.print sscanf_d s index_str with_pad =
      (Status.HERBST_SUCCESS,
        some (if with_pad then
          printf_d4 (toShort (m.rect.x + m.pad_left)) (toShort (m.rect.y + m.pad_up))
            (toUShort (m.rect.width - (m.pad_left + m.pad_right)))
            (toUShort (m.rect.height - (m.pad_up + m.pad_down)))
        else printf_d4 m.rect.x m.rect.y m.rect.width m.rect.height)) := by
  unfold monitor_rect_command.print
  cases index_str with
  | none =>
    simp only [get_current_monitor, hm]
    cases with_pad <;> rfl
  | some str =>
    simp only [hi str rfl, get_current_monitor, hm]
    cases with_pad <;> rfl

theorem monitor_rect_command_print_invalid (sscanf_d : String → Option Int) (s : State)
    (str : String) (with_pad : Bool) (i : Int)
    (hi : sscanf_d str = some i) (hm : i < 0 ∨ i ≥ s.g_monitors.length) :
    monitor_rect_command.print sscanf_d s (some str) with_pad =
      (Status.HERBST_INVALID_ARGUMENT, none) := by
  have hw : monitor_with_index s i = none := by
    unfold monitor_with_index
    rw [if_pos hm]
  unfold monitor_rect_command.print
  simp only [hi, hw]

/-- The command `monitor_rect -p`, without an index, prints the rectangle without the
pads: with two arguments `-p` is taken for the index, `sscanf` reads no number from it,
and `with_pad` stays false. On the current monitor `100x100+0+0` with all four pads 10
the text is `0 0 100 100`, not `10 10 80 80`. And the padded width and height are stored
into `unsigned short`s: with the pads 60 the command `monitor_rect -p 0` prints the width
`65516`, not `-20`. -/
theorem monitor_rect_p_without_index :
    monitor_rect_command example_sscanf_d
      (example_state [{ example_monitor 1 ⟨0, 0, 100, 100⟩ with
        pad_up := 10, pad_right := 10, pad_down := 10, pad_left := 10 }])
      ["monitor_rect", "-p"] = (Status.HERBST_SUCCESS, some "0 0 100 100") ∧
    monitor_rect_command example_sscanf_d
      (example_state [{ example_monitor 1 ⟨0, 0, 100, 100⟩ with
        pad_up := 60, pad_right := 60, pad_down := 60, pad_left := 60 }])
      ["monitor_rect", "-p", "0"] = (Status.HERBST_SUCCESS, some "60 60 65516 65516") := by
  decide

/-- C14 (amended): `monitor_rect -p INDEX` prints `X Y W H` with `X = rect.x + pad_left`,
`Y = rect.y + pad_up`, `W = rect.width - pad_left - pad_right` and
`H = rect.height - pad_up - pad_down` of the monitor `INDEX`, `X` and `Y` stored as
`short` and `W` and `H` as `unsigned short` (so these very numbers when they are in
range); of the current monitor when `INDEX` is not a number, and `HERBST_INVALID_ARGUMENT`
when `INDEX` is a number that is no index of the registry. With at most one argument
(`monitor_rect`, `monitor_rect INDEX`, also `monitor_rect -p`) the unpadded rectangle of
the monitor `INDEX`, or of the current monitor, is printed. For a monitor 0 with the
rectangle `100x100+0+0` and all four pads 10, `monitor_rect -p 0` prints
`10 10 80 80`. -/
theorem monitor_rect_command_output (sscanf_d : String → Option Int) (s : State)
    (argv : List String) (i : Int) (m : HSMonitor) :
    (2 < argv.length → argv.getD 1 "" = "-p" → sscanf_d (argv.getD 2 "") = some i →
      s.monitor i = some m →
      monitor_rect_command sscanf_d s argv =
        (Status.HERBST_SUCCESS,
          some (printf_d4 (toShort (m.rect.x + m.pad_left)) (toShort (m.rect.y + m.pad_up))
            (toUShort (m.rect.width - (m.pad_left + m.pad_right)))
            (toUShort (m.rect.height - (m.pad_up + m.pad_down)))))) ∧
    (2 < argv.length → argv.getD 1 "" = "-p" → sscanf_d (argv.getD 2 "") = none →
      s.monitor s.g_cur_monitor = some m →
      monitor_rect_command sscanf_d s argv =
        (Status.HERBST_SUCCESS,
          some (printf_d4 (toShort (m.rect.x + m.pad_left)) (toShort (m.rect.y + m.pad_up))
            (toUShort (m.rect.width - (m.pad_left + m.pad_right)))
            (toUShort (m.rect.height - (m.pad_up + m.pad_down)))))) ∧
    ((-32768 ≤ m.rect.x + m.pad_left ∧ m.rect.x + m.pad_left ≤ 32767) →
      (-32768 ≤ m.rect.y + m.pad_up ∧ m.rect.y + m.pad_up ≤ 32767) →
      (0 ≤ m.rect.width - m.pad_left - m.pad_right ∧
        m.rect.width - m.pad_left - m.pad_right ≤ 65535) →
      (0 ≤ m.rect.height - m.pad_up - m.pad_down ∧
        m.rect.height - m.pad_up - m.pad_down ≤ 65535) →
      printf_d4 (toShort (m.rect.x + m.pad_left)) (toShort (m.rect.y + m.pad_up))
          (toUShort (m.rect.width - (m.pad_left + m.pad_right)))
          (toUShort (m.rect.height - (m.pad_up + m.pad_down))) =
        printf_d4 (m.rect.x + m.pad_left) (m.rect.y + m.pad_up)
          (m.rect.width - m.pad_left - m.pad_right)
          (m.rect.height - m.pad_up - m.pad_down)) ∧
    (argv.length = 2 → sscanf_d (argv.getD 1 "") = some i → s.monitor i = some m →
      monitor_rect_command sscanf_d s argv =
        (Status.HERBST_SUCCESS,
          some (printf_d4 m.rect.x m.rect.y m.rect.width m.rect.height))) ∧
    (argv.length ≤ 2 → (argv.length = 2 → sscanf_d (argv.getD 1 "") = none) →
      s.monitor s.g_cur_monitor = some m →
      monitor_rect_command sscanf_d s argv =
        (Status.HERBST_SUCCESS,
          some (printf_d4 m.rect.x m.rect.y m.rect.width m.rect.height))) ∧
    (2 ≤ argv.length → sscanf_d (argv.getD (argv.length - 1) "") = some i →
      argv.length ≤ 3 → (i < 0 ∨ i ≥ s.g_monitors.length) →
      (monitor_rect_command sscanf_d s argv).1 = Status.HERBST_INVALID_ARGUMENT) ∧
    (2 < argv.length → argv.getD 1 "" ≠ "-p" →
      monitor_rect_command sscanf_d s argv = (Status.HERBST_INVALID_ARGUMENT, none)) ∧
    monitor_rect_command example_sscanf_d
      (example_state [{ example_monitor 1 ⟨0, 0, 100, 100⟩ with
        pad_up := 10, pad_right := 10, pad_down := 10, pad_left := 10 }])
      ["monitor_rect", "-p", "0"] = (Status.HERBST_SUCCESS, some "10 10 80 80") := by
  refine ⟨?_, ?_, ?_, ?_, ?_, ?_, ?_, by decide⟩
  · intro h1 h2 h3 h4
    have hb : argv.length > 2 := h1
    unfold monitor_rect_command
    simp only
    rw [if_pos hb, if_pos h2,
      monitor_rect_command_print_index sscanf_d s _ true i m h3 h4]
    rfl
  · intro h1 h2 h3 h4
    have hb : argv.length > 2 := h1
    unfold monitor_rect_command
    simp only
    rw [if_pos hb, if_pos h2,
      monitor_rect_command_print_current sscanf_d s _ true m
        (fun str hs => by rw [← Option.some.inj hs]; exact h3) h4]
    rfl
  · intro h1 h2 h3 h4
    rw [toShort_eq _ h1.1 h1.2, toShort_eq _ h2.1 h2.2,
      toUShort_eq _ (by omega) (by omega), toUShort_eq _ (by omega) (by omega)]
    have e1 : m.rect.width - (m.pad_left + m.pad_right) =
        m.rect.width - m.pad_left - m.pad_right := by omega
    have e2 : m.rect.height - (m.pad_up + m.pad_down) =
        m.rect.height - m.pad_up - m.pad_down := by omega
    rw [e1, e2]
  · intro h1 h3 h4
    have ha : argv.length > 1 := by omega
    have hb : ¬ argv.length > 2 := by omega
    unfold monitor_rect_command
    simp only
    rw [if_neg hb, if_pos ha,
      monitor_rect_command_print_index sscanf_d s _ false i m h3 h4]
    rfl
  · intro h1 h3 h4
    have hb : ¬ argv.length > 2 := by omega
    unfold monitor_rect_command
    simp only
    rw [if_neg hb]
    rw [monitor_rect_command_print_current sscanf_d s _ false m ?_ h4]
    · rfl
    · intro str hs
      by_cases h2 : argv.length > 1
      · rw [if_pos h2] at hs
        rw [← Option.some.inj hs]
        exact h3 (by omega)
      · rw [if_neg h2] at hs
        exact absurd hs (by simp)
  · intro h1 h3 h4 h5
    unfold monitor_rect_command
    simp only
    by_cases h2 : argv.length > 2
    · have e : argv.length - 1 = 2 := by omega
      rw [e] at h3
      rw [if_pos h2]
      split
      · rw [monitor_rect_command_print_invalid sscanf_d s _ true i h3 h5]
      · rfl
    · have e : argv.length - 1 = 1 := by omega
      rw [e] at h3
      have ha : argv.length > 1 := by omega
      rw [if_neg h2, if_pos ha,
        monitor_rect_command_print_invalid sscanf_d s _ false i h3 h5]
  · intro h1 h2
    have hb : argv.length > 2 := h1
    unfold monitor_rect_command
    simp only
    rw [if_pos hb, if_neg h2]

theorem monitor_rect_command_output_witness :
    (((2 < ["monitor_rect", "-p", "1"].length ∧ ["monitor_rect", "-p", "1"].getD 1 "" = "-p") ∧
      example_sscanf_d (["monitor_rect", "-p", "1"].getD 2 "") = some 1 ∧
      (example_state [example_monitor 1 ⟨0, 0, 800, 600⟩,
        { example_monitor 2 ⟨800, 0, 100, 100⟩ with
          pad_up := 10, pad_right := 10, pad_down := 10, pad_left := 10 }]).monitor 1 =
        some { example_monitor 2 ⟨800, 0, 100, 100⟩ with
          pad_up := 10, pad_right := 10, pad_down := 10, pad_left := 10 }) ∧
    monitor_rect_command example_sscanf_d
      (example_state [example_monitor 1 ⟨0, 0, 800, 600⟩,
        { example_monitor 2 ⟨800, 0, 100, 100⟩ with
          pad_up := 10, pad_right := 10, pad_down := 10, pad_left := 10 }])
      ["monitor_rect", "-p", "1"] =
      (Status.HERBST_SUCCESS,
        some (printf_d4
          (toShort ((⟨800, 0, 100, 100⟩ : XRectangle).x + 10))
          (toShort ((⟨800, 0, 100, 100⟩ : XRectangle).y + 10))
          (toUShort ((⟨800, 0, 100, 100⟩ : XRectangle).width - (10 + 10)))
          (toUShort ((⟨800, 0, 100, 100⟩ : XRectangle).height - (10 + 10)))))) :=
  ⟨⟨⟨by decide, by decide⟩, by decide, by decide⟩,
    (monitor_rect_command_output example_sscanf_d
      (example_state [example_monitor 1 ⟨0, 0, 800, 600⟩,
        { example_monitor 2 ⟨800, 0, 100, 100⟩ with
          pad_up := 10, pad_right := 10, pad_down := 10, pad_left := 10 }])
      ["monitor_rect", "-p", "1"] 1
      { example_monitor 2 ⟨800, 0, 100, 100⟩ with
        pad_up := 10, pad_right := 10, pad_down := 10, pad_left := 10 }).1
      (by decide) (by decide) (by decide) (by decide)⟩

/-! ## Tag uniqueness -/

theorem tags_modify (l : List HSMonitor) (f : HSMonitor → HSMonitor) (n : Nat)
    (hf : ∀ m, (f m).tag = m.tag) :
    (l.modify f n).map (fun m => m.tag) = l.map (fun m => m.tag) :=
  map_modify_absorb (fun m : HSMonitor => m.tag) f hf l n

theorem State.update_monitor_tags (s : State) (p : Int) (f : HSMonitor → HSMonitor)
    (hf : ∀ m, (f m).tag = m.tag) : (s.update_monitor p f).tags = s.tags := by
  unfold State.update_monitor State.tags
  split
  · rfl
  · exact map_modify_absorb (fun m : HSMonitor => m.tag) f hf _ _

theorem monitor_apply_layout_tags (env : Env) (s : State) (monitor : Option Int) :
    (monitor_apply_layout env s monitor).tags = s.tags := by
  cases monitor with
  | none => rfl
  | some p =>
    cases hm : s.monitor p with
    | none => rw [monitor_apply_layout_none env s p hm]
    | some m =>
      rw [monitor_apply_layout_eq env s p m hm]
      unfold State.tags
      split
      · apply tags_modify
        intro m
        rfl
      · apply tags_modify
        intro m
        rfl

theorem State.call_tags (s : State) (c : Call) : (s.call c).tags = s.tags := rfl

theorem set_pads_tags (env : Env) (s : State) (monitor : Int) (argv : List String)
    (k : Nat) : (set_pads env s monitor argv k).tags = s.tags := by
  unfold set_pads
  simp only
  split <;> split <;> split <;> split <;>
    first
      | rfl
      | (repeat (rw [State.update_monitor_tags])
         all_goals (intro m; rfl))

theorem add_monitor_tags (s : State) (rect : XRectangle) (tag : Nat) :
    (add_monitor s rect tag).1.tags = s.tags ++ [tag] := by
  simp [add_monitor, State.tags]

theorem find_monitor_with_tag_none (s : State) (tag : Nat) :
    (find_monitor_with_tag s tag).isSome = false ↔ tag ∉ s.tags := by
  have h := find_monitor_with_tag_isSome s tag
  unfold State.tags
  rw [List.mem_map]
  constructor
  · intro h1 h2
    rw [h.mpr h2] at h1
    exact absurd h1 (by simp)
  · intro h1
    cases hc : (find_monitor_with_tag s tag).isSome with
    | false => rfl
    | true => exact absurd (h.mp hc) h1

theorem find_monitor_with_tag_loop_some (tag : Nat) :
    ∀ (l : List HSMonitor) (i o : Int), find_monitor_with_tag.loop tag l i = some o →
      i ≤ o ∧ (l.map (fun m => m.tag))[(o - i).toNat]? = some tag := by
  intro l
  induction l with
  | nil => intro i o h; simp [find_monitor_with_tag.loop] at h
  | cons m ms ih =>
    intro i o h
    unfold find_monitor_with_tag.loop at h
    by_cases hm : m.tag = tag
    · rw [if_pos hm] at h
      have : o = i := (Option.some.inj h).symm
      subst this
      simp [hm]
    · rw [if_neg hm] at h
      obtain ⟨h1, h2⟩ := ih (i + 1) o h
      refine ⟨by omega, ?_⟩
      have e : (o - i).toNat = (o - (i + 1)).toNat + 1 := by omega
      rw [e]
      simpa using h2

theorem find_monitor_with_tag_some (s : State) (tag : Nat) (o : Int)
    (h : find_monitor_with_tag s tag = some o) : 0 ≤ o ∧ s.tags[o.toNat]? = some tag := by
  have := find_monitor_with_tag_loop_some tag s.g_monitors 0 o h
  simpa [State.tags] using this

theorem State.update_monitor_set_tag (s : State) (p : Int) (t : Nat) (hp : 0 ≤ p) :
    (s.update_monitor p (fun m => { m with tag := t })).tags = s.tags.set p.toNat t := by
  rw [State.update_monitor_eq _ _ _ hp]
  unfold State.tags
  apply List.ext_getElem?
  intro i
  rw [List.getElem?_map, List.getElem?_modify, List.getElem?_set, List.getElem?_map,
    List.length_map]
  by_cases hi : p.toNat = i
  · subst hi
    by_cases hl : p.toNat < s.g_monitors.length
    · rw [List.getElem?_eq_getElem hl]
      simp [hl]
    · rw [List.getElem?_eq_none_iff.mpr (by omega)]
      simp [hl]
  · cases s.g_monitors[i]? <;> simp [hi]

theorem State.monitor_tags (s : State) (p : Int) (m : HSMonitor) (h : s.monitor p = some m) :
    0 ≤ p ∧ p.toNat < s.tags.length ∧ s.tags[p.toNat]? = some m.tag := by
  have h0 := State.monitor_nonneg s p m h
  have hlt : p.toNat < s.g_monitors.length := by
    by_contra hc
    have := List.getElem?_eq_none_iff.mpr (Nat.le_of_not_lt hc)
    rw [this] at h0
    exact absurd h0.2 (by simp)
  refine ⟨h0.1, by simpa [State.tags] using hlt, ?_⟩
  unfold State.tags
  rw [List.getElem?_map, h0.2]
  rfl

theorem nodup_getElem?_ne {α : Type} (l : List α) (h : l.Nodup) (i j : Nat) (hij : i ≠ j)
    (hi : i < l.length) (hj : j < l.length) : l[i]? ≠ l[j]? := by
  have h1 := List.nodup_iff_getElem?_ne_getElem?.mp h
  by_cases hlt : i < j
  · exact h1 i j hlt hj
  · exact fun e => h1 j i (by omega) hi e.symm

/-- Exchanging two elements of a list without duplicates leaves no duplicates. -/
theorem nodup_set_set {α : Type} (l : List α) (h : l.Nodup) (a b : Nat) (x y : α)
    (ha : l[a]? = some x) (hb : l[b]? = some y) :
    ((l.set a y).set b x).Nodup := by
  have hal : a < l.length := by
    by_contra hc
    rw [List.getElem?_eq_none_iff.mpr (by omega)] at ha
    exact absurd ha (by simp)
  have hbl : b < l.length := by
    by_contra hc
    rw [List.getElem?_eq_none_iff.mpr (by omega)] at hb
    exact absurd hb (by simp)
  have hget : ∀ i, ((l.set a y).set b x)[i]? =
      l[if b = i then a else if a = i then b else i]? := by
    intro i
    rw [List.getElem?_set, List.getElem?_set, List.length_set]
    by_cases h1 : b = i
    · rw [if_pos h1, if_pos h1, if_pos hbl, ha]
    · rw [if_neg h1, if_neg h1]
      by_cases h2 : a = i
      · rw [if_pos h2, if_pos h2, if_pos hal, hb]
      · rw [if_neg h2, if_neg h2]
  rw [List.nodup_iff_getElem?_ne_getElem?]
  intro i j hij hj
  rw [List.length_set, List.length_set] at hj
  rw [hget, hget]
  apply nodup_getElem?_ne l h
  · split <;> split <;> (try split) <;> (try split) <;> omega
  · split <;> (try split) <;> omega
  · split <;> (try split) <;> omega

theorem remove_monitor_tags (env : Env) (s : State) (index : Int) :
    (remove_monitor env s index).2.tags.Sublist s.tags := by
  unfold remove_monitor
  split
  · exact List.Sublist.refl _
  · split
    · exact List.Sublist.refl _
    · split
      · exact List.Sublist.refl _
      · have hs : ((s.g_monitors.eraseIdx index.toNat).map (fun m => m.tag)).Sublist
            s.tags := List.Sublist.map _ (List.eraseIdx_sublist _ _)
        simp only
        split <;> split <;> (try rw [monitor_apply_layout_tags]) <;> exact hs

theorem all_monitors_apply_layout_tags (env : Env) (s : State) :
    (all_monitors_apply_layout env s).tags = s.tags := by
  unfold all_monitors_apply_layout
  generalize List.range s.g_monitors.length = l
  induction l generalizing s with
  | nil => rfl
  | cons a l ih =>
    rw [List.foldl_cons, ih, monitor_apply_layout_tags]

theorem set_monitor_rects_loop_rects_tags :
    ∀ (ts : List XRectangle) (s : State) (i : Int),
      (set_monitor_rects.loop_rects s ts i).1.tags = s.tags := by
  intro ts
  induction ts with
  | nil => intro s i; rfl
  | cons t ts ih =>
    intro s i
    unfold set_monitor_rects.loop_rects
    split
    · split
      · rfl
      · rw [ih, State.update_monitor_tags]
        intro m
        rfl
    · rfl

theorem set_monitor_rects_loop_add_tags :
    ∀ (ts : List XRectangle) (s : State) (i : Int), s.tags.Nodup →
      match set_monitor_rects.loop_add s ts i with
      | Except.error s1 => s1.tags.Nodup
      | Except.ok (s1, _) => s1.tags.Nodup := by
  intro ts
  induction ts with
  | nil => intro s i h; exact h
  | cons t ts ih =>
    intro s i h
    cases hf : find_unused_tag s with
    | none =>
      simp only [set_monitor_rects.loop_add, hf]
      exact h
    | some tag =>
      simp only [set_monitor_rects.loop_add, hf]
      apply ih
      rw [State.call_tags, add_monitor_tags]
      have hun : tag ∉ s.tags := by
        apply (find_monitor_with_tag_none s tag).mp
        have := List.find?_some hf
        simpa using this
      rw [List.nodup_append]
      refine ⟨h, List.nodup_singleton _, ?_⟩
      intro a ha hb
      rw [List.mem_singleton] at hb
      exact hun (hb ▸ ha)

theorem set_monitor_rects_loop_remove_tags (env : Env) :
    ∀ (n : Nat) (s : State) (i : Int), s.tags.Nodup →
      (set_monitor_rects.loop_remove env n s i).tags.Nodup := by
  intro n
  induction n with
  | zero => intro s i h; exact h
  | succ n ih =>
    intro s i h
    unfold set_monitor_rects.loop_remove
    split
    · exact ih _ _ (List.Nodup.sublist (remove_monitor_tags env s i) h)
    · exact h

theorem add_monitor_command_tags (env : Env) (s : State) (argv : List String)
    (h : s.tags.Nodup) : (add_monitor_command env s argv).2.tags.Nodup := by
  unfold add_monitor_command
  simp only
  split
  · exact h
  · split
    · exact h
    · rename_i tag _
      split
      · exact h
      · rename_i hfree
        simp only [State.call_tags, monitor_apply_layout_tags, set_pads_tags,
          add_monitor_tags]
        have hun : tag ∉ s.tags :=
          (find_monitor_with_tag_none s tag).mp (by simpa using hfree)
        rw [List.nodup_append]
        refine ⟨h, List.nodup_singleton _, ?_⟩
        intro a ha hb
        rw [List.mem_singleton] at hb
        exact hun (hb ▸ ha)

theorem set_monitor_rects_tags (env : Env) (s : State) (templates : List XRectangle)
    (h : s.tags.Nodup) : (set_monitor_rects env s templates).2.tags.Nodup := by
  unfold set_monitor_rects
  split
  · exact h
  · have h1 := set_monitor_rects_loop_rects_tags templates s 0
    generalize set_monitor_rects.loop_rects s templates 0 = r at h1
    obtain ⟨s1, i, rest⟩ := r
    simp only at h1 ⊢
    have hs1 : s1.tags.Nodup := by rw [h1]; exact h
    have h2 := set_monitor_rects_loop_add_tags rest s1 i hs1
    split
    · rename_i s2 heq
      rw [heq] at h2
      exact h2
    · rename_i s2 i2 heq
      rw [heq] at h2
      simp only at h2 ⊢
      rw [all_monitors_apply_layout_tags]
      exact set_monitor_rects_loop_remove_tags env _ s2 i2 h2

theorem ensure_monitors_are_available_tags (s : State) (display_width display_height : Int)
    (ensure_tags_are_available : List Nat → List Nat) (h : s.tags.Nodup) :
    (ensure_monitors_are_available s display_width display_height
      ensure_tags_are_available).tags.Nodup := by
  unfold ensure_monitors_are_available
  split
  · exact h
  · rename_i hlen
    have hnil : s.g_monitors = [] := by
      cases hg : s.g_monitors with
      | nil => rfl
      | cons a l => rw [hg] at hlen; simp at hlen
    simp only
    split
    · exact h
    · simp [State.tags, add_monitor, hnil]

/-- What `monitor_set_tag` does to the tags of the monitors, in its three cases. -/
theorem monitor_set_tag_tags (env : Env) (s : State) (monitor : Int) (tag : Nat)
    (mon : HSMonitor) (hmon : s.monitor monitor = some mon) :
    (find_monitor_with_tag s tag = none →
      (monitor_set_tag env s monitor tag).tags = s.tags.set monitor.toNat tag) ∧
    (∀ o, find_monitor_with_tag s tag = some o → o ≠ monitor →
      s.g_swap_monitors_to_get_tag ≠ 0 →
      (monitor_set_tag env s monitor tag).tags =
        (s.tags.set o.toNat mon.tag).set monitor.toNat tag) ∧
    (∀ o, find_monitor_with_tag s tag = some o → o ≠ monitor →
      s.g_swap_monitors_to_get_tag = 0 → monitor_set_tag env s monitor tag = s) ∧
    (find_monitor_with_tag s tag = some monitor → monitor_set_tag env s monitor tag = s) := by
  have hp := (State.monitor_nonneg s monitor mon hmon).1
  refine ⟨?_, ?_, ?_, ?_⟩
  · intro hf
    unfold monitor_set_tag
    simp only [hf, hmon]
    rw [if_neg (by simp)]
    simp only [State.call_tags, monitor_apply_layout_tags]
    exact State.update_monitor_set_tag s monitor tag hp
  · intro o hf hne hswap
    have ho := (find_monitor_with_tag_some s tag o hf).1
    unfold monitor_set_tag
    simp only [hf, hmon]
    rw [if_neg (by intro e; exact hne (Option.some.inj e).symm), if_pos hswap]
    simp only [State.call_tags, monitor_apply_layout_tags]
    rw [State.update_monitor_set_tag _ monitor tag hp,
      State.update_monitor_set_tag s o mon.tag ho]
  · intro o hf hne hswap
    unfold monitor_set_tag
    simp only [hf, hmon]
    rw [if_neg (by intro e; exact hne (Option.some.inj e).symm), if_neg (by simp [hswap])]
  · intro hf
    unfold monitor_set_tag
    simp only [hf, if_true]

theorem monitor_set_tag_nodup (env : Env) (s : State) (monitor : Int) (tag : Nat)
    (h : s.tags.Nodup) : (monitor_set_tag env s monitor tag).tags.Nodup := by
  cases hmon : s.monitor monitor with
  | none =>
    have : monitor_set_tag env s monitor tag = s := by
      unfold monitor_set_tag
      simp only [hmon]
      split <;> rfl
    rw [this]
    exact h
  | some mon =>
    obtain ⟨h1, h2, h3, h4⟩ := monitor_set_tag_tags env s monitor tag mon hmon
    have hmt := State.monitor_tags s monitor mon hmon
    cases hf : find_monitor_with_tag s tag with
    | none =>
      rw [h1 hf]
      exact List.Nodup.set h ((find_monitor_with_tag_none s tag).mp (by simp [hf]))
    | some o =>
      by_cases hne : o = monitor
      · rw [h4 (by rw [hf, hne])]
        exact h
      · by_cases hswap : s.g_swap_monitors_to_get_tag = 0
        · rw [h3 o hf hne hswap]
          exact h
        · rw [h2 o hf hne hswap]
          exact nodup_set_set s.tags h o.toNat monitor.toNat tag mon.tag
            (find_monitor_with_tag_some s tag o hf).2 hmt.2.2

/-- C11: tag uniqueness. If no two monitors of the registry are bound to the same tag,
then this still holds after the `add_monitor` command, `set_monitor_rects`,
`remove_monitor`, `ensure_monitors_are_available` and `monitor_set_tag`, with any
arguments, whether the operation succeeds or is rejected. For `monitor_set_tag` on a
monitor of the registry the three cases are: the tag is bound to no monitor, and the
monitor gets it; the tag is bound to another monitor and swapping is enabled, and the
two monitors exchange their tags; the tag is bound to another monitor and swapping is
disabled, and nothing changes. -/
theorem tag_uniqueness (env : Env) (s : State) (h : s.tags.Nodup) :
    (∀ argv, (add_monitor_command env s argv).2.tags.Nodup) ∧
    (∀ templates, (set_monitor_rects env s templates).2.tags.Nodup) ∧
    (∀ index, (remove_monitor env s index).2.tags.Nodup) ∧
    (∀ display_width display_height ensure_tags_are_available,
      (ensure_monitors_are_available s display_width display_height
        ensure_tags_are_available).tags.Nodup) ∧
    (∀ monitor tag, (monitor_set_tag env s monitor tag).tags.Nodup) ∧
    (∀ monitor tag mon, s.monitor monitor = some mon →
      (find_monitor_with_tag s tag = none →
        (monitor_set_tag env s monitor tag).tags = s.tags.set monitor.toNat tag) ∧
      (∀ o, find_monitor_with_tag s tag = some o → o ≠ monitor →
        s.g_swap_monitors_to_get_tag ≠ 0 →
        (monitor_set_tag env s monitor tag).tags =
          (s.tags.set o.toNat mon.tag).set monitor.toNat tag) ∧
      (∀ o, find_monitor_with_tag s tag = some o → o ≠ monitor →
        s.g_swap_monitors_to_get_tag = 0 → monitor_set_tag env s monitor tag = s)) :=
  ⟨fun argv => add_monitor_command_tags env s argv h,
    fun templates => set_monitor_rects_tags env s templates h,
    fun index => List.Nodup.sublist (remove_monitor_tags env s index) h,
    fun w ht f => ensure_monitors_are_available_tags s w ht f h,
    fun monitor tag => monitor_set_tag_nodup env s monitor tag h,
    fun monitor tag mon hmon =>
      ⟨(monitor_set_tag_tags env s monitor tag mon hmon).1,
        (monitor_set_tag_tags env s monitor tag mon hmon).2.1,
        (monitor_set_tag_tags env s monitor tag mon hmon).2.2.1⟩⟩

theorem tag_uniqueness_witness :
    (example_state [example_monitor 1 ⟨0, 0, 800, 600⟩,
      example_monitor 2 ⟨800, 0, 800, 600⟩]).tags.Nodup ∧
    (monitor_set_tag example_env
      { example_state [example_monitor 1 ⟨0, 0, 800, 600⟩,
          example_monitor 2 ⟨800, 0, 800, 600⟩] with g_swap_monitors_to_get_tag := 1 }
      0 2).tags.Nodup ∧
    (monitor_set_tag example_env
      { example_state [example_monitor 1 ⟨0, 0, 800, 600⟩,
          example_monitor 2 ⟨800, 0, 800, 600⟩] with g_swap_monitors_to_get_tag := 1 }
      0 2).tags = [2, 1] :=
  ⟨by decide,
    (tag_uniqueness example_env
      { example_state [example_monitor 1 ⟨0, 0, 800, 600⟩,
          example_monitor 2 ⟨800, 0, 800, 600⟩] with g_swap_monitors_to_get_tag := 1 }
      (by decide)).2.2.2.2.1 0 2,
    by decide⟩

/-! ## Lookup by coordinate -/

/-- Where none of its `int` operations overflows, the test of `monitor_with_coordinate`
is the containment in the padded rectangle. -/
theorem monitor_with_coordinate_loop_cons (x y : Int) (m : HSMonitor) (ms : List HSMonitor)
    (i : Int) (hm : m.padded_in_int) :
    monitor_with_coordinate.loop x y (m :: ms) i =
      if m.padded_contains x y then some i
      else monitor_with_coordinate.loop x y ms (i + 1) := by
  obtain ⟨h1, h2, h3, h4, h5, h6⟩ := hm
  have e : monitor_with_coordinate.loop x y (m :: ms) i =
      if toInt (m.rect.x + m.pad_left) ≤ x ∧
          toInt (toInt (m.rect.x + m.rect.width) - m.pad_right) > x ∧
          toInt (m.rect.y + m.pad_up) ≤ y ∧
          toInt (toInt (m.rect.y + m.rect.height) - m.pad_down) > y then
        some i
      else monitor_with_coordinate.loop x y ms (i + 1) := rfl
  rw [e, toInt_eq _ h1, toInt_eq _ h2, toInt_eq _ h3, toInt_eq _ h4, toInt_eq _ h5,
    toInt_eq _ h6]
  unfold HSMonitor.padded_contains
  by_cases hc : m.rect.x + m.pad_left ≤ x ∧ x < m.rect.x + m.rect.width - m.pad_right ∧
      m.rect.y + m.pad_up ≤ y ∧ y < m.rect.y + m.rect.height - m.pad_down
  · rw [if_pos hc]
  · rw [if_neg hc]

theorem monitor_with_coordinate_loop_some (x y : Int) :
    ∀ (l : List HSMonitor) (i0 r : Int), (∀ m ∈ l, m.padded_in_int) →
      (monitor_with_coordinate.loop x y l i0 = some r ↔
        ∃ (k : Nat) (m : HSMonitor), r = i0 + k ∧ l[k]? = some m ∧ m.padded_contains x y ∧
          ∀ j, j < k → ∀ mj, l[j]? = some mj → ¬ mj.padded_contains x y) := by
  intro l
  induction l with
  | nil =>
    intro i0 r _
    simp [monitor_with_coordinate.loop]
  | cons a l ih =>
    intro i0 r hl
    rw [monitor_with_coordinate_loop_cons x y a l i0 (hl a (List.mem_cons_self _ _))]
    have ih1 := ih (i0 + 1) r (fun m hm => hl m (List.mem_cons_of_mem _ hm))
    by_cases hc : a.padded_contains x y
    · rw [if_pos hc]
      constructor
      · intro h
        rw [Option.some.injEq] at h
        exact ⟨0, a, by simp [h], by simp, hc, by intro j hj; omega⟩
      · rintro ⟨k, m, hr, _, _, hmin⟩
        cases k with
        | zero => simp [hr]
        | succ k => exact absurd hc (hmin 0 (by omega) a (by simp))
    · rw [if_neg hc, ih1]
      constructor
      · rintro ⟨k, m, hr, hk, hm, hmin⟩
        refine ⟨k + 1, m, by rw [hr]; push_cast; ring, by simpa using hk, hm, ?_⟩
        intro j hj mj hmj
        cases j with
        | zero =>
          simp only [List.getElem?_cons_zero, Option.some.injEq] at hmj
          subst hmj; exact hc
        | succ j => exact hmin j (by omega) mj (by simpa using hmj)
      · rintro ⟨k, m, hr, hk, hm, hmin⟩
        cases k with
        | zero =>
          simp only [List.getElem?_cons_zero, Option.some.injEq] at hk
          subst hk; exact absurd hm hc
        | succ k =>
          refine ⟨k, m, by rw [hr]; push_cast; ring, by simpa using hk, hm, ?_⟩
          intro j hj mj hmj
          exact hmin (j + 1) (by omega) mj (by simpa using hmj)

theorem monitor_with_coordinate_loop_none (x y : Int) :
    ∀ (l : List HSMonitor) (i0 : Int), (∀ m ∈ l, m.padded_in_int) →
      (monitor_with_coordinate.loop x y l i0 = none ↔
        ∀ m ∈ l, ¬ m.padded_contains x y) := by
  intro l
  induction l with
  | nil => intro i0 _; simp [monitor_with_coordinate.loop]
  | cons a l ih =>
    intro i0 hl
    rw [monitor_with_coordinate_loop_cons x y a l i0 (hl a (List.mem_cons_self _ _))]
    have ih1 := ih (i0 + 1) (fun m hm => hl m (List.mem_cons_of_mem _ hm))
    by_cases hc : a.padded_contains x y
    · rw [if_pos hc]
      simp only [List.mem_cons, forall_eq_or_imp]
      constructor
      · intro h; simp at h
      · intro h; exact absurd hc h.1
    · rw [if_neg hc, ih1]
      simp [hc]

/-- With a padding near `INT_MAX` the `int` sum `rect.x + pad_left` overflows: for the
monitor `800x600+1+0` with `pad_left = 2147483647` the sum wraps to `INT_MIN`, so
`monitor_with_coordinate 5 5` returns this monitor although its padded rectangle does
not contain the point (`1 + 2147483647 ≤ 5` is false), and `monitor_get_relative_x` is
negative. -/
theorem monitor_with_coordinate_pad_overflow :
    monitor_with_coordinate
      (example_state [{ example_monitor 1 ⟨1, 0, 800, 600⟩ with pad_left := 2147483647 }])
      5 5 = some 0 ∧
    ¬ HSMonitor.padded_contains
      { example_monitor 1 ⟨1, 0, 800, 600⟩ with pad_left := 2147483647 } 5 5 ∧
    monitor_get_relative_x
      { example_monitor 1 ⟨1, 0, 800, 600⟩ with pad_left := 2147483647 } 5 = -2147483643 := by
  decide

/-- C17 (amended): where the `int` sums of the test do not overflow for any monitor,
`monitor_with_coordinate x y` returns the monitor of least index whose padded rectangle
contains the point (`rect.x + pad_left <= x < rect.x + rect.width - pad_right` and
`rect.y + pad_up <= y < rect.y + rect.height - pad_down`), and `NULL` exactly when no
monitor's padded rectangle contains it; for the monitor `m` it returns, where the
differences `x - rect.x - pad_left` and `y - rect.y - pad_up` do not overflow,
`monitor_get_relative_x m x` lies in `[0, rect.width - pad_left - pad_right)` and
`monitor_get_relative_y m y` in `[0, rect.height - pad_up - pad_down)`. -/
theorem monitor_with_coordinate_first_match (s : State) (x y : Int)
    (hpads : ∀ m ∈ s.g_monitors, m.padded_in_int) :
    (∀ i : Int, monitor_with_coordinate s x y = some i ↔
      ∃ (k : Nat) (m : HSMonitor), i = k ∧ s.g_monitors[k]? = some m ∧
        m.padded_contains x y ∧
        ∀ j, j < k → ∀ mj, s.g_monitors[j]? = some mj → ¬ mj.padded_contains x y) ∧
    (monitor_with_coordinate s x y = none ↔
      ∀ m ∈ s.g_monitors, ¬ m.padded_contains x y) ∧
    (∀ (i : Int) (m : HSMonitor), monitor_with_coordinate s x y = some i →
      s.monitor i = some m → m.relative_in_int x y →
      (monitor_get_relative_x m x = x - m.rect.x - m.pad_left ∧
        monitor_get_relative_y m y = y - m.rect.y - m.pad_up) ∧
      (0 ≤ monitor_get_relative_x m x ∧
        monitor_get_relative_x m x < m.rect.width - m.pad_left - m.pad_right) ∧
      (0 ≤ monitor_get_relative_y m y ∧
        monitor_get_relative_y m y < m.rect.height - m.pad_up - m.pad_down)) := by
  have h1 : ∀ i : Int, monitor_with_coordinate s x y = some i ↔
      ∃ (k : Nat) (m : HSMonitor), i = k ∧ s.g_monitors[k]? = some m ∧
        m.padded_contains x y ∧
        ∀ j, j < k → ∀ mj, s.g_monitors[j]? = some mj → ¬ mj.padded_contains x y := by
    intro i
    unfold monitor_with_coordinate
    rw [monitor_with_coordinate_loop_some x y _ _ _ hpads]
    simp only [zero_add]
  refine ⟨h1, monitor_with_coordinate_loop_none x y s.g_monitors 0 hpads, ?_⟩
  intro i m hi hm hrel
  obtain ⟨k, m1, rfl, hk, hc, _⟩ := (h1 i).mp hi
  unfold State.monitor at hm
  rw [if_neg (by omega)] at hm
  simp only [Int.toNat_ofNat] at hm
  rw [hk, Option.some.injEq] at hm
  subst hm
  obtain ⟨r1, r2, r3, r4⟩ := hrel
  have ex : monitor_get_relative_x m1 x = x - m1.rect.x - m1.pad_left := by
    unfold monitor_get_relative_x
    rw [toInt_eq _ r1, toInt_eq _ r2]
  have ey : monitor_get_relative_y m1 y = y - m1.rect.y - m1.pad_up := by
    unfold monitor_get_relative_y
    rw [toInt_eq _ r3, toInt_eq _ r4]
  unfold HSMonitor.padded_contains at hc
  rw [ex, ey]
  refine ⟨⟨rfl, rfl⟩, ?_, ?_⟩ <;> omega

theorem monitor_with_coordinate_first_match_witness :
    (∀ m ∈ (example_state [example_monitor 1 ⟨0, 0, 800, 600⟩,
        example_monitor 2 ⟨800, 0, 800, 600⟩,
        example_monitor 3 ⟨800, 0, 100, 100⟩]).g_monitors, m.padded_in_int) ∧
    (monitor_with_coordinate
      (example_state [example_monitor 1 ⟨0, 0, 800, 600⟩, example_monitor 2 ⟨800, 0, 800, 600⟩,
        example_monitor 3 ⟨800, 0, 100, 100⟩]) 850 50 = some 1 ∧
      (example_state [example_monitor 1 ⟨0, 0, 800, 600⟩, example_monitor 2 ⟨800, 0, 800, 600⟩,
        example_monitor 3 ⟨800, 0, 100, 100⟩]).monitor 1 =
        some (example_monitor 2 ⟨800, 0, 800, 600⟩) ∧
      (example_monitor 2 ⟨800, 0, 800, 600⟩).relative_in_int 850 50) ∧
    ((0 ≤ monitor_get_relative_x (example_monitor 2 ⟨800, 0, 800, 600⟩) 850 ∧
        monitor_get_relative_x (example_monitor 2 ⟨800, 0, 800, 600⟩) 850 <
          (example_monitor 2 ⟨800, 0, 800, 600⟩).rect.width -
            (example_monitor 2 ⟨800, 0, 800, 600⟩).pad_left -
            (example_monitor 2 ⟨800, 0, 800, 600⟩).pad_right) ∧
      (0 ≤ monitor_get_relative_y (example_monitor 2 ⟨800, 0, 800, 600⟩) 50 ∧
        monitor_get_relative_y (example_monitor 2 ⟨800, 0, 800, 600⟩) 50 <
          (example_monitor 2 ⟨800, 0, 800, 600⟩).rect.height -
            (example_monitor 2 ⟨800, 0, 800, 600⟩).pad_up -
            (example_monitor 2 ⟨800, 0, 800, 600⟩).pad_down)) :=
  ⟨by decide, ⟨by decide, by decide, by decide⟩,
    ((monitor_with_coordinate_first_match
      (example_state [example_monitor 1 ⟨0, 0, 800, 600⟩, example_monitor 2 ⟨800, 0, 800, 600⟩,
        example_monitor 3 ⟨800, 0, 100, 100⟩]) 850 50 (by decide)).2.2 1
      (example_monitor 2 ⟨800, 0, 800, 600⟩) (by decide) (by decide) (by decide)).2⟩

/-! ## The border split -/

theorem pairwise_reduceOption_four {α : Type} (R : α → α → Prop) (a b c d : Option α)
    (hab : ∀ x y, a = some x → b = some y → R x y)
    (hac : ∀ x y, a = some x → c = some y → R x y)
    (had : ∀ x y, a = some x → d = some y → R x y)
    (hbc : ∀ x y, b = some x → c = some y → R x y)
    (hbd : ∀ x y, b = some x → d = some y → R x y)
    (hcd : ∀ x y, c = some x → d = some y → R x y) :
    ([a, b, c, d].reduceOption).Pairwise R := by
  cases a <;> cases b <;> cases c <;> cases d <;>
    simp [List.reduceOption_cons_of_some, List.reduceOption_cons_of_none] <;>
    simp_all

/-- For a rectangle inside the coordinate space of `short` the parts of the border are
pairwise disjoint. -/
theorem insert_rect_border_parts_disjoint (large center : XRectangle) (hl : large.InRange)
    (hc : center.WF) (hcl : center.within large) :
    rectlist_disjoint (insert_rect_border.parts large center).reduceOption := by
  unfold XRectangle.InRange XRectangle.WF at hl
  unfold XRectangle.WF at hc
  unfold XRectangle.within at hcl
  unfold rectlist_disjoint
  apply pairwise_reduceOption_four <;>
  · intro f g hf hg
    obtain ⟨h1, h2, rfl⟩ := rectlist_create_simple_some _ _ _ _ _ hf
    obtain ⟨h3, h4, rfl⟩ := rectlist_create_simple_some _ _ _ _ _ hg
    rw [rects_intersect_false_iff]
    simp only
    unfold toShort toUShort
    omega

theorem insert_rect_border_loop_of_disjoint (fuel : Nat) :
    ∀ (parts : List (Option XRectangle)) (head : List XRectangle),
      rectlist_disjoint (head ++ parts.reduceOption) →
      (head ++ parts.reduceOption).length < fuel →
      insert_rect_border.loop (reclist_insert_disjoint fuel) parts head =
        some (head ++ parts.reduceOption) := by
  intro parts
  induction parts with
  | nil => intro head _ _; simp [insert_rect_border.loop]
  | cons p ps ih =>
    intro head hd hlen
    cases p with
    | none =>
      rw [List.reduceOption_cons_of_none] at hd hlen ⊢
      simp only [insert_rect_border.loop]
      obtain ⟨n, rfl⟩ : ∃ n, fuel = n + 1 := ⟨fuel - 1, by omega⟩
      rw [reclist_insert_disjoint_none]
      exact ih head hd hlen
    | some f =>
      rw [List.reduceOption_cons_of_some] at hd hlen ⊢
      have hd1 := hd
      unfold rectlist_disjoint at hd1
      rw [List.pairwise_append] at hd1
      simp only [insert_rect_border.loop]
      rw [reclist_insert_disjoint_append f fuel head
        (fun r hr => hd1.2.2 r hr f (List.mem_cons_self _ _))
        (by simp only [List.length_append, List.length_cons] at hlen; omega)]
      have hassoc : head ++ [f] ++ ps.reduceOption = head ++ f :: ps.reduceOption := by simp
      have := ih (head ++ [f]) (by rw [hassoc]; exact hd) (by rw [hassoc]; exact hlen)
      rw [hassoc] at this
      exact this

/-- C20, as stated, fails where the right part crosses the end of the `short`
coordinate space: for `large = 2000x10+32000+0` and the non-degenerate
`center = 1000x10+32000+0` inside it, the only part is stored at `x = -32536`, and the
point `(33000, 0)` of `large` lies neither in `center` nor in a part. -/
theorem insert_rect_border_wraps_right_part :
    (⟨32000, 0, 2000, 10⟩ : XRectangle).WF ∧ (⟨32000, 0, 1000, 10⟩ : XRectangle).WF ∧
    (⟨32000, 0, 1000, 10⟩ : XRectangle).within ⟨32000, 0, 2000, 10⟩ ∧
    (insert_rect_border.parts ⟨32000, 0, 2000, 10⟩ ⟨32000, 0, 1000, 10⟩).reduceOption =
      [⟨-32536, 0, 1000, 10⟩] ∧
    (⟨32000, 0, 2000, 10⟩ : XRectangle).contains 33000 0 ∧
    ¬ (⟨32000, 0, 1000, 10⟩ : XRectangle).contains 33000 0 ∧
    ¬ rectlist_covers
      (insert_rect_border.parts ⟨32000, 0, 2000, 10⟩ ⟨32000, 0, 1000, 10⟩).reduceOption
      33000 0 := by
  decide

/-- C20 (amended): the border split is a partition. For every rectangle `large` inside
the coordinate space of `short` (`x + width ≤ 32768`, `y + height ≤ 32768`) and every
non-degenerate rectangle `center` contained in `large`, the parts `insert_rect_border`
builds and inserts (top, left, right, bottom, those with `x1 < x2` and `y1 < y2`) are
at most four, each non-degenerate, pairwise disjoint, disjoint from `center`, and
together with `center` they cover exactly `large`, so
`area large = area center + sum of the areas of the parts`. -/
theorem insert_rect_border_partition (large center : XRectangle) (hl : large.InRange)
    (hc : center.WF) (_hnd : 0 < center.width ∧ 0 < center.height)
    (hcl : center.within large) :
    (∀ fuel, 4 < fuel →
      insert_rect_border (reclist_insert_disjoint fuel) [] large center =
        some (insert_rect_border.parts large center).reduceOption) ∧
    (insert_rect_border.parts large center).reduceOption.length ≤ 4 ∧
    (∀ f ∈ (insert_rect_border.parts large center).reduceOption,
      0 < f.width ∧ 0 < f.height) ∧
    (∀ (i j : Nat) (a b : XRectangle), i ≠ j →
      (insert_rect_border.parts large center).reduceOption[i]? = some a →
      (insert_rect_border.parts large center).reduceOption[j]? = some b →
      rects_intersect a b = false ∧ ∀ px py, ¬ (a.contains px py ∧ b.contains px py)) ∧
    (∀ f ∈ (insert_rect_border.parts large center).reduceOption,
      rects_intersect center f = false ∧
      ∀ px py, ¬ (center.contains px py ∧ f.contains px py)) ∧
    (∀ px py, large.contains px py ↔
      (center.contains px py ∨
        rectlist_covers (insert_rect_border.parts large center).reduceOption px py)) ∧
    large.area =
      center.area + rectlist_area (insert_rect_border.parts large center).reduceOption := by
  have hlen : (insert_rect_border.parts large center).reduceOption.length ≤ 4 := by
    have := List.reduceOption_length_le (insert_rect_border.parts large center)
    simpa [insert_rect_border.parts] using this
  have hdis := insert_rect_border_parts_disjoint large center hl hc hcl
  refine ⟨?_, hlen, ?_, ?_, ?_, ?_, ?_⟩
  · intro fuel hf
    have := insert_rect_border_loop_of_disjoint fuel (insert_rect_border.parts large center) []
      (by simpa using hdis) (by simp only [List.nil_append]; omega)
    simpa [insert_rect_border] using this
  · intro f hf
    exact (insert_rect_border_parts_wf large center f hl.1 hc hcl hf).2
  · intro i j a b hij ha hb
    exact rectlist_disjoint_index _ hdis i j a b hij ha hb
  · intro f hf
    have h := insert_rect_border_parts_inRange large center f hl hc hcl hf
    exact ⟨h.2.2.1, fun px py hp => (h.2.2.2 px py hp.2).2 hp.1⟩
  · intro px py
    constructor
    · intro hp
      exact insert_rect_border_parts_cover large center hl hc hcl px py hp
    · rintro (hp | ⟨f, hf, hp⟩)
      · unfold XRectangle.within at hcl
        unfold XRectangle.contains at hp ⊢
        omega
      · exact ((insert_rect_border_parts_inRange large center f hl hc hcl hf).2.2.2
          px py hp).1
  · rw [insert_rect_border_parts_area large center hl.1 hc hcl]
    ring

theorem insert_rect_border_partition_witness :
    ((⟨0, 0, 10, 10⟩ : XRectangle).InRange ∧ (⟨5, 5, 5, 5⟩ : XRectangle).WF ∧
      ((0 : Int) < (⟨5, 5, 5, 5⟩ : XRectangle).width ∧
        (0 : Int) < (⟨5, 5, 5, 5⟩ : XRectangle).height) ∧
      (⟨5, 5, 5, 5⟩ : XRectangle).within ⟨0, 0, 10, 10⟩) ∧
    (insert_rect_border.parts ⟨0, 0, 10, 10⟩ ⟨5, 5, 5, 5⟩).reduceOption =
      [⟨0, 0, 10, 5⟩, ⟨0, 5, 5, 5⟩] ∧
    (⟨0, 0, 10, 10⟩ : XRectangle).area = (⟨5, 5, 5, 5⟩ : XRectangle).area +
      rectlist_area (insert_rect_border.parts ⟨0, 0, 10, 10⟩ ⟨5, 5, 5, 5⟩).reduceOption :=
  ⟨by decide, by decide,
    (insert_rect_border_partition ⟨0, 0, 10, 10⟩ ⟨5, 5, 5, 5⟩ (by decide) (by decide)
      (by decide) (by decide)).2.2.2.2.2.2⟩

/-! ## The intersection test and the intersection -/

/-- C21: for all rectangles `a` and `b` with positive width and height,
`rects_intersect a b` is true if and only if some point lies in both half-open
rectangles; rectangles that only touch along an edge or at a corner do not intersect;
the test is symmetric; and whenever it is true, `intersection_area a b` has positive
width and height and contains exactly the points common to `a` and `b`. -/
theorem rects_intersect_common_point (a b : XRectangle) (ha : a.WF) (hb : b.WF)
    (hap : 0 < a.width ∧ 0 < a.height) (hbp : 0 < b.width ∧ 0 < b.height) :
    (rects_intersect a b = true ↔ ∃ px py, a.contains px py ∧ b.contains px py) ∧
    ((a.x + a.width ≤ b.x ∨ b.x + b.width ≤ a.x ∨ a.y + a.height ≤ b.y ∨
        b.y + b.height ≤ a.y) → rects_intersect a b = false) ∧
    rects_intersect a b = rects_intersect b a ∧
    (rects_intersect a b = true →
      0 < (intersection_area a b).width ∧ 0 < (intersection_area a b).height ∧
      (intersection_area a b).WF ∧
      ∀ px py, (intersection_area a b).contains px py ↔
        (a.contains px py ∧ b.contains px py)) := by
  refine ⟨?_, ?_, rects_intersect_comm a b, ?_⟩
  · constructor
    · intro h
      rw [rects_intersect_iff] at h
      refine ⟨max a.x b.x, max a.y b.y, ?_⟩
      unfold XRectangle.contains
      omega
    · rintro ⟨px, py, h1, h2⟩
      exact rects_intersect_of_contains a b px py h1 h2
  · intro h
    rw [rects_intersect_false_iff]
    omega
  · intro h
    have he := intersection_area_eq a b ha hb h
    have hc := intersection_area_contains a b ha hb h
    have hw := intersection_area_wf a b ha hb h
    rw [rects_intersect_iff] at h
    refine ⟨?_, ?_, hw, hc⟩
    · rw [he]
      simp only
      omega
    · rw [he]
      simp only
      omega

theorem rects_intersect_common_point_witness :
    ((⟨0, 0, 10, 10⟩ : XRectangle).contains 7 7 ∧
      (⟨5, 5, 10, 10⟩ : XRectangle).contains 7 7) ∧
    rects_intersect ⟨0, 0, 10, 10⟩ ⟨5, 5, 10, 10⟩ = true ∧
    (∀ px py, (intersection_area ⟨0, 0, 10, 10⟩ ⟨5, 5, 10, 10⟩).contains px py ↔
      ((⟨0, 0, 10, 10⟩ : XRectangle).contains px py ∧
        (⟨5, 5, 10, 10⟩ : XRectangle).contains px py)) ∧
    ((⟨0, 0, 10, 10⟩ : XRectangle).x + (⟨0, 0, 10, 10⟩ : XRectangle).width ≤
        (⟨10, 0, 10, 10⟩ : XRectangle).x ∧
      rects_intersect ⟨0, 0, 10, 10⟩ ⟨10, 0, 10, 10⟩ = false) :=
  ⟨by decide,
    (rects_intersect_common_point ⟨0, 0, 10, 10⟩ ⟨5, 5, 10, 10⟩ (by decide) (by decide)
      (by decide) (by decide)).1.mpr ⟨7, 7, by decide, by decide⟩,
    ((rects_intersect_common_point ⟨0, 0, 10, 10⟩ ⟨5, 5, 10, 10⟩ (by decide) (by decide)
      (by decide) (by decide)).2.2.2 (by decide)).2.2.2,
    by decide,
    (rects_intersect_common_point ⟨0, 0, 10, 10⟩ ⟨10, 0, 10, 10⟩ (by decide) (by decide)
      (by decide) (by decide)).2.1 (Or.inl (by decide))⟩

/-! ## Termination of the decomposition -/

/-- Every part `rectlist_create_simple` builds is a value of the type `XRectangle`. -/
theorem insert_rect_border_parts_wf_any (large center f : XRectangle)
    (hf : f ∈ (insert_rect_border.parts large center).reduceOption) : f.WF := by
  rcases insert_rect_border_mem_parts large center f hf with h | h | h | h <;>
  · obtain ⟨_, _, rfl⟩ := rectlist_create_simple_some _ _ _ _ _ h
    exact ⟨toShort_range _, toShort_range _, toUShort_range _, toUShort_range _⟩

/-- Inserting a list of well-formed parts into a well-formed list returns. -/
theorem insert_rect_border_loop_returns :
    ∀ (parts : List (Option XRectangle)) (head : List XRectangle),
      (∀ r ∈ head, r.WF) → (∀ r ∈ parts.reduceOption, r.WF) →
      ∃ fuel res, ∀ fuel1, fuel ≤ fuel1 →
        insert_rect_border.loop (reclist_insert_disjoint fuel1) parts head = some res := by
  intro parts
  induction parts with
  | nil => intro head _ _; exact ⟨0, head, fun _ _ => rfl⟩
  | cons p ps ih =>
    intro head hh hp
    cases p with
    | none =>
      obtain ⟨fuel, res, h⟩ := ih head hh (by simpa [List.reduceOption_cons_of_none] using hp)
      refine ⟨fuel + 1, res, fun fuel1 hle => ?_⟩
      obtain ⟨k, rfl⟩ : ∃ k, fuel1 = k + 1 := ⟨fuel1 - 1, by omega⟩
      simp only [insert_rect_border.loop, reclist_insert_disjoint_none]
      exact h (k + 1) (by omega)
    | some f =>
      rw [List.reduceOption_cons_of_some] at hp
      have hfw : f.WF := hp f (List.mem_cons_self _ _)
      obtain ⟨fuel0, head1, h0⟩ := reclist_insert_disjoint_terminates head f hh hfw
      have hw := (reclist_insert_disjoint_wf _ _ _ _ (h0 fuel0 (le_refl _)) hh (by
        intro r hq
        simp only [Option.toList, List.mem_singleton] at hq
        subst hq; exact hfw)).1
      obtain ⟨fuel1, res, h1⟩ := ih head1 hw (fun r hr => hp r (List.mem_cons_of_mem _ hr))
      refine ⟨max fuel0 fuel1, res, fun fuel2 hle => ?_⟩
      simp only [insert_rect_border.loop]
      rw [h0 fuel2 (le_trans (Nat.le_max_left _ _) hle)]
      exact h1 fuel2 (le_trans (Nat.le_max_right _ _) hle)

/-- C22: termination of the decomposition. With the recursion depth of
`reclist_insert_disjoint` bounded by `fuel`, for every sequence of rectangles (of
positive width and height or not) there is a depth from which on `disjoin_rects` returns
one and the same list; the same holds for `reclist_insert_disjoint` on every list
(pairwise disjoint or not) and every element, and for `insert_rect_border` on every
list, although the parts are inserted into a tail that earlier parts have made longer:
inserting `10x10+5+5` into the one-element list `[10x10+0+0]` needs depth 5, not 2,
because the last part walks a tail grown from 0 to 3 nodes. -/
theorem decomposition_terminates :
    (∀ buf : List XRectangle, (∀ r ∈ buf, r.WF) →
      ∃ fuel res, ∀ fuel1, fuel ≤ fuel1 → disjoin_rects fuel1 buf = some res) ∧
    (∀ (head : List XRectangle) (e : XRectangle), (∀ r ∈ head, r.WF) → e.WF →
      ∃ fuel res, ∀ fuel1, fuel ≤ fuel1 →
        reclist_insert_disjoint fuel1 head (some e) = some res) ∧
    (∀ (head : List XRectangle) (large center : XRectangle), (∀ r ∈ head, r.WF) →
      ∃ fuel res, ∀ fuel1, fuel ≤ fuel1 →
        insert_rect_border (reclist_insert_disjoint fuel1) head large center = some res) ∧
    (reclist_insert_disjoint 4 [⟨0, 0, 10, 10⟩] (some ⟨5, 5, 10, 10⟩) = none ∧
      reclist_insert_disjoint 5 [⟨0, 0, 10, 10⟩] (some ⟨5, 5, 10, 10⟩) =
        some [⟨5, 5, 5, 5⟩, ⟨0, 0, 10, 5⟩, ⟨0, 5, 5, 5⟩, ⟨10, 5, 5, 5⟩, ⟨5, 10, 10, 5⟩]) := by
  refine ⟨fun buf hb => disjoin_rects_terminates buf hb,
    fun head e hh he => reclist_insert_disjoint_terminates head e hh he, ?_,
    by decide, by decide⟩
  intro head large center hh
  exact insert_rect_border_loop_returns _ head hh
    (fun r hr => insert_rect_border_parts_wf_any large center r hr)

theorem decomposition_terminates_witness :
    (∀ r ∈ [(⟨0, 0, 10, 10⟩ : XRectangle), ⟨5, 5, 10, 10⟩, ⟨32000, 0, 2000, 10⟩], r.WF) ∧
    ∃ fuel res, ∀ fuel1, fuel ≤ fuel1 →
      disjoin_rects fuel1 [⟨0, 0, 10, 10⟩, ⟨5, 5, 10, 10⟩, ⟨32000, 0, 2000, 10⟩] =
        some res :=
  ⟨by decide, decomposition_terminates.1 _ (by decide)⟩
